import Mathlib

/-!
# HCI command processing of the NimBLE link-layer controller

A shallow embedding of `nimble/controller/src/ll_hci.c`:

* `ll_hci_get_num_cmd_pkts`, `ll_hci_event_send`, `ll_hci_set_le_event_mask`,
  `ll_hci_le_read_bufsize`, `ll_hci_le_cmd_proc`, `ll_hci_cmd_proc` and
  `hci_transport_host_cmd_send` are translated statement by statement into
  state-passing functions on `LLState`;
* the globals of the file (`g_ll_hci_le_event_mask`, `g_ll_stats`,
  `g_hci_cmd_pool`, `g_hci_os_event_pool`, `g_ll_data.ll_evq`) are fields of
  `LLState`, next to the memory of the command blocks and event envelopes;
* the constants of the headers the file includes are the fields of
  `HciConsts`, taken as a parameter, except the few the specification fixes;
* the advertising and scanning handlers, which live in other files, are the
  fields of `Handlers`, taken as a parameter;
* a ghost `log` records, in program order, every read and write of a byte of
  the command buffer and every call and return of a handler, so that "is not
  invoked" and "is read before it is written" can be stated.
-/

namespace LlHci

/-! ## Machine integers and memory blocks -/

/-- The C type `uint8_t`. -/
abbrev Byte := Fin 256

/-- Conversion of a non-negative integer to `uint8_t` (reduction modulo 256). -/
def u8 (n : Nat) : Byte := ⟨n % 256, Nat.mod_lt n (by decide)⟩

/-- The C cast `(uint8_t)rc` of an `int`: reduction modulo 256. -/
def u8_of_int (z : Int) : Byte := u8 (z % 256).toNat

/-- A block of memory seen from a pointer to it: offset to byte. -/
abbrev Buf := Nat → Byte

/-- The memory `m` of the command blocks, by block address, after the store
`c[o] = v` into the block at address `c`. -/
def mem_store (m : Nat → Buf) (c o : Nat) (v : Byte) : Nat → Buf :=
  fun a i => if a = c ∧ i = o then v else m a i

/-- The memory seen from the pointer `b + off`. -/
def Buf.shift (b : Buf) (off : Nat) : Buf := fun j => b (off + j)

/-- A block holding the listed bytes, and zero after them. -/
def Buf.ofList (l : List Nat) : Buf := fun j => u8 (l.getD j 0)

/-! ## Constants of the included headers -/

/-- Modelled from the spec: the constants of `nimble/hci_common.h`,
`nimble/ble.h` and `controller/ll.h` that `ll_hci.c` uses and whose values
neither the source file nor the specification gives. They are parameters of
the embedding. Status codes and the event code are single bytes of the
command-complete event; the ACL data-packet length is a 16-bit and the ACL
data-packet count an 8-bit response field. -/
structure HciConsts where
  BLE_HCI_OGF_LE : Nat
  BLE_HCI_OCF_LE_SET_EVENT_MASK : Nat
  BLE_HCI_OCF_LE_RD_BUF_SIZE : Nat
  BLE_HCI_OCF_LE_SET_RAND_ADDR : Nat
  BLE_HCI_OCF_LE_SET_ADV_PARAMS : Nat
  BLE_HCI_OCF_LE_RD_ADV_CHAN_TXPWR : Nat
  BLE_HCI_OCF_LE_SET_ADV_DATA : Nat
  BLE_HCI_OCF_LE_SET_SCAN_RSP_DATA : Nat
  BLE_HCI_OCF_LE_SET_ADV_ENABLE : Nat
  BLE_HCI_OCF_LE_SET_SCAN_ENABLE : Nat
  BLE_HCI_OCF_LE_SET_SCAN_PARAMS : Nat
  BLE_HCI_SET_ADV_PARAM_LEN : Nat
  BLE_HCI_SET_SCAN_ENABLE_LEN : Nat
  BLE_HCI_SET_SCAN_PARAM_LEN : Nat
  BLE_ERR_UNKNOWN_HCI_CMD : Byte
  BLE_ERR_INV_HCI_CMD_PARMS : Byte
  BLE_HCI_EVCODE_COMMAND_COMPLETE : Byte
  BLE_LL_CFG_ACL_DATA_PKT_LEN : Fin 65536
  BLE_LL_CFG_NUM_ACL_DATA_PKTS : Byte
  BLE_LL_EVENT_HCI_CMD : Nat

/-- The `case` labels of the `switch (ocf)` of `ll_hci_le_cmd_proc`, in the
order of the source. -/
def HciConsts.ocfLabels (k : HciConsts) : List Nat :=
  [k.BLE_HCI_OCF_LE_SET_EVENT_MASK, k.BLE_HCI_OCF_LE_RD_BUF_SIZE,
   k.BLE_HCI_OCF_LE_SET_RAND_ADDR, k.BLE_HCI_OCF_LE_SET_ADV_PARAMS,
   k.BLE_HCI_OCF_LE_RD_ADV_CHAN_TXPWR, k.BLE_HCI_OCF_LE_SET_ADV_DATA,
   k.BLE_HCI_OCF_LE_SET_SCAN_RSP_DATA, k.BLE_HCI_OCF_LE_SET_ADV_ENABLE,
   k.BLE_HCI_OCF_LE_SET_SCAN_ENABLE, k.BLE_HCI_OCF_LE_SET_SCAN_PARAMS]

/-- What the C compiler requires of the constants for `ll_hci.c` to compile:
the `case` labels of one `switch` are pairwise different. -/
def HciConsts.WF (k : HciConsts) : Prop := k.ocfLabels.Nodup

instance (k : HciConsts) : Decidable k.WF := by
  unfold HciConsts.WF; infer_instance

/-- Modelled from the spec: `BLE_HCI_CMD_HDR_LEN` of `nimble/hci_common.h`;
the command header is 3 bytes (2 of opcode, 1 of parameter length). -/
def BLE_HCI_CMD_HDR_LEN : Nat := 3

/-- Modelled from the spec: `BLE_HCI_EVENT_CMD_COMPLETE_HDR_LEN` of
`nimble/hci_common.h`; in the command-complete layout the response bytes
follow event code, length, credit, 2 opcode bytes and status, 6 bytes. -/
def BLE_HCI_EVENT_CMD_COMPLETE_HDR_LEN : Nat := 6

/-- Modelled from the spec: `BLE_HCI_SET_LE_EVENT_MASK_LEN` of
`nimble/hci_common.h`, the fixed length of the LE event mask: 8 bytes, the
length claim C4 gives. -/
def BLE_HCI_SET_LE_EVENT_MASK_LEN : Nat := 8

/-- Modelled from the spec: `BLE_HCI_RD_BUF_SIZE_LEN` of
`nimble/hci_common.h`; read LE buffer size takes no parameter. -/
def BLE_HCI_RD_BUF_SIZE_LEN : Nat := 0

/-- Modelled from the spec: `BLE_DEV_ADDR_LEN` of `nimble/ble.h`; a device
address is 6 bytes. -/
def BLE_DEV_ADDR_LEN : Nat := 6

/-- Modelled from the spec: `BLE_HCI_SET_ADV_ENABLE_LEN` of
`nimble/hci_common.h`; set advertising enable takes one byte. -/
def BLE_HCI_SET_ADV_ENABLE_LEN : Nat := 1

/-- Modelled from the spec: `BLE_ERR_SUCCESS` of `nimble/ble.h`; success is 0. -/
def BLE_ERR_SUCCESS : Int := 0

/-- Modelled from the spec: `BLE_ERR_MAX` of `nimble/ble.h`; the largest
status a single status byte represents. -/
def BLE_ERR_MAX : Int := 255

/-- Modelled from the spec: the macro `BLE_HCI_OCF` of `nimble/hci_common.h`;
the OCF is the lower 10 bits of the opcode. -/
def BLE_HCI_OCF (opcode : Nat) : Nat := opcode % 1024

/-- Modelled from the spec: the macro `BLE_HCI_OGF` of `nimble/hci_common.h`;
the OGF is the upper 6 bits of the 16-bit opcode. -/
def BLE_HCI_OGF (opcode : Nat) : Nat := opcode / 1024

/-! ## Operating-system primitives -/

/-- Modelled from the spec: the status of a pool operation (`os_error_t` of
`os/os.h`); only `OS_OK` is told apart from the rest. -/
inductive os_error_t where
  | OS_OK
  | OS_INVALID_PARM
  deriving DecidableEq, Repr

/-- Modelled from the spec: `struct os_mempool` of `os/os.h`, a
bounded-capacity allocator of fixed-size blocks. `mp_blocks` are the addresses
of the blocks of the pool, `mp_free` those that are free now. -/
structure os_mempool where
  mp_blocks : List Nat
  mp_free : List Nat
  deriving DecidableEq, Repr

/-- The free count of a pool. -/
def os_mempool.mp_num_free (mp : os_mempool) : Nat := mp.mp_free.length

/-- Modelled from the spec: `os_memblock_get`, the non-blocking acquire; it
gives `none` (NULL) when no block is free. -/
def os_memblock_get (mp : os_mempool) : Option Nat × os_mempool :=
  match mp.mp_free with
  | [] => (none, mp)
  | b :: rest => (some b, { mp with mp_free := rest })

/-- Modelled from the spec: `os_memblock_put`, the non-blocking release; it
is `OS_OK` exactly for a block validly acquired from this pool (a block of
the pool that is not free), which it puts back. -/
def os_memblock_put (mp : os_mempool) (block : Option Nat) : os_error_t × os_mempool :=
  match block with
  | none => (os_error_t.OS_INVALID_PARM, mp)
  | some b =>
    if b ∈ mp.mp_blocks ∧ b ∉ mp.mp_free then
      (os_error_t.OS_OK, { mp with mp_free := b :: mp.mp_free })
    else (os_error_t.OS_INVALID_PARM, mp)

/-- Modelled from the spec: `struct os_event` of `os/os.h`, the event
envelope: queued flag, type tag and argument (a nullable pointer, here to a
command block). -/
structure os_event where
  ev_queued : Nat
  ev_type : Nat
  ev_arg : Option Nat
  deriving DecidableEq, Repr

/-- Modelled from the spec: the counters of `g_ll_stats` (declared in
`controller/ll.h`) that `ll_hci.c` increments; increment-only counters. -/
structure ble_ll_stats where
  hci_cmds : Nat
  hci_cmd_errs : Nat
  hci_events_sent : Nat
  deriving DecidableEq, Repr

/-! ## The ghost log -/

/-- The functions whose invocation the log records. -/
inductive Fn where
  | ll_hci_le_cmd_proc
  | ll_hci_set_le_event_mask
  | ll_hci_le_read_bufsize
  | ll_adv_set_rand_addr
  | ll_adv_set_adv_params
  | ll_adv_read_txpwr
  | ll_adv_set_adv_data
  | ll_adv_set_scan_rsp_data
  | ll_adv_set_enable
  | ble_ll_scan_set_enable
  | ble_ll_scan_set_scan_params
  deriving DecidableEq, Repr

/-- One entry of the log. Offsets are relative to the start of the command
buffer. `call f ptr arg` is the call of `f` with the pointer `cmdbuf + ptr`
and, when `f` has a second argument passed by value, that argument. -/
inductive Event where
  | read (off : Nat)
  | write (off : Nat)
  | call (f : Fn) (ptr : Nat) (arg : Option Nat)
  | ret (f : Fn)
  deriving DecidableEq, Repr

/-- The entry is the read of a buffer byte. -/
def Event.isRead : Event → Bool
  | Event.read _ => true
  | _ => false

/-- The entry is the write of a buffer byte. -/
def Event.isWrite : Event → Bool
  | Event.write _ => true
  | _ => false

/-- The entry is the call of a function. -/
def Event.isCall : Event → Bool
  | Event.call _ _ _ => true
  | _ => false

/-! ## State -/

/-- The state `ll_hci.c` works on: its globals, the memory of the command
blocks (`cmdmem`, by block address) and of the event envelopes (`evmem`), the
state of the advertising and scanning subsystems (`collab`), and the ghost
log. -/
structure LLState (σ : Type) where
  g_ll_hci_le_event_mask : List Byte
  g_ll_stats : ble_ll_stats
  g_hci_cmd_pool : os_mempool
  g_hci_os_event_pool : os_mempool
  ll_evq : List Nat
  cmdmem : Nat → Buf
  evmem : Nat → os_event
  collab : σ
  log : List Event

/-- Modelled from the spec: the handlers of the advertising and scanning
subsystems (`controller/ll_adv.h`, `controller/ll_scan.h`), which are not in
`ll_hci.c`. A handler that takes the parameter pointer reads the memory from
that pointer on, acts on the subsystem state and returns a status (a C
`int`); `ll_adv_read_txpwr` returns a status and the one byte it writes at
the response pointer. The second argument of the two data handlers is their
`len` argument. -/
structure Handlers (σ : Type) where
  ll_adv_set_rand_addr : Buf → σ → Int × σ
  ll_adv_set_adv_params : Buf → σ → Int × σ
  ll_adv_read_txpwr : σ → Int × Byte × σ
  ll_adv_set_adv_data : Buf → Nat → σ → Int × σ
  ll_adv_set_scan_rsp_data : Buf → Nat → σ → Int × σ
  ll_adv_set_enable : Buf → σ → Int × σ
  ble_ll_scan_set_enable : Buf → σ → Int × σ
  ble_ll_scan_set_scan_params : Buf → σ → Int × σ

variable {σ : Type}

/-- Append entries to the log. -/
def LLState.note (s : LLState σ) (es : List Event) : LLState σ :=
  { s with log := s.log ++ es }

/-- The load `cmdbuf[off]` from the command block at address `cmdbuf`. -/
def rd (cmdbuf off : Nat) (s : LLState σ) : Byte × LLState σ :=
  (s.cmdmem cmdbuf off, s.note [Event.read off])

/-- The store `cmdbuf[off] = v` into the command block at address `cmdbuf`. -/
def wr (cmdbuf off : Nat) (v : Byte) (s : LLState σ) : LLState σ :=
  { s with
    cmdmem := mem_store s.cmdmem cmdbuf off v
    log := s.log ++ [Event.write off] }

/-- Modelled from the spec: `le16toh` of `nimble/ble.h`, the read of a
little-endian 16-bit value at `cmdbuf + off`. -/
def le16toh (cmdbuf off : Nat) (s : LLState σ) : Nat × LLState σ :=
  let (b0, s) := rd cmdbuf off s
  let (b1, s) := rd cmdbuf (off + 1) s
  (b0.val + 256 * b1.val, s)

/-- Modelled from the spec: `htole16` of `nimble/ble.h`, the store of the
16-bit value `x` in little-endian order at `cmdbuf + off`. -/
def htole16 (cmdbuf off : Nat) (x : Nat) (s : LLState σ) : LLState σ :=
  let s := wr cmdbuf off (u8 x) s
  wr cmdbuf (off + 1) (u8 (x / 256)) s

/-- The C library `memcpy` out of the command block: the `n` bytes at
`cmdbuf + ptr`, read in ascending order. -/
def memcpy_from (cmdbuf ptr n : Nat) (s : LLState σ) : List Byte × LLState σ :=
  ((List.range n).map (fun i => s.cmdmem cmdbuf (ptr + i)),
   s.note ((List.range n).map (fun i => Event.read (ptr + i))))

/-- A call `f(cmdbuf + ptr)` or `f(cmdbuf + ptr, arg)` with its bracket in the
log: the call is logged, the body runs, the return is logged. -/
def logged {α : Type} (f : Fn) (ptr : Nat) (arg : Option Nat)
    (body : LLState σ → α × LLState σ) (s : LLState σ) : α × LLState σ :=
  let r := body (s.note [Event.call f ptr arg])
  (r.1, r.2.note [Event.ret f])

/-- The body of a handler of another subsystem: it acts on the subsystem
state only. -/
def handler_body (h : σ → Int × σ) (s : LLState σ) : Int × LLState σ :=
  let r := h s.collab
  (r.1, { s with collab := r.2 })

/-! ## The functions of `ll_hci.c` -/

/-- Source lines 46-50: the number of command packets the host may send. -/
def ll_hci_get_num_cmd_pkts : Byte := 1

/-- Source lines 57-75: both blocks are put back to their pools, each put
asserted to be `OS_OK`, and the counter of events sent is incremented.
`Except.error t` is a failed assertion (abort), reached in state `t`;
`Except.ok` carries the returned `int` and the state. -/
def ll_hci_event_send (ev : Nat) (s : LLState σ) :
    Except (LLState σ) (Int × LLState σ) :=
  let r := os_memblock_put s.g_hci_cmd_pool (s.evmem ev).ev_arg
  let s := { s with g_hci_cmd_pool := r.2 }
  if r.1 ≠ os_error_t.OS_OK then Except.error s else
  let r := os_memblock_put s.g_hci_os_event_pool (some ev)
  let s := { s with g_hci_os_event_pool := r.2 }
  if r.1 ≠ os_error_t.OS_OK then Except.error s else
  let s := { s with g_ll_stats :=
    { s.g_ll_stats with hci_events_sent := s.g_ll_stats.hci_events_sent + 1 } }
  Except.ok (0, s)

/-- Source lines 88-94: the mask bytes are copied from `cmdbuf + ptr`. -/
def ll_hci_set_le_event_mask (cmdbuf ptr : Nat) (s : LLState σ) : Int × LLState σ :=
  let (bytes, s) := memcpy_from cmdbuf ptr BLE_HCI_SET_LE_EVENT_MASK_LEN s
  (BLE_ERR_SUCCESS, { s with g_ll_hci_le_event_mask := bytes })

/-- Source lines 107-114: packet length and packet count are stored at
`cmdbuf + ptr`, the response pointer. -/
def ll_hci_le_read_bufsize (k : HciConsts) (cmdbuf ptr : Nat) (s : LLState σ) :
    Int × LLState σ :=
  let s := htole16 cmdbuf ptr k.BLE_LL_CFG_ACL_DATA_PKT_LEN.val s
  let s := wr cmdbuf (ptr + 2) k.BLE_LL_CFG_NUM_ACL_DATA_PKTS s
  (BLE_ERR_SUCCESS, s)

/-- The body of `ll_adv_read_txpwr(cmdbuf + ptr)`: the subsystem gives a
status and a power level, and the level is stored at the pointer. -/
def read_txpwr_body (H : Handlers σ) (cmdbuf ptr : Nat) (s : LLState σ) :
    Int × LLState σ :=
  let r := H.ll_adv_read_txpwr s.collab
  (r.1, wr cmdbuf ptr r.2.1 { s with collab := r.2.2 })

/-- The branches of the `switch (ocf)` of `ll_hci_le_cmd_proc`: one for each
`case` label, and the `default` branch. -/
inductive LeCase where
  | LE_SET_EVENT_MASK
  | LE_RD_BUF_SIZE
  | LE_SET_RAND_ADDR
  | LE_SET_ADV_PARAMS
  | LE_RD_ADV_CHAN_TXPWR
  | LE_SET_ADV_DATA
  | LE_SET_SCAN_RSP_DATA
  | LE_SET_ADV_ENABLE
  | LE_SET_SCAN_ENABLE
  | LE_SET_SCAN_PARAMS
  | other
  deriving DecidableEq, Repr

/-- The branch that `switch (ocf)` of `ll_hci_le_cmd_proc` (source lines
153-215) takes: the labels are tried in the order of the source. -/
def switch_ocf (k : HciConsts) (ocf : Nat) : LeCase :=
  if ocf = k.BLE_HCI_OCF_LE_SET_EVENT_MASK then LeCase.LE_SET_EVENT_MASK
  else if ocf = k.BLE_HCI_OCF_LE_RD_BUF_SIZE then LeCase.LE_RD_BUF_SIZE
  else if ocf = k.BLE_HCI_OCF_LE_SET_RAND_ADDR then LeCase.LE_SET_RAND_ADDR
  else if ocf = k.BLE_HCI_OCF_LE_SET_ADV_PARAMS then LeCase.LE_SET_ADV_PARAMS
  else if ocf = k.BLE_HCI_OCF_LE_RD_ADV_CHAN_TXPWR then LeCase.LE_RD_ADV_CHAN_TXPWR
  else if ocf = k.BLE_HCI_OCF_LE_SET_ADV_DATA then LeCase.LE_SET_ADV_DATA
  else if ocf = k.BLE_HCI_OCF_LE_SET_SCAN_RSP_DATA then LeCase.LE_SET_SCAN_RSP_DATA
  else if ocf = k.BLE_HCI_OCF_LE_SET_ADV_ENABLE then LeCase.LE_SET_ADV_ENABLE
  else if ocf = k.BLE_HCI_OCF_LE_SET_SCAN_ENABLE then LeCase.LE_SET_SCAN_ENABLE
  else if ocf = k.BLE_HCI_OCF_LE_SET_SCAN_PARAMS then LeCase.LE_SET_SCAN_PARAMS
  else LeCase.other

/-- Source lines 130-218. `cmdbuf` is the address of the command block, `ocf`
the `uint16_t` argument, `rsplen` the value `*rsplen` has at the call; the
result is the returned `rc`, the value of `*rsplen` at the return, and the
state. -/
def ll_hci_le_cmd_proc (k : HciConsts) (H : Handlers σ) (cmdbuf ocf : Nat)
    (rsplen : Byte) (s : LLState σ) : Int × Byte × LLState σ :=
  let rc : Int := k.BLE_ERR_INV_HCI_CMD_PARMS.val
  let (len, s) := rd cmdbuf 2 s
  let rspbuf := BLE_HCI_EVENT_CMD_COMPLETE_HDR_LEN
  let params := BLE_HCI_CMD_HDR_LEN
  match switch_ocf k ocf with
  | LeCase.LE_SET_EVENT_MASK =>
    if len.val = BLE_HCI_SET_LE_EVENT_MASK_LEN then
      let (rc, s) := logged Fn.ll_hci_set_le_event_mask params none
        (ll_hci_set_le_event_mask cmdbuf params) s
      (rc, rsplen, s)
    else (rc, rsplen, s)
  | LeCase.LE_RD_BUF_SIZE =>
    if len.val = BLE_HCI_RD_BUF_SIZE_LEN then
      let (rc, s) := logged Fn.ll_hci_le_read_bufsize rspbuf none
        (ll_hci_le_read_bufsize k cmdbuf rspbuf) s
      (rc, 3, s)
    else (rc, rsplen, s)
  | LeCase.LE_SET_RAND_ADDR =>
    if len.val = BLE_DEV_ADDR_LEN then
      let (rc, s) := logged Fn.ll_adv_set_rand_addr params none
        (handler_body (H.ll_adv_set_rand_addr ((s.cmdmem cmdbuf).shift params))) s
      (rc, rsplen, s)
    else (rc, rsplen, s)
  | LeCase.LE_SET_ADV_PARAMS =>
    if len.val = k.BLE_HCI_SET_ADV_PARAM_LEN then
      let (rc, s) := logged Fn.ll_adv_set_adv_params params none
        (handler_body (H.ll_adv_set_adv_params ((s.cmdmem cmdbuf).shift params))) s
      (rc, rsplen, s)
    else (rc, rsplen, s)
  | LeCase.LE_RD_ADV_CHAN_TXPWR =>
    if len.val = BLE_HCI_RD_BUF_SIZE_LEN then
      let (rc, s) := logged Fn.ll_adv_read_txpwr rspbuf none
        (read_txpwr_body H cmdbuf rspbuf) s
      (rc, 1, s)
    else (rc, rsplen, s)
  | LeCase.LE_SET_ADV_DATA =>
    if len.val > 0 then
      let len := len.val - 1
      let (rc, s) := logged Fn.ll_adv_set_adv_data params (some len)
        (handler_body (H.ll_adv_set_adv_data ((s.cmdmem cmdbuf).shift params) len)) s
      (rc, rsplen, s)
    else (rc, rsplen, s)
  | LeCase.LE_SET_SCAN_RSP_DATA =>
    if len.val > 0 then
      let len := len.val - 1
      let (rc, s) := logged Fn.ll_adv_set_scan_rsp_data params (some len)
        (handler_body (H.ll_adv_set_scan_rsp_data ((s.cmdmem cmdbuf).shift params) len)) s
      (rc, rsplen, s)
    else (rc, rsplen, s)
  | LeCase.LE_SET_ADV_ENABLE =>
    if len.val = BLE_HCI_SET_ADV_ENABLE_LEN then
      let (rc, s) := logged Fn.ll_adv_set_enable params none
        (handler_body (H.ll_adv_set_enable ((s.cmdmem cmdbuf).shift params))) s
      (rc, rsplen, s)
    else (rc, rsplen, s)
  | LeCase.LE_SET_SCAN_ENABLE =>
    if len.val = k.BLE_HCI_SET_SCAN_ENABLE_LEN then
      let (rc, s) := logged Fn.ble_ll_scan_set_enable params none
        (handler_body (H.ble_ll_scan_set_enable ((s.cmdmem cmdbuf).shift params))) s
      (rc, rsplen, s)
    else (rc, rsplen, s)
  | LeCase.LE_SET_SCAN_PARAMS =>
    if len.val = k.BLE_HCI_SET_SCAN_PARAM_LEN then
      let (rc, s) := logged Fn.ble_ll_scan_set_scan_params params none
        (handler_body (H.ble_ll_scan_set_scan_params ((s.cmdmem cmdbuf).shift params))) s
      (rc, rsplen, s)
    else (rc, rsplen, s)
  | LeCase.other => (rc, rsplen, s)

/-- Source lines 234-250 of `ll_hci_cmd_proc`: the opcode is decoded, the
response length is set to zero and the command is dispatched on its OGF. The
result is the opcode, `rc`, `rsplen` and the state. -/
def ll_hci_cmd_dispatch (k : HciConsts) (H : Handlers σ) (cmdbuf : Nat)
    (s : LLState σ) : Nat × Int × Byte × LLState σ :=
  let (opcode, s) := le16toh cmdbuf 0 s
  let ocf := BLE_HCI_OCF opcode
  let ogf := (BLE_HCI_OGF opcode) % 256
  let rsplen : Byte := 0
  if ogf = k.BLE_HCI_OGF_LE then
    let s := s.note [Event.call Fn.ll_hci_le_cmd_proc 0 (some ocf)]
    let (rc, rsplen, s) := ll_hci_le_cmd_proc k H cmdbuf ocf rsplen s
    (opcode, rc, rsplen, s.note [Event.ret Fn.ll_hci_le_cmd_proc])
  else
    (opcode, (k.BLE_ERR_UNKNOWN_HCI_CMD.val : Int), rsplen, s)

/-- Source lines 266-272 of `ll_hci_cmd_proc`: the command-complete event is
written over the first six bytes of the command buffer. -/
def ll_hci_cmd_complete (k : HciConsts) (cmdbuf opcode : Nat) (rc : Int)
    (rsplen : Byte) (s : LLState σ) : LLState σ :=
  let s := wr cmdbuf 0 k.BLE_HCI_EVCODE_COMMAND_COMPLETE s
  let s := wr cmdbuf 1 (u8 (4 + rsplen.val)) s
  let s := wr cmdbuf 2 ll_hci_get_num_cmd_pkts s
  let s := htole16 cmdbuf 3 opcode s
  wr cmdbuf 5 (u8_of_int rc) s

/-- Source lines 220-280. `ev` is the address of the event envelope;
`Except.error t` is a failed assertion (abort), reached in state `t`, and
`Except.ok` carries the state at the return. -/
def ll_hci_cmd_proc (k : HciConsts) (H : Handlers σ) (ev : Nat)
    (s : LLState σ) : Except (LLState σ) (LLState σ) :=
  match (s.evmem ev).ev_arg with
  | none => Except.error s
  | some cmdbuf =>
    let (opcode, rc, rsplen, s) := ll_hci_cmd_dispatch k H cmdbuf s
    if rc < 0 then Except.error s else
    let s :=
      if rc ≠ 0 then
        { s with g_ll_stats :=
          { s.g_ll_stats with hci_cmd_errs := s.g_ll_stats.hci_cmd_errs + 1 } }
      else
        { s with g_ll_stats :=
          { s.g_ll_stats with hci_cmds := s.g_ll_stats.hci_cmds + 1 } }
    if rc ≤ BLE_ERR_MAX then
      let s := ll_hci_cmd_complete k cmdbuf opcode rc rsplen s
      (ll_hci_event_send ev s).map Prod.snd
    else Except.error s

/-- Modelled from the spec: `os_eventq_put` of `os/os.h` on the queue
`g_ll_data.ll_evq`; the envelope is appended at the tail of the FIFO. -/
def os_eventq_put (ev : Nat) (s : LLState σ) : LLState σ :=
  { s with ll_evq := s.ll_evq ++ [ev] }

/-- Source lines 283-304. `cmd` is the pointer to the command block;
`Except.ok` carries the returned `int` and the state, `Except.error t` is a
failed assertion, reached in state `t`. -/
def hci_transport_host_cmd_send (k : HciConsts) (cmd : Option Nat)
    (s : LLState σ) : Except (LLState σ) (Int × LLState σ) :=
  let r := os_memblock_get s.g_hci_os_event_pool
  let s := { s with g_hci_os_event_pool := r.2 }
  match r.1 with
  | none =>
    let p := os_memblock_put s.g_hci_cmd_pool cmd
    let s := { s with g_hci_cmd_pool := p.2 }
    if p.1 ≠ os_error_t.OS_OK then Except.error s else
    Except.ok (-1, s)
  | some ev =>
    let s := { s with evmem := fun a =>
      if a = ev then { s.evmem a with ev_queued := 0 } else s.evmem a }
    let s := { s with evmem := fun a =>
      if a = ev then { s.evmem a with ev_type := k.BLE_LL_EVENT_HCI_CMD } else s.evmem a }
    let s := { s with evmem := fun a =>
      if a = ev then { s.evmem a with ev_arg := cmd } else s.evmem a }
    Except.ok (0, os_eventq_put ev s)

/-! ## Well-formed inputs and concrete data -/

/-- The envelope at `ev` carries the command block `cmdbuf`, and both were
validly acquired: each is a block of its pool and is not free. -/
def ValidEv (s : LLState σ) (ev cmdbuf : Nat) : Prop :=
  (s.evmem ev).ev_arg = some cmdbuf ∧
  (cmdbuf ∈ s.g_hci_cmd_pool.mp_blocks ∧ cmdbuf ∉ s.g_hci_cmd_pool.mp_free) ∧
  (ev ∈ s.g_hci_os_event_pool.mp_blocks ∧ ev ∉ s.g_hci_os_event_pool.mp_free)

instance (s : LLState σ) (ev cmdbuf : Nat) : Decidable (ValidEv s ev cmdbuf) := by
  unfold ValidEv; infer_instance

/-- A pool in a consistent condition: the free blocks are blocks of the pool
and no block is free twice. -/
def os_mempool.Consistent (mp : os_mempool) : Prop :=
  mp.mp_free.Nodup ∧ ∀ b ∈ mp.mp_free, b ∈ mp.mp_blocks

instance (mp : os_mempool) : Decidable mp.Consistent := by
  unfold os_mempool.Consistent; infer_instance

/-- An assignment of the constants for the evaluation of the embedding on
concrete commands: the opcode group, opcode, length, status and event values
that the Bluetooth Core Specification assigns, an ACL data-packet length of
260 and a count of 4. -/
def btConsts : HciConsts where
  BLE_HCI_OGF_LE := 0x08
  BLE_HCI_OCF_LE_SET_EVENT_MASK := 0x0001
  BLE_HCI_OCF_LE_RD_BUF_SIZE := 0x0002
  BLE_HCI_OCF_LE_SET_RAND_ADDR := 0x0005
  BLE_HCI_OCF_LE_SET_ADV_PARAMS := 0x0006
  BLE_HCI_OCF_LE_RD_ADV_CHAN_TXPWR := 0x0007
  BLE_HCI_OCF_LE_SET_ADV_DATA := 0x0008
  BLE_HCI_OCF_LE_SET_SCAN_RSP_DATA := 0x0009
  BLE_HCI_OCF_LE_SET_ADV_ENABLE := 0x000A
  BLE_HCI_OCF_LE_SET_SCAN_ENABLE := 0x000C
  BLE_HCI_OCF_LE_SET_SCAN_PARAMS := 0x000B
  BLE_HCI_SET_ADV_PARAM_LEN := 15
  BLE_HCI_SET_SCAN_ENABLE_LEN := 2
  BLE_HCI_SET_SCAN_PARAM_LEN := 7
  BLE_ERR_UNKNOWN_HCI_CMD := 0x01
  BLE_ERR_INV_HCI_CMD_PARMS := 0x12
  BLE_HCI_EVCODE_COMMAND_COMPLETE := 0x0E
  BLE_LL_CFG_ACL_DATA_PKT_LEN := 260
  BLE_LL_CFG_NUM_ACL_DATA_PKTS := 4
  BLE_LL_EVENT_HCI_CMD := 1

/-- Handlers for the evaluation on concrete commands. The subsystem state is
the list of the handlers run so far, latest first, each with the value it was
given; a handler that takes parameters returns its first parameter byte as
status, so that every status can be produced. -/
def demoHandlers : Handlers (List (Fn × Nat)) where
  ll_adv_set_rand_addr := fun p c => ((p 0).val, (Fn.ll_adv_set_rand_addr, (p 0).val) :: c)
  ll_adv_set_adv_params := fun p c => ((p 0).val, (Fn.ll_adv_set_adv_params, (p 0).val) :: c)
  ll_adv_read_txpwr := fun c => (0, 0xF6, (Fn.ll_adv_read_txpwr, 0) :: c)
  ll_adv_set_adv_data := fun p n c => ((p 0).val, (Fn.ll_adv_set_adv_data, n) :: c)
  ll_adv_set_scan_rsp_data := fun p n c =>
    ((p 0).val, (Fn.ll_adv_set_scan_rsp_data, n) :: c)
  ll_adv_set_enable := fun p c => ((p 0).val, (Fn.ll_adv_set_enable, (p 0).val) :: c)
  ble_ll_scan_set_enable := fun p c =>
    ((p 0).val, (Fn.ble_ll_scan_set_enable, (p 0).val) :: c)
  ble_ll_scan_set_scan_params := fun p c =>
    ((p 0).val, (Fn.ble_ll_scan_set_scan_params, (p 0).val) :: c)

/-- Handlers for the evaluation of the assertions on the status: as
`demoHandlers`, but `ll_adv_set_enable` returns the status 256, one above
`BLE_ERR_MAX`, and `ble_ll_scan_set_enable` the negative status -1. -/
def outOfRangeHandlers : Handlers (List (Fn × Nat)) :=
  { demoHandlers with
    ll_adv_set_enable := fun _ c => (256, (Fn.ll_adv_set_enable, 0) :: c)
    ble_ll_scan_set_enable := fun _ c => (-1, (Fn.ble_ll_scan_set_enable, 0) :: c) }

/-- A controller state in which the command block at address 10 holds the
bytes `cmd` and is carried by the envelope at address 20; each pool has one
more block, which is free. Mask, counters, queue and log are empty. -/
def demoState (cmd : List Nat) : LLState (List (Fn × Nat)) where
  g_ll_hci_le_event_mask := List.replicate 8 0
  g_ll_stats := { hci_cmds := 0, hci_cmd_errs := 0, hci_events_sent := 0 }
  g_hci_cmd_pool := { mp_blocks := [10, 11], mp_free := [11] }
  g_hci_os_event_pool := { mp_blocks := [20, 21], mp_free := [21] }
  ll_evq := []
  cmdmem := fun a => if a = 10 then Buf.ofList cmd else Buf.ofList []
  evmem := fun a =>
    if a = 20 then { ev_queued := 0, ev_type := 1, ev_arg := some 10 }
    else { ev_queued := 0, ev_type := 0, ev_arg := none }
  collab := []
  log := []

/-! ## Frame lemmas -/

/-- A store is read back at its own place. -/
theorem mem_store_same (m : Nat → Buf) (c o : Nat) (v : Byte) :
    mem_store m c o v c o = v := by
  unfold mem_store
  exact if_pos ⟨rfl, rfl⟩

/-- A store leaves every other place alone. -/
theorem mem_store_other (m : Nat → Buf) (c o : Nat) (v : Byte) (a i : Nat)
    (h : a ≠ c ∨ i ≠ o) : mem_store m c o v a i = m a i := by
  unfold mem_store
  exact if_neg (by omega)

theorem u8_val_of_lt {n : Nat} (h : n < 256) : (u8 n).val = n := by
  simp [u8, Nat.mod_eq_of_lt h]

theorem u8_of_int_val {z : Int} (h0 : 0 ≤ z) (h1 : z ≤ BLE_ERR_MAX) :
    ((u8_of_int z).val : Int) = z := by
  unfold BLE_ERR_MAX at h1
  unfold u8_of_int u8
  simp only
  omega

/-- Well-formed constants: a later label differs from every earlier one. -/
theorem WF_ne (k : HciConsts) (hk : k.WF) :
    k.ocfLabels.Pairwise (fun a b => ¬ b = a) :=
  List.Pairwise.imp (fun h => Ne.symm h) hk

/-- With pairwise different labels, each label selects its own branch. -/
theorem switch_ocf_label (k : HciConsts) (hk : k.WF) :
    switch_ocf k k.BLE_HCI_OCF_LE_SET_EVENT_MASK = LeCase.LE_SET_EVENT_MASK ∧
    switch_ocf k k.BLE_HCI_OCF_LE_RD_BUF_SIZE = LeCase.LE_RD_BUF_SIZE ∧
    switch_ocf k k.BLE_HCI_OCF_LE_SET_RAND_ADDR = LeCase.LE_SET_RAND_ADDR ∧
    switch_ocf k k.BLE_HCI_OCF_LE_SET_ADV_PARAMS = LeCase.LE_SET_ADV_PARAMS ∧
    switch_ocf k k.BLE_HCI_OCF_LE_RD_ADV_CHAN_TXPWR = LeCase.LE_RD_ADV_CHAN_TXPWR ∧
    switch_ocf k k.BLE_HCI_OCF_LE_SET_ADV_DATA = LeCase.LE_SET_ADV_DATA ∧
    switch_ocf k k.BLE_HCI_OCF_LE_SET_SCAN_RSP_DATA = LeCase.LE_SET_SCAN_RSP_DATA ∧
    switch_ocf k k.BLE_HCI_OCF_LE_SET_ADV_ENABLE = LeCase.LE_SET_ADV_ENABLE ∧
    switch_ocf k k.BLE_HCI_OCF_LE_SET_SCAN_ENABLE = LeCase.LE_SET_SCAN_ENABLE ∧
    switch_ocf k k.BLE_HCI_OCF_LE_SET_SCAN_PARAMS = LeCase.LE_SET_SCAN_PARAMS := by
  have h := WF_ne k hk
  simp only [HciConsts.ocfLabels, List.pairwise_cons, List.mem_cons, List.mem_singleton,
    forall_eq_or_imp, forall_eq, List.not_mem_nil, List.Pairwise.nil, and_true,
    IsEmpty.forall_iff, implies_true] at h
  obtain ⟨⟨a2, a3, a4, a5, a6, a7, a8, a9, a10⟩, ⟨b3, b4, b5, b6, b7, b8, b9, b10⟩,
    ⟨c4, c5, c6, c7, c8, c9, c10⟩, ⟨d5, d6, d7, d8, d9, d10⟩, ⟨e6, e7, e8, e9, e10⟩,
    ⟨f7, f8, f9, f10⟩, ⟨g8, g9, g10⟩, ⟨h9, h10⟩, i10⟩ := h
  unfold switch_ocf
  simp only [a2, a3, a4, a5, a6, a7, a8, a9, a10, b3, b4, b5, b6, b7, b8, b9, b10,
    c4, c5, c6, c7, c8, c9, c10, d5, d6, d7, d8, d9, d10, e6, e7, e8, e9, e10,
    f7, f8, f9, f10, g8, g9, g10, h9, h10, i10, if_false, if_true, and_self]

/-- The branch `switch (ocf)` takes: the branch of the first label equal to
`ocf`, and the `default` branch when `ocf` is no label. -/
theorem switch_ocf_cases (k : HciConsts) (ocf : Nat) :
    (ocf = k.BLE_HCI_OCF_LE_SET_EVENT_MASK ∧ switch_ocf k ocf = LeCase.LE_SET_EVENT_MASK) ∨
    (ocf = k.BLE_HCI_OCF_LE_RD_BUF_SIZE ∧ switch_ocf k ocf = LeCase.LE_RD_BUF_SIZE) ∨
    (ocf = k.BLE_HCI_OCF_LE_SET_RAND_ADDR ∧ switch_ocf k ocf = LeCase.LE_SET_RAND_ADDR) ∨
    (ocf = k.BLE_HCI_OCF_LE_SET_ADV_PARAMS ∧ switch_ocf k ocf = LeCase.LE_SET_ADV_PARAMS) ∨
    (ocf = k.BLE_HCI_OCF_LE_RD_ADV_CHAN_TXPWR ∧ switch_ocf k ocf = LeCase.LE_RD_ADV_CHAN_TXPWR) ∨
    (ocf = k.BLE_HCI_OCF_LE_SET_ADV_DATA ∧ switch_ocf k ocf = LeCase.LE_SET_ADV_DATA) ∨
    (ocf = k.BLE_HCI_OCF_LE_SET_SCAN_RSP_DATA ∧ switch_ocf k ocf = LeCase.LE_SET_SCAN_RSP_DATA) ∨
    (ocf = k.BLE_HCI_OCF_LE_SET_ADV_ENABLE ∧ switch_ocf k ocf = LeCase.LE_SET_ADV_ENABLE) ∨
    (ocf = k.BLE_HCI_OCF_LE_SET_SCAN_ENABLE ∧ switch_ocf k ocf = LeCase.LE_SET_SCAN_ENABLE) ∨
    (ocf = k.BLE_HCI_OCF_LE_SET_SCAN_PARAMS ∧ switch_ocf k ocf = LeCase.LE_SET_SCAN_PARAMS) ∨
    (ocf ∉ k.ocfLabels ∧ switch_ocf k ocf = LeCase.other) := by
  unfold switch_ocf
  by_cases h1 : ocf = k.BLE_HCI_OCF_LE_SET_EVENT_MASK
  · rw [if_pos h1]; exact Or.inl ⟨h1, rfl⟩
  rw [if_neg h1]
  by_cases h2 : ocf = k.BLE_HCI_OCF_LE_RD_BUF_SIZE
  · rw [if_pos h2]; exact Or.inr (Or.inl ⟨h2, rfl⟩)
  rw [if_neg h2]
  by_cases h3 : ocf = k.BLE_HCI_OCF_LE_SET_RAND_ADDR
  · rw [if_pos h3]; exact Or.inr (Or.inr (Or.inl ⟨h3, rfl⟩))
  rw [if_neg h3]
  by_cases h4 : ocf = k.BLE_HCI_OCF_LE_SET_ADV_PARAMS
  · rw [if_pos h4]; exact Or.inr (Or.inr (Or.inr (Or.inl ⟨h4, rfl⟩)))
  rw [if_neg h4]
  by_cases h5 : ocf = k.BLE_HCI_OCF_LE_RD_ADV_CHAN_TXPWR
  · rw [if_pos h5]; exact Or.inr (Or.inr (Or.inr (Or.inr (Or.inl ⟨h5, rfl⟩))))
  rw [if_neg h5]
  by_cases h6 : ocf = k.BLE_HCI_OCF_LE_SET_ADV_DATA
  · rw [if_pos h6]; exact Or.inr (Or.inr (Or.inr (Or.inr (Or.inr (Or.inl ⟨h6, rfl⟩)))))
  rw [if_neg h6]
  by_cases h7 : ocf = k.BLE_HCI_OCF_LE_SET_SCAN_RSP_DATA
  · rw [if_pos h7]; exact Or.inr (Or.inr (Or.inr (Or.inr (Or.inr (Or.inr (Or.inl ⟨h7, rfl⟩))))))
  rw [if_neg h7]
  by_cases h8 : ocf = k.BLE_HCI_OCF_LE_SET_ADV_ENABLE
  · rw [if_pos h8]; exact Or.inr (Or.inr (Or.inr (Or.inr (Or.inr (Or.inr (Or.inr (Or.inl ⟨h8, rfl⟩)))))))
  rw [if_neg h8]
  by_cases h9 : ocf = k.BLE_HCI_OCF_LE_SET_SCAN_ENABLE
  · rw [if_pos h9]; exact Or.inr (Or.inr (Or.inr (Or.inr (Or.inr (Or.inr (Or.inr (Or.inr (Or.inl ⟨h9, rfl⟩))))))))
  rw [if_neg h9]
  by_cases h10 : ocf = k.BLE_HCI_OCF_LE_SET_SCAN_PARAMS
  · rw [if_pos h10]; exact Or.inr (Or.inr (Or.inr (Or.inr (Or.inr (Or.inr (Or.inr (Or.inr (Or.inr (Or.inl ⟨h10, rfl⟩)))))))))
  rw [if_neg h10]
  refine Or.inr (Or.inr (Or.inr (Or.inr (Or.inr (Or.inr (Or.inr (Or.inr (Or.inr (Or.inr (⟨?_, rfl⟩))))))))))
  simp only [HciConsts.ocfLabels, List.mem_cons, List.mem_singleton, List.not_mem_nil,
    or_false, not_or]
  exact ⟨h1, h2, h3, h4, h5, h6, h7, h8, h9, h10⟩

/-- A value that is no label takes the `default` branch. -/
theorem switch_ocf_other (k : HciConsts) (ocf : Nat) (h : ocf ∉ k.ocfLabels) :
    switch_ocf k ocf = LeCase.other := by
  simp only [HciConsts.ocfLabels, List.mem_cons, List.mem_singleton, List.not_mem_nil,
    or_false, not_or] at h
  obtain ⟨h1, h2, h3, h4, h5, h6, h7, h8, h9, h10⟩ := h
  unfold switch_ocf
  simp only [h1, h2, h3, h4, h5, h6, h7, h8, h9, h10, if_false]

/-- What `ll_hci_le_cmd_proc` leaves alone, whatever the command: envelopes,
pools, counters, queue, the other command blocks, and the first six bytes of
its own block. -/
theorem le_cmd_proc_frame (k : HciConsts) (H : Handlers σ) (cmdbuf ocf : Nat)
    (rsplen : Byte) (s : LLState σ) :
    (ll_hci_le_cmd_proc k H cmdbuf ocf rsplen s).2.2.evmem = s.evmem ∧
    (ll_hci_le_cmd_proc k H cmdbuf ocf rsplen s).2.2.g_hci_cmd_pool = s.g_hci_cmd_pool ∧
    (ll_hci_le_cmd_proc k H cmdbuf ocf rsplen s).2.2.g_hci_os_event_pool
      = s.g_hci_os_event_pool ∧
    (ll_hci_le_cmd_proc k H cmdbuf ocf rsplen s).2.2.g_ll_stats = s.g_ll_stats ∧
    (ll_hci_le_cmd_proc k H cmdbuf ocf rsplen s).2.2.ll_evq = s.ll_evq ∧
    (∀ a i, a ≠ cmdbuf ∨ i < 6 →
      (ll_hci_le_cmd_proc k H cmdbuf ocf rsplen s).2.2.cmdmem a i = s.cmdmem a i) := by
  generalize h : ll_hci_le_cmd_proc k H cmdbuf ocf rsplen s = r
  unfold ll_hci_le_cmd_proc at h
  simp only [rd] at h
  cases hc : switch_ocf k ocf <;> rw [hc] at h <;> simp only [] at h <;>
    (try split_ifs at h) <;> subst h
  all_goals simp only [logged, handler_body, LLState.note, ll_hci_set_le_event_mask,
    ll_hci_le_read_bufsize, read_txpwr_body, memcpy_from, htole16, wr,
    BLE_HCI_EVENT_CMD_COMPLETE_HDR_LEN, mem_store, true_and]
  all_goals intro a i hai
  all_goals (try split_ifs)
  all_goals first | trivial | rfl | omega

/-- The opcode read by `le16toh`, and its two reads in the log. -/
theorem le16toh_eq (cmdbuf off : Nat) (s : LLState σ) :
    le16toh cmdbuf off s =
      ((s.cmdmem cmdbuf off).val + 256 * (s.cmdmem cmdbuf (off + 1)).val,
       s.note [Event.read off, Event.read (off + 1)]) := by
  simp only [le16toh, rd, LLState.note, List.append_assoc, List.singleton_append]

/-- A 16-bit opcode has an OGF below 64: the conversion to `uint8_t` keeps it. -/
theorem ogf_u8 (b0 b1 : Byte) :
    BLE_HCI_OGF (b0.val + 256 * b1.val) % 256 = BLE_HCI_OGF (b0.val + 256 * b1.val) := by
  have h0 := b0.isLt
  have h1 := b1.isLt
  unfold BLE_HCI_OGF
  omega

/-- Dispatch of a command of another group than LE: unknown command, no
response, and nothing but the two reads of the opcode. -/
theorem dispatch_not_le (k : HciConsts) (H : Handlers σ) (cmdbuf : Nat) (s : LLState σ)
    (hogf : BLE_HCI_OGF (le16toh cmdbuf 0 s).1 ≠ k.BLE_HCI_OGF_LE) :
    ll_hci_cmd_dispatch k H cmdbuf s =
      ((le16toh cmdbuf 0 s).1, (k.BLE_ERR_UNKNOWN_HCI_CMD.val : Int), 0,
       s.note [Event.read 0, Event.read 1]) := by
  rw [le16toh_eq] at hogf
  simp only at hogf
  unfold ll_hci_cmd_dispatch
  rw [le16toh_eq]
  simp only [ogf_u8]
  rw [if_neg hogf]

/-- Dispatch of a command of the LE group: the result of `ll_hci_le_cmd_proc`
on the OCF, called after the two reads of the opcode. -/
theorem dispatch_le (k : HciConsts) (H : Handlers σ) (cmdbuf : Nat) (s : LLState σ)
    (hogf : BLE_HCI_OGF (le16toh cmdbuf 0 s).1 = k.BLE_HCI_OGF_LE) :
    ll_hci_cmd_dispatch k H cmdbuf s =
      ((le16toh cmdbuf 0 s).1,
       (ll_hci_le_cmd_proc k H cmdbuf (BLE_HCI_OCF (le16toh cmdbuf 0 s).1) 0
          (s.note [Event.read 0, Event.read 1,
            Event.call Fn.ll_hci_le_cmd_proc 0 (some (BLE_HCI_OCF (le16toh cmdbuf 0 s).1))])).1,
       (ll_hci_le_cmd_proc k H cmdbuf (BLE_HCI_OCF (le16toh cmdbuf 0 s).1) 0
          (s.note [Event.read 0, Event.read 1,
            Event.call Fn.ll_hci_le_cmd_proc 0 (some (BLE_HCI_OCF (le16toh cmdbuf 0 s).1))])).2.1,
       (ll_hci_le_cmd_proc k H cmdbuf (BLE_HCI_OCF (le16toh cmdbuf 0 s).1) 0
          (s.note [Event.read 0, Event.read 1,
            Event.call Fn.ll_hci_le_cmd_proc 0 (some (BLE_HCI_OCF (le16toh cmdbuf 0 s).1))])).2.2.note
            [Event.ret Fn.ll_hci_le_cmd_proc]) := by
  rw [le16toh_eq] at hogf
  simp only at hogf
  unfold ll_hci_cmd_dispatch
  rw [le16toh_eq]
  simp only [ogf_u8]
  rw [if_pos hogf]
  simp only [LLState.note, List.append_assoc, List.singleton_append, List.cons_append,
    List.nil_append]

/-- What the dispatch leaves alone, and the opcode it decodes. -/
theorem dispatch_frame (k : HciConsts) (H : Handlers σ) (cmdbuf : Nat) (s : LLState σ) :
    (ll_hci_cmd_dispatch k H cmdbuf s).1
      = (s.cmdmem cmdbuf 0).val + 256 * (s.cmdmem cmdbuf 1).val ∧
    (ll_hci_cmd_dispatch k H cmdbuf s).2.2.2.evmem = s.evmem ∧
    (ll_hci_cmd_dispatch k H cmdbuf s).2.2.2.g_hci_cmd_pool = s.g_hci_cmd_pool ∧
    (ll_hci_cmd_dispatch k H cmdbuf s).2.2.2.g_hci_os_event_pool = s.g_hci_os_event_pool ∧
    (ll_hci_cmd_dispatch k H cmdbuf s).2.2.2.g_ll_stats = s.g_ll_stats ∧
    (ll_hci_cmd_dispatch k H cmdbuf s).2.2.2.ll_evq = s.ll_evq ∧
    (∀ a i, a ≠ cmdbuf ∨ i < 6 →
      (ll_hci_cmd_dispatch k H cmdbuf s).2.2.2.cmdmem a i = s.cmdmem a i) := by
  by_cases hogf : BLE_HCI_OGF (le16toh cmdbuf 0 s).1 = k.BLE_HCI_OGF_LE
  · rw [dispatch_le k H cmdbuf s hogf]
    obtain ⟨h1, h2, h3, h4, h5, h6⟩ := le_cmd_proc_frame k H cmdbuf
      (BLE_HCI_OCF (le16toh cmdbuf 0 s).1) 0
      (s.note [Event.read 0, Event.read 1,
        Event.call Fn.ll_hci_le_cmd_proc 0 (some (BLE_HCI_OCF (le16toh cmdbuf 0 s).1))])
    exact ⟨by rw [le16toh_eq], h1, h2, h3, h4, h5, h6⟩
  · rw [dispatch_not_le k H cmdbuf s hogf]
    exact ⟨by rw [le16toh_eq], rfl, rfl, rfl, rfl, rfl, fun _ _ _ => rfl⟩

/-- The command-complete event written by `ll_hci_cmd_complete`: the six
header bytes of the block, nothing else in memory, six writes in the log. -/
theorem cmd_complete_eq (k : HciConsts) (cmdbuf opcode : Nat) (rc : Int) (rsplen : Byte)
    (t : LLState σ) :
    ll_hci_cmd_complete k cmdbuf opcode rc rsplen t =
      { t with
        cmdmem := fun a i =>
          if a = cmdbuf ∧ i = 5 then u8_of_int rc
          else if a = cmdbuf ∧ i = 4 then u8 (opcode / 256)
          else if a = cmdbuf ∧ i = 3 then u8 opcode
          else if a = cmdbuf ∧ i = 2 then ll_hci_get_num_cmd_pkts
          else if a = cmdbuf ∧ i = 1 then u8 (4 + rsplen.val)
          else if a = cmdbuf ∧ i = 0 then k.BLE_HCI_EVCODE_COMMAND_COMPLETE
          else t.cmdmem a i
        log := t.log ++ [Event.write 0, Event.write 1, Event.write 2, Event.write 3,
          Event.write 4, Event.write 5] } := by
  simp only [ll_hci_cmd_complete, htole16, wr, List.append_assoc,
    List.singleton_append, List.cons_append, List.nil_append]
  rfl

/-- The bytes of the command block after `ll_hci_cmd_complete`: the six
header bytes, and every other byte of memory as before. -/
theorem cmd_complete_bytes (k : HciConsts) (cmdbuf opcode : Nat) (rc : Int) (rsplen : Byte)
    (t : LLState σ) :
    (ll_hci_cmd_complete k cmdbuf opcode rc rsplen t).cmdmem cmdbuf 0
      = k.BLE_HCI_EVCODE_COMMAND_COMPLETE ∧
    (ll_hci_cmd_complete k cmdbuf opcode rc rsplen t).cmdmem cmdbuf 1
      = u8 (4 + rsplen.val) ∧
    (ll_hci_cmd_complete k cmdbuf opcode rc rsplen t).cmdmem cmdbuf 2
      = ll_hci_get_num_cmd_pkts ∧
    (ll_hci_cmd_complete k cmdbuf opcode rc rsplen t).cmdmem cmdbuf 3 = u8 opcode ∧
    (ll_hci_cmd_complete k cmdbuf opcode rc rsplen t).cmdmem cmdbuf 4 = u8 (opcode / 256) ∧
    (ll_hci_cmd_complete k cmdbuf opcode rc rsplen t).cmdmem cmdbuf 5 = u8_of_int rc ∧
    (∀ a i, a ≠ cmdbuf ∨ 6 ≤ i →
      (ll_hci_cmd_complete k cmdbuf opcode rc rsplen t).cmdmem a i = t.cmdmem a i) := by
  rw [cmd_complete_eq]
  refine ⟨?_, ?_, ?_, ?_, ?_, ?_, ?_⟩
  all_goals dsimp only
  · rw [if_neg (by omega), if_neg (by omega), if_neg (by omega), if_neg (by omega),
      if_neg (by omega), if_pos ⟨rfl, rfl⟩]
  · rw [if_neg (by omega), if_neg (by omega), if_neg (by omega), if_neg (by omega),
      if_pos ⟨rfl, rfl⟩]
  · rw [if_neg (by omega), if_neg (by omega), if_neg (by omega), if_pos ⟨rfl, rfl⟩]
  · rw [if_neg (by omega), if_neg (by omega), if_pos ⟨rfl, rfl⟩]
  · rw [if_neg (by omega), if_pos ⟨rfl, rfl⟩]
  · rw [if_pos ⟨rfl, rfl⟩]
  · intro a i h
    have e5 : ¬ (a = cmdbuf ∧ i = 5) := by omega
    have e4 : ¬ (a = cmdbuf ∧ i = 4) := by omega
    have e3 : ¬ (a = cmdbuf ∧ i = 3) := by omega
    have e2 : ¬ (a = cmdbuf ∧ i = 2) := by omega
    have e1 : ¬ (a = cmdbuf ∧ i = 1) := by omega
    have e0 : ¬ (a = cmdbuf ∧ i = 0) := by omega
    rw [if_neg e5, if_neg e4, if_neg e3, if_neg e2, if_neg e1, if_neg e0]

/-- With validly acquired blocks the send path succeeds: both blocks go back
to their pools and the counter of events goes up by one. -/
theorem event_send_ok (ev cmdbuf : Nat) (t : LLState σ) (hv : ValidEv t ev cmdbuf) :
    ll_hci_event_send ev t = Except.ok (0,
      { t with
        g_hci_cmd_pool := { t.g_hci_cmd_pool with mp_free := cmdbuf :: t.g_hci_cmd_pool.mp_free }
        g_hci_os_event_pool :=
          { t.g_hci_os_event_pool with mp_free := ev :: t.g_hci_os_event_pool.mp_free }
        g_ll_stats :=
          { t.g_ll_stats with hci_events_sent := t.g_ll_stats.hci_events_sent + 1 } }) := by
  obtain ⟨harg, hc, he⟩ := hv
  unfold ll_hci_event_send
  rw [harg]
  simp only [os_memblock_put, if_pos hc, if_pos he, ne_eq, not_true_eq_false, if_false]


/-- A mapped outcome that is a return comes from a return. -/
theorem except_map_ok {ε α β : Type} {f : α → β} {x : Except ε α} {b : β}
    (h : x.map f = Except.ok b) : ∃ a, x = Except.ok a ∧ f a = b := by
  cases x with
  | error e => cases h
  | ok a =>
    simp only [Except.map, Except.ok.injEq] at h
    exact ⟨a, rfl, h⟩

/-- Whenever the send path returns, it has changed only pools and counters. -/
theorem event_send_inv (ev : Nat) (t : LLState σ) (r : Int × LLState σ)
    (h : ll_hci_event_send ev t = Except.ok r) :
    r.2.cmdmem = t.cmdmem ∧ r.2.log = t.log ∧
    r.2.g_ll_hci_le_event_mask = t.g_ll_hci_le_event_mask ∧ r.2.collab = t.collab ∧
    r.2.evmem = t.evmem ∧ r.2.ll_evq = t.ll_evq := by
  unfold ll_hci_event_send at h
  simp only at h
  split_ifs at h
  simp only [Except.ok.injEq] at h
  subst h
  exact ⟨rfl, rfl, rfl, rfl, rfl, rfl⟩

/-- The state in which `ll_hci_cmd_proc` writes the command-complete event:
the state after the dispatch, with one of the two command counters
incremented. -/
theorem cmd_proc_unfold (k : HciConsts) (H : Handlers σ) (ev cmdbuf : Nat) (s : LLState σ)
    (harg : (s.evmem ev).ev_arg = some cmdbuf) :
    ll_hci_cmd_proc k H ev s =
      if (ll_hci_cmd_dispatch k H cmdbuf s).2.1 < 0 then
        Except.error (ll_hci_cmd_dispatch k H cmdbuf s).2.2.2
      else if (ll_hci_cmd_dispatch k H cmdbuf s).2.1 ≤ BLE_ERR_MAX then
        (ll_hci_event_send ev
          (ll_hci_cmd_complete k cmdbuf (ll_hci_cmd_dispatch k H cmdbuf s).1
            (ll_hci_cmd_dispatch k H cmdbuf s).2.1 (ll_hci_cmd_dispatch k H cmdbuf s).2.2.1
            (if (ll_hci_cmd_dispatch k H cmdbuf s).2.1 ≠ 0 then
              { (ll_hci_cmd_dispatch k H cmdbuf s).2.2.2 with g_ll_stats :=
                { (ll_hci_cmd_dispatch k H cmdbuf s).2.2.2.g_ll_stats with hci_cmd_errs :=
                  (ll_hci_cmd_dispatch k H cmdbuf s).2.2.2.g_ll_stats.hci_cmd_errs + 1 } }
            else
              { (ll_hci_cmd_dispatch k H cmdbuf s).2.2.2 with g_ll_stats :=
                { (ll_hci_cmd_dispatch k H cmdbuf s).2.2.2.g_ll_stats with hci_cmds :=
                  (ll_hci_cmd_dispatch k H cmdbuf s).2.2.2.g_ll_stats.hci_cmds + 1 } }))).map
          Prod.snd
      else
        Except.error
          { (ll_hci_cmd_dispatch k H cmdbuf s).2.2.2 with g_ll_stats :=
            { (ll_hci_cmd_dispatch k H cmdbuf s).2.2.2.g_ll_stats with hci_cmd_errs :=
              (ll_hci_cmd_dispatch k H cmdbuf s).2.2.2.g_ll_stats.hci_cmd_errs + 1 } } := by
  unfold ll_hci_cmd_proc
  rw [harg]
  dsimp only
  by_cases h0 : (ll_hci_cmd_dispatch k H cmdbuf s).2.1 < 0
  · rw [if_pos h0, if_pos h0]
  · rw [if_neg h0, if_neg h0]
    by_cases h1 : (ll_hci_cmd_dispatch k H cmdbuf s).2.1 ≤ BLE_ERR_MAX
    · rw [if_pos h1, if_pos h1]
    · rw [if_neg h1, if_neg h1]
      have hz : (ll_hci_cmd_dispatch k H cmdbuf s).2.1 ≠ 0 := by
        intro e
        rw [e] at h1
        exact h1 (by decide)
      rw [if_pos hz]

/-- A command whose dispatch status is a status byte is completed, given
validly acquired blocks: the state after it is the state after the dispatch
with the command-complete header written, the command counted, and the
blocks released. -/
theorem cmd_proc_ok (k : HciConsts) (H : Handlers σ) (ev cmdbuf : Nat) (s : LLState σ)
    (hv : ValidEv s ev cmdbuf)
    (h0 : 0 ≤ (ll_hci_cmd_dispatch k H cmdbuf s).2.1)
    (h1 : (ll_hci_cmd_dispatch k H cmdbuf s).2.1 ≤ BLE_ERR_MAX) :
    ∃ s', ll_hci_cmd_proc k H ev s = Except.ok s' ∧
      s'.cmdmem = (ll_hci_cmd_complete k cmdbuf (ll_hci_cmd_dispatch k H cmdbuf s).1
        (ll_hci_cmd_dispatch k H cmdbuf s).2.1 (ll_hci_cmd_dispatch k H cmdbuf s).2.2.1
        (ll_hci_cmd_dispatch k H cmdbuf s).2.2.2).cmdmem ∧
      s'.log = (ll_hci_cmd_dispatch k H cmdbuf s).2.2.2.log ++
        [Event.write 0, Event.write 1, Event.write 2, Event.write 3, Event.write 4,
          Event.write 5] ∧
      s'.g_ll_hci_le_event_mask
        = (ll_hci_cmd_dispatch k H cmdbuf s).2.2.2.g_ll_hci_le_event_mask ∧
      s'.collab = (ll_hci_cmd_dispatch k H cmdbuf s).2.2.2.collab ∧
      s'.evmem = s.evmem ∧ s'.ll_evq = s.ll_evq ∧
      s'.g_hci_cmd_pool =
        { s.g_hci_cmd_pool with mp_free := cmdbuf :: s.g_hci_cmd_pool.mp_free } ∧
      s'.g_hci_os_event_pool =
        { s.g_hci_os_event_pool with mp_free := ev :: s.g_hci_os_event_pool.mp_free } ∧
      s'.g_ll_stats =
        { hci_cmds := s.g_ll_stats.hci_cmds +
            (if (ll_hci_cmd_dispatch k H cmdbuf s).2.1 = 0 then 1 else 0)
          hci_cmd_errs := s.g_ll_stats.hci_cmd_errs +
            (if (ll_hci_cmd_dispatch k H cmdbuf s).2.1 = 0 then 0 else 1)
          hci_events_sent := s.g_ll_stats.hci_events_sent + 1 } := by
  obtain ⟨_, f1, f2, f3, f4, f5, _⟩ := dispatch_frame k H cmdbuf s
  rw [cmd_proc_unfold k H ev cmdbuf s hv.1, if_neg (not_lt.mpr h0), if_pos h1]
  generalize ll_hci_cmd_dispatch k H cmdbuf s = d at *
  obtain ⟨op, rc, rl, t⟩ := d
  simp only at f1 f2 f3 f4 f5 h0 h1 ⊢
  have key : ∀ w : LLState σ, w.evmem = t.evmem → w.g_hci_cmd_pool = t.g_hci_cmd_pool →
      w.g_hci_os_event_pool = t.g_hci_os_event_pool →
      ValidEv (ll_hci_cmd_complete k cmdbuf op rc rl w) ev cmdbuf := by
    intro w e1 e2 e3
    rw [cmd_complete_eq]
    unfold ValidEv
    simp only
    rw [e1, e2, e3, f1, f2, f3]
    exact hv
  by_cases hz : rc = 0
  · rw [if_neg (not_not.mpr hz), if_pos hz, if_pos hz]
    have e := event_send_ok ev cmdbuf
      (ll_hci_cmd_complete k cmdbuf op rc rl { t with g_ll_stats :=
        { t.g_ll_stats with hci_cmds := t.g_ll_stats.hci_cmds + 1 } }) (key _ rfl rfl rfl)
    refine ⟨_, congrArg (Except.map Prod.snd) e, ?_⟩
    simp only [cmd_complete_eq, f2, f3, f4, f5, f1, hz, add_zero, if_true, if_false, and_self]
  · rw [if_pos hz, if_neg hz, if_neg hz]
    have e := event_send_ok ev cmdbuf
      (ll_hci_cmd_complete k cmdbuf op rc rl { t with g_ll_stats :=
        { t.g_ll_stats with hci_cmd_errs := t.g_ll_stats.hci_cmd_errs + 1 } }) (key _ rfl rfl rfl)
    refine ⟨_, congrArg (Except.map Prod.snd) e, ?_⟩
    simp only [cmd_complete_eq, f2, f3, f4, f5, f1, hz, add_zero, if_true, if_false, and_self]

/-- Whenever `ll_hci_cmd_proc` returns, the dispatch status was a status byte
and the state is the state after the dispatch with the command-complete
header written (pools and counters apart). -/
theorem cmd_proc_inv (k : HciConsts) (H : Handlers σ) (ev cmdbuf : Nat) (s s' : LLState σ)
    (harg : (s.evmem ev).ev_arg = some cmdbuf)
    (h : ll_hci_cmd_proc k H ev s = Except.ok s') :
    0 ≤ (ll_hci_cmd_dispatch k H cmdbuf s).2.1 ∧
    (ll_hci_cmd_dispatch k H cmdbuf s).2.1 ≤ BLE_ERR_MAX ∧
    s'.cmdmem = (ll_hci_cmd_complete k cmdbuf (ll_hci_cmd_dispatch k H cmdbuf s).1
      (ll_hci_cmd_dispatch k H cmdbuf s).2.1 (ll_hci_cmd_dispatch k H cmdbuf s).2.2.1
      (ll_hci_cmd_dispatch k H cmdbuf s).2.2.2).cmdmem ∧
    s'.log = (ll_hci_cmd_dispatch k H cmdbuf s).2.2.2.log ++
      [Event.write 0, Event.write 1, Event.write 2, Event.write 3, Event.write 4,
        Event.write 5] ∧
    s'.g_ll_hci_le_event_mask
      = (ll_hci_cmd_dispatch k H cmdbuf s).2.2.2.g_ll_hci_le_event_mask ∧
    s'.collab = (ll_hci_cmd_dispatch k H cmdbuf s).2.2.2.collab := by
  rw [cmd_proc_unfold k H ev cmdbuf s harg] at h
  generalize ll_hci_cmd_dispatch k H cmdbuf s = d at *
  obtain ⟨op, rc, rl, t⟩ := d
  simp only at h ⊢
  split_ifs at h with c1 c2 c3
  all_goals
    obtain ⟨r, hr, rfl⟩ := except_map_ok h
    obtain ⟨e1, e2, e3, e4, _, _⟩ := event_send_inv ev _ r hr
    rw [e1, e2, e3, e4]
    simp only [cmd_complete_eq, and_self, and_true]
    exact ⟨not_lt.mp c1, c2⟩

/-! ## The branches of `ll_hci_le_cmd_proc` -/

/-- The set LE event mask branch with the required length: the mask becomes
the eight bytes after the command header. -/
theorem le_branch_set_event_mask (k : HciConsts) (H : Handlers σ) (cmdbuf ocf : Nat)
    (rsplen : Byte) (t : LLState σ)
    (hc : switch_ocf k ocf = LeCase.LE_SET_EVENT_MASK)
    (hlen : (t.cmdmem cmdbuf 2).val = BLE_HCI_SET_LE_EVENT_MASK_LEN) :
    ll_hci_le_cmd_proc k H cmdbuf ocf rsplen t =
      (BLE_ERR_SUCCESS, rsplen,
       { t with
         g_ll_hci_le_event_mask := [t.cmdmem cmdbuf 3, t.cmdmem cmdbuf 4, t.cmdmem cmdbuf 5,
           t.cmdmem cmdbuf 6, t.cmdmem cmdbuf 7, t.cmdmem cmdbuf 8, t.cmdmem cmdbuf 9,
           t.cmdmem cmdbuf 10]
         log := t.log ++ [Event.read 2, Event.call Fn.ll_hci_set_le_event_mask 3 none,
           Event.read 3, Event.read 4, Event.read 5, Event.read 6, Event.read 7,
           Event.read 8, Event.read 9, Event.read 10,
           Event.ret Fn.ll_hci_set_le_event_mask] }) := by
  unfold ll_hci_le_cmd_proc
  simp only [rd]
  rw [hc]
  simp only
  rw [if_pos hlen]
  simp only [logged, ll_hci_set_le_event_mask, memcpy_from, LLState.note,
    BLE_HCI_SET_LE_EVENT_MASK_LEN, BLE_HCI_CMD_HDR_LEN, List.append_assoc,
    List.cons_append, List.nil_append]
  rfl

/-- The read LE buffer size branch with the required length: three response
bytes are stored at offset 6 and the response length is 3. -/
theorem le_branch_rd_buf_size (k : HciConsts) (H : Handlers σ) (cmdbuf ocf : Nat)
    (rsplen : Byte) (t : LLState σ)
    (hc : switch_ocf k ocf = LeCase.LE_RD_BUF_SIZE)
    (hlen : (t.cmdmem cmdbuf 2).val = BLE_HCI_RD_BUF_SIZE_LEN) :
    ll_hci_le_cmd_proc k H cmdbuf ocf rsplen t =
      (BLE_ERR_SUCCESS, 3,
       { t with
         cmdmem := mem_store (mem_store (mem_store t.cmdmem cmdbuf 6
           (u8 k.BLE_LL_CFG_ACL_DATA_PKT_LEN.val)) cmdbuf 7
           (u8 (k.BLE_LL_CFG_ACL_DATA_PKT_LEN.val / 256))) cmdbuf 8
           k.BLE_LL_CFG_NUM_ACL_DATA_PKTS
         log := t.log ++ [Event.read 2, Event.call Fn.ll_hci_le_read_bufsize 6 none,
           Event.write 6, Event.write 7, Event.write 8,
           Event.ret Fn.ll_hci_le_read_bufsize] }) := by
  unfold ll_hci_le_cmd_proc
  simp only [rd]
  rw [hc]
  simp only
  rw [if_pos hlen]
  simp only [logged, ll_hci_le_read_bufsize, htole16, wr, LLState.note,
    BLE_HCI_EVENT_CMD_COMPLETE_HDR_LEN, List.append_assoc, List.cons_append,
    List.nil_append]

/-- The read advertising channel TX power branch with the required length:
the handler runs, its byte is stored at offset 6 and the response length
is 1. -/
theorem le_branch_rd_adv_chan_txpwr (k : HciConsts) (H : Handlers σ) (cmdbuf ocf : Nat)
    (rsplen : Byte) (t : LLState σ)
    (hc : switch_ocf k ocf = LeCase.LE_RD_ADV_CHAN_TXPWR)
    (hlen : (t.cmdmem cmdbuf 2).val = BLE_HCI_RD_BUF_SIZE_LEN) :
    ll_hci_le_cmd_proc k H cmdbuf ocf rsplen t =
      ((H.ll_adv_read_txpwr t.collab).1, 1,
       { t with
         collab := (H.ll_adv_read_txpwr t.collab).2.2
         cmdmem := mem_store t.cmdmem cmdbuf 6 (H.ll_adv_read_txpwr t.collab).2.1
         log := t.log ++ [Event.read 2, Event.call Fn.ll_adv_read_txpwr 6 none,
           Event.write 6, Event.ret Fn.ll_adv_read_txpwr] }) := by
  unfold ll_hci_le_cmd_proc
  simp only [rd]
  rw [hc]
  simp only
  rw [if_pos hlen]
  simp only [logged, read_txpwr_body, wr, LLState.note,
    BLE_HCI_EVENT_CMD_COMPLETE_HDR_LEN, List.append_assoc, List.cons_append,
    List.nil_append]

/-- The set random address branch with the required length: the handler runs on
the parameters after the command header; nothing is written. -/
theorem le_branch_set_rand_addr (k : HciConsts) (H : Handlers σ) (cmdbuf ocf : Nat)
    (rsplen : Byte) (t : LLState σ)
    (hc : switch_ocf k ocf = LeCase.LE_SET_RAND_ADDR)
    (hlen : (t.cmdmem cmdbuf 2).val = BLE_DEV_ADDR_LEN) :
    ll_hci_le_cmd_proc k H cmdbuf ocf rsplen t =
      ((H.ll_adv_set_rand_addr ((t.cmdmem cmdbuf).shift 3) t.collab).1, rsplen,
       { t with
         collab := (H.ll_adv_set_rand_addr ((t.cmdmem cmdbuf).shift 3) t.collab).2
         log := t.log ++ [Event.read 2, Event.call Fn.ll_adv_set_rand_addr 3 none,
           Event.ret Fn.ll_adv_set_rand_addr] }) := by
  unfold ll_hci_le_cmd_proc
  simp only [rd]
  rw [hc]
  simp only
  rw [if_pos hlen]
  simp only [logged, handler_body, LLState.note, BLE_HCI_CMD_HDR_LEN, List.append_assoc,
    List.cons_append, List.nil_append]

/-- The set advertising parameters branch with the required length: the handler runs on
the parameters after the command header; nothing is written. -/
theorem le_branch_set_adv_params (k : HciConsts) (H : Handlers σ) (cmdbuf ocf : Nat)
    (rsplen : Byte) (t : LLState σ)
    (hc : switch_ocf k ocf = LeCase.LE_SET_ADV_PARAMS)
    (hlen : (t.cmdmem cmdbuf 2).val = k.BLE_HCI_SET_ADV_PARAM_LEN) :
    ll_hci_le_cmd_proc k H cmdbuf ocf rsplen t =
      ((H.ll_adv_set_adv_params ((t.cmdmem cmdbuf).shift 3) t.collab).1, rsplen,
       { t with
         collab := (H.ll_adv_set_adv_params ((t.cmdmem cmdbuf).shift 3) t.collab).2
         log := t.log ++ [Event.read 2, Event.call Fn.ll_adv_set_adv_params 3 none,
           Event.ret Fn.ll_adv_set_adv_params] }) := by
  unfold ll_hci_le_cmd_proc
  simp only [rd]
  rw [hc]
  simp only
  rw [if_pos hlen]
  simp only [logged, handler_body, LLState.note, BLE_HCI_CMD_HDR_LEN, List.append_assoc,
    List.cons_append, List.nil_append]

/-- The set advertising enable branch with the required length: the handler runs on
the parameters after the command header; nothing is written. -/
theorem le_branch_set_adv_enable (k : HciConsts) (H : Handlers σ) (cmdbuf ocf : Nat)
    (rsplen : Byte) (t : LLState σ)
    (hc : switch_ocf k ocf = LeCase.LE_SET_ADV_ENABLE)
    (hlen : (t.cmdmem cmdbuf 2).val = BLE_HCI_SET_ADV_ENABLE_LEN) :
    ll_hci_le_cmd_proc k H cmdbuf ocf rsplen t =
      ((H.ll_adv_set_enable ((t.cmdmem cmdbuf).shift 3) t.collab).1, rsplen,
       { t with
         collab := (H.ll_adv_set_enable ((t.cmdmem cmdbuf).shift 3) t.collab).2
         log := t.log ++ [Event.read 2, Event.call Fn.ll_adv_set_enable 3 none,
           Event.ret Fn.ll_adv_set_enable] }) := by
  unfold ll_hci_le_cmd_proc
  simp only [rd]
  rw [hc]
  simp only
  rw [if_pos hlen]
  simp only [logged, handler_body, LLState.note, BLE_HCI_CMD_HDR_LEN, List.append_assoc,
    List.cons_append, List.nil_append]

/-- The set scan enable branch with the required length: the handler runs on
the parameters after the command header; nothing is written. -/
theorem le_branch_set_scan_enable (k : HciConsts) (H : Handlers σ) (cmdbuf ocf : Nat)
    (rsplen : Byte) (t : LLState σ)
    (hc : switch_ocf k ocf = LeCase.LE_SET_SCAN_ENABLE)
    (hlen : (t.cmdmem cmdbuf 2).val = k.BLE_HCI_SET_SCAN_ENABLE_LEN) :
    ll_hci_le_cmd_proc k H cmdbuf ocf rsplen t =
      ((H.ble_ll_scan_set_enable ((t.cmdmem cmdbuf).shift 3) t.collab).1, rsplen,
       { t with
         collab := (H.ble_ll_scan_set_enable ((t.cmdmem cmdbuf).shift 3) t.collab).2
         log := t.log ++ [Event.read 2, Event.call Fn.ble_ll_scan_set_enable 3 none,
           Event.ret Fn.ble_ll_scan_set_enable] }) := by
  unfold ll_hci_le_cmd_proc
  simp only [rd]
  rw [hc]
  simp only
  rw [if_pos hlen]
  simp only [logged, handler_body, LLState.note, BLE_HCI_CMD_HDR_LEN, List.append_assoc,
    List.cons_append, List.nil_append]

/-- The set scan parameters branch with the required length: the handler runs on
the parameters after the command header; nothing is written. -/
theorem le_branch_set_scan_params (k : HciConsts) (H : Handlers σ) (cmdbuf ocf : Nat)
    (rsplen : Byte) (t : LLState σ)
    (hc : switch_ocf k ocf = LeCase.LE_SET_SCAN_PARAMS)
    (hlen : (t.cmdmem cmdbuf 2).val = k.BLE_HCI_SET_SCAN_PARAM_LEN) :
    ll_hci_le_cmd_proc k H cmdbuf ocf rsplen t =
      ((H.ble_ll_scan_set_scan_params ((t.cmdmem cmdbuf).shift 3) t.collab).1, rsplen,
       { t with
         collab := (H.ble_ll_scan_set_scan_params ((t.cmdmem cmdbuf).shift 3) t.collab).2
         log := t.log ++ [Event.read 2, Event.call Fn.ble_ll_scan_set_scan_params 3 none,
           Event.ret Fn.ble_ll_scan_set_scan_params] }) := by
  unfold ll_hci_le_cmd_proc
  simp only [rd]
  rw [hc]
  simp only
  rw [if_pos hlen]
  simp only [logged, handler_body, LLState.note, BLE_HCI_CMD_HDR_LEN, List.append_assoc,
    List.cons_append, List.nil_append]

/-- The set advertising data branch with a non-zero length: the handler runs on the
parameters after the command header with the length less one; nothing is
written. -/
theorem le_branch_set_adv_data (k : HciConsts) (H : Handlers σ) (cmdbuf ocf : Nat)
    (rsplen : Byte) (t : LLState σ)
    (hc : switch_ocf k ocf = LeCase.LE_SET_ADV_DATA)
    (hlen : (t.cmdmem cmdbuf 2).val > 0) :
    ll_hci_le_cmd_proc k H cmdbuf ocf rsplen t =
      ((H.ll_adv_set_adv_data ((t.cmdmem cmdbuf).shift 3) ((t.cmdmem cmdbuf 2).val - 1)
          t.collab).1, rsplen,
       { t with
         collab := (H.ll_adv_set_adv_data ((t.cmdmem cmdbuf).shift 3)
           ((t.cmdmem cmdbuf 2).val - 1) t.collab).2
         log := t.log ++ [Event.read 2,
           Event.call Fn.ll_adv_set_adv_data 3 (some ((t.cmdmem cmdbuf 2).val - 1)),
           Event.ret Fn.ll_adv_set_adv_data] }) := by
  unfold ll_hci_le_cmd_proc
  simp only [rd]
  rw [hc]
  simp only
  rw [if_pos hlen]
  simp only [logged, handler_body, LLState.note, BLE_HCI_CMD_HDR_LEN, List.append_assoc,
    List.cons_append, List.nil_append]

/-- The set scan response data branch with a non-zero length: the handler runs on the
parameters after the command header with the length less one; nothing is
written. -/
theorem le_branch_set_scan_rsp_data (k : HciConsts) (H : Handlers σ) (cmdbuf ocf : Nat)
    (rsplen : Byte) (t : LLState σ)
    (hc : switch_ocf k ocf = LeCase.LE_SET_SCAN_RSP_DATA)
    (hlen : (t.cmdmem cmdbuf 2).val > 0) :
    ll_hci_le_cmd_proc k H cmdbuf ocf rsplen t =
      ((H.ll_adv_set_scan_rsp_data ((t.cmdmem cmdbuf).shift 3) ((t.cmdmem cmdbuf 2).val - 1)
          t.collab).1, rsplen,
       { t with
         collab := (H.ll_adv_set_scan_rsp_data ((t.cmdmem cmdbuf).shift 3)
           ((t.cmdmem cmdbuf 2).val - 1) t.collab).2
         log := t.log ++ [Event.read 2,
           Event.call Fn.ll_adv_set_scan_rsp_data 3 (some ((t.cmdmem cmdbuf 2).val - 1)),
           Event.ret Fn.ll_adv_set_scan_rsp_data] }) := by
  unfold ll_hci_le_cmd_proc
  simp only [rd]
  rw [hc]
  simp only
  rw [if_pos hlen]
  simp only [logged, handler_body, LLState.note, BLE_HCI_CMD_HDR_LEN, List.append_assoc,
    List.cons_append, List.nil_append]

/-- Every branch with a length that is not the required one, and the
`default` branch: the initial `rc` is returned and nothing is done. -/
theorem le_branch_reject (k : HciConsts) (H : Handlers σ) (cmdbuf ocf : Nat)
    (rsplen : Byte) (t : LLState σ)
    (hc :
      (switch_ocf k ocf = LeCase.LE_SET_EVENT_MASK ∧
        (t.cmdmem cmdbuf 2).val ≠ BLE_HCI_SET_LE_EVENT_MASK_LEN) ∨
      (switch_ocf k ocf = LeCase.LE_RD_BUF_SIZE ∧
        (t.cmdmem cmdbuf 2).val ≠ BLE_HCI_RD_BUF_SIZE_LEN) ∨
      (switch_ocf k ocf = LeCase.LE_SET_RAND_ADDR ∧
        (t.cmdmem cmdbuf 2).val ≠ BLE_DEV_ADDR_LEN) ∨
      (switch_ocf k ocf = LeCase.LE_SET_ADV_PARAMS ∧
        (t.cmdmem cmdbuf 2).val ≠ k.BLE_HCI_SET_ADV_PARAM_LEN) ∨
      (switch_ocf k ocf = LeCase.LE_RD_ADV_CHAN_TXPWR ∧
        (t.cmdmem cmdbuf 2).val ≠ BLE_HCI_RD_BUF_SIZE_LEN) ∨
      (switch_ocf k ocf = LeCase.LE_SET_ADV_DATA ∧ ¬ (t.cmdmem cmdbuf 2).val > 0) ∨
      (switch_ocf k ocf = LeCase.LE_SET_SCAN_RSP_DATA ∧ ¬ (t.cmdmem cmdbuf 2).val > 0) ∨
      (switch_ocf k ocf = LeCase.LE_SET_ADV_ENABLE ∧
        (t.cmdmem cmdbuf 2).val ≠ BLE_HCI_SET_ADV_ENABLE_LEN) ∨
      (switch_ocf k ocf = LeCase.LE_SET_SCAN_ENABLE ∧
        (t.cmdmem cmdbuf 2).val ≠ k.BLE_HCI_SET_SCAN_ENABLE_LEN) ∨
      (switch_ocf k ocf = LeCase.LE_SET_SCAN_PARAMS ∧
        (t.cmdmem cmdbuf 2).val ≠ k.BLE_HCI_SET_SCAN_PARAM_LEN) ∨
      switch_ocf k ocf = LeCase.other) :
    ll_hci_le_cmd_proc k H cmdbuf ocf rsplen t =
      ((k.BLE_ERR_INV_HCI_CMD_PARMS.val : Int), rsplen, t.note [Event.read 2]) := by
  unfold ll_hci_le_cmd_proc
  simp only [rd]
  rcases hc with ⟨ho, hl⟩ | ⟨ho, hl⟩ | ⟨ho, hl⟩ | ⟨ho, hl⟩ | ⟨ho, hl⟩ | ⟨ho, hl⟩ |
    ⟨ho, hl⟩ | ⟨ho, hl⟩ | ⟨ho, hl⟩ | ⟨ho, hl⟩ | ho
  all_goals rw [ho]
  all_goals simp only
  all_goals exact if_neg hl

/-- A command of the LE group for which `ll_hci_le_cmd_proc` gives a status
byte is completed: the header is written over the state the LE dispatcher
left. -/
theorem cmd_proc_le (k : HciConsts) (H : Handlers σ) (ev cmdbuf : Nat) (s : LLState σ)
    (hv : ValidEv s ev cmdbuf)
    (hogf : BLE_HCI_OGF (le16toh cmdbuf 0 s).1 = k.BLE_HCI_OGF_LE)
    (rc : Int) (rl : Byte) (t : LLState σ)
    (hle : ll_hci_le_cmd_proc k H cmdbuf (BLE_HCI_OCF (le16toh cmdbuf 0 s).1) 0
      (s.note [Event.read 0, Event.read 1,
        Event.call Fn.ll_hci_le_cmd_proc 0 (some (BLE_HCI_OCF (le16toh cmdbuf 0 s).1))])
      = (rc, rl, t))
    (h0 : 0 ≤ rc) (h1 : rc ≤ BLE_ERR_MAX) :
    ll_hci_cmd_dispatch k H cmdbuf s =
      ((le16toh cmdbuf 0 s).1, rc, rl, t.note [Event.ret Fn.ll_hci_le_cmd_proc]) ∧
    ∃ s', ll_hci_cmd_proc k H ev s = Except.ok s' ∧
      s'.cmdmem = (ll_hci_cmd_complete k cmdbuf (le16toh cmdbuf 0 s).1 rc rl t).cmdmem ∧
      s'.log = t.log ++ [Event.ret Fn.ll_hci_le_cmd_proc, Event.write 0, Event.write 1,
        Event.write 2, Event.write 3, Event.write 4, Event.write 5] ∧
      s'.g_ll_hci_le_event_mask = t.g_ll_hci_le_event_mask ∧
      s'.collab = t.collab := by
  have hd := dispatch_le k H cmdbuf s hogf
  rw [hle] at hd
  simp only at hd
  have h0d : 0 ≤ (ll_hci_cmd_dispatch k H cmdbuf s).2.1 := by rw [hd]; exact h0
  have h1d : (ll_hci_cmd_dispatch k H cmdbuf s).2.1 ≤ BLE_ERR_MAX := by rw [hd]; exact h1
  obtain ⟨s', hs, hmem, hlog, hmask, hcol, _⟩ := cmd_proc_ok k H ev cmdbuf s hv h0d h1d
  rw [hd] at hmem hlog hmask hcol
  refine ⟨hd, s', hs, ?_, ?_, hmask, hcol⟩
  · rw [hmem]; simp only [cmd_complete_eq, LLState.note]
  · rw [hlog]
    simp only [LLState.note, List.append_assoc, List.cons_append, List.nil_append]

/-- The response length `ll_hci_le_cmd_proc` gives: 3 exactly for read LE
buffer size with no parameter, 1 exactly for read advertising channel TX
power with no parameter, and the value passed in otherwise. -/
theorem le_cmd_proc_rsplen (k : HciConsts) (hk : k.WF) (H : Handlers σ) (cmdbuf ocf : Nat)
    (rsplen : Byte) (t : LLState σ) :
    ((ll_hci_le_cmd_proc k H cmdbuf ocf rsplen t).2.1 = 3 ∧
      ocf = k.BLE_HCI_OCF_LE_RD_BUF_SIZE ∧ (t.cmdmem cmdbuf 2).val = 0) ∨
    ((ll_hci_le_cmd_proc k H cmdbuf ocf rsplen t).2.1 = 1 ∧
      ocf = k.BLE_HCI_OCF_LE_RD_ADV_CHAN_TXPWR ∧ (t.cmdmem cmdbuf 2).val = 0) ∨
    ((ll_hci_le_cmd_proc k H cmdbuf ocf rsplen t).2.1 = rsplen ∧
      ¬ (ocf = k.BLE_HCI_OCF_LE_RD_BUF_SIZE ∧ (t.cmdmem cmdbuf 2).val = 0) ∧
      ¬ (ocf = k.BLE_HCI_OCF_LE_RD_ADV_CHAN_TXPWR ∧ (t.cmdmem cmdbuf 2).val = 0)) := by
  have l2 := (switch_ocf_label k hk).2.1
  have l5 := (switch_ocf_label k hk).2.2.2.2.1
  rcases switch_ocf_cases k ocf with ⟨ho, hc⟩ | ⟨ho, hc⟩ | ⟨ho, hc⟩ | ⟨ho, hc⟩ | ⟨ho, hc⟩ |
    ⟨ho, hc⟩ | ⟨ho, hc⟩ | ⟨ho, hc⟩ | ⟨ho, hc⟩ | ⟨ho, hc⟩ | ⟨ho, hc⟩
  all_goals
    have n2 : switch_ocf k ocf ≠ LeCase.LE_RD_BUF_SIZE →
        ¬ (ocf = k.BLE_HCI_OCF_LE_RD_BUF_SIZE ∧ (t.cmdmem cmdbuf 2).val = 0) :=
      fun hne h => hne (by rw [h.1]; exact l2)
    have n5 : switch_ocf k ocf ≠ LeCase.LE_RD_ADV_CHAN_TXPWR →
        ¬ (ocf = k.BLE_HCI_OCF_LE_RD_ADV_CHAN_TXPWR ∧ (t.cmdmem cmdbuf 2).val = 0) :=
      fun hne h => hne (by rw [h.1]; exact l5)
    rw [hc] at n2 n5
    first
      | (have n2 := n2 (by decide); have n5 := n5 (by decide))
      | (have n5 := n5 (by decide))
      | (have n2 := n2 (by decide))
  · by_cases hl : (t.cmdmem cmdbuf 2).val = BLE_HCI_SET_LE_EVENT_MASK_LEN
    · rw [le_branch_set_event_mask k H cmdbuf ocf rsplen t hc hl]
      exact Or.inr (Or.inr ⟨rfl, n2, n5⟩)
    · rw [le_branch_reject k H cmdbuf ocf rsplen t (Or.inl ⟨hc, hl⟩)]
      exact Or.inr (Or.inr ⟨rfl, n2, n5⟩)
  · by_cases hl : (t.cmdmem cmdbuf 2).val = BLE_HCI_RD_BUF_SIZE_LEN
    · rw [le_branch_rd_buf_size k H cmdbuf ocf rsplen t hc hl]
      exact Or.inl ⟨rfl, ho, hl⟩
    · rw [le_branch_reject k H cmdbuf ocf rsplen t (Or.inr (Or.inl ⟨hc, hl⟩))]
      exact Or.inr (Or.inr ⟨rfl, fun h => hl h.2, n5⟩)
  · by_cases hl : (t.cmdmem cmdbuf 2).val = BLE_DEV_ADDR_LEN
    · rw [le_branch_set_rand_addr k H cmdbuf ocf rsplen t hc hl]
      exact Or.inr (Or.inr ⟨rfl, n2, n5⟩)
    · rw [le_branch_reject k H cmdbuf ocf rsplen t (Or.inr (Or.inr (Or.inl ⟨hc, hl⟩)))]
      exact Or.inr (Or.inr ⟨rfl, n2, n5⟩)
  · by_cases hl : (t.cmdmem cmdbuf 2).val = k.BLE_HCI_SET_ADV_PARAM_LEN
    · rw [le_branch_set_adv_params k H cmdbuf ocf rsplen t hc hl]
      exact Or.inr (Or.inr ⟨rfl, n2, n5⟩)
    · rw [le_branch_reject k H cmdbuf ocf rsplen t (Or.inr (Or.inr (Or.inr (Or.inl ⟨hc, hl⟩))))]
      exact Or.inr (Or.inr ⟨rfl, n2, n5⟩)
  · by_cases hl : (t.cmdmem cmdbuf 2).val = BLE_HCI_RD_BUF_SIZE_LEN
    · rw [le_branch_rd_adv_chan_txpwr k H cmdbuf ocf rsplen t hc hl]
      exact Or.inr (Or.inl ⟨rfl, ho, hl⟩)
    · rw [le_branch_reject k H cmdbuf ocf rsplen t (Or.inr (Or.inr (Or.inr (Or.inr (Or.inl ⟨hc, hl⟩)))))]
      exact Or.inr (Or.inr ⟨rfl, n2, fun h => hl h.2⟩)
  · by_cases hl : (t.cmdmem cmdbuf 2).val > 0
    · rw [le_branch_set_adv_data k H cmdbuf ocf rsplen t hc hl]
      exact Or.inr (Or.inr ⟨rfl, n2, n5⟩)
    · rw [le_branch_reject k H cmdbuf ocf rsplen t (Or.inr (Or.inr (Or.inr (Or.inr (Or.inr (Or.inl ⟨hc, hl⟩))))))]
      exact Or.inr (Or.inr ⟨rfl, n2, n5⟩)
  · by_cases hl : (t.cmdmem cmdbuf 2).val > 0
    · rw [le_branch_set_scan_rsp_data k H cmdbuf ocf rsplen t hc hl]
      exact Or.inr (Or.inr ⟨rfl, n2, n5⟩)
    · rw [le_branch_reject k H cmdbuf ocf rsplen t (Or.inr (Or.inr (Or.inr (Or.inr (Or.inr (Or.inr (Or.inl ⟨hc, hl⟩)))))))]
      exact Or.inr (Or.inr ⟨rfl, n2, n5⟩)
  · by_cases hl : (t.cmdmem cmdbuf 2).val = BLE_HCI_SET_ADV_ENABLE_LEN
    · rw [le_branch_set_adv_enable k H cmdbuf ocf rsplen t hc hl]
      exact Or.inr (Or.inr ⟨rfl, n2, n5⟩)
    · rw [le_branch_reject k H cmdbuf ocf rsplen t (Or.inr (Or.inr (Or.inr (Or.inr (Or.inr (Or.inr (Or.inr (Or.inl ⟨hc, hl⟩))))))))]
      exact Or.inr (Or.inr ⟨rfl, n2, n5⟩)
  · by_cases hl : (t.cmdmem cmdbuf 2).val = k.BLE_HCI_SET_SCAN_ENABLE_LEN
    · rw [le_branch_set_scan_enable k H cmdbuf ocf rsplen t hc hl]
      exact Or.inr (Or.inr ⟨rfl, n2, n5⟩)
    · rw [le_branch_reject k H cmdbuf ocf rsplen t (Or.inr (Or.inr (Or.inr (Or.inr (Or.inr (Or.inr (Or.inr (Or.inr (Or.inl ⟨hc, hl⟩)))))))))]
      exact Or.inr (Or.inr ⟨rfl, n2, n5⟩)
  · by_cases hl : (t.cmdmem cmdbuf 2).val = k.BLE_HCI_SET_SCAN_PARAM_LEN
    · rw [le_branch_set_scan_params k H cmdbuf ocf rsplen t hc hl]
      exact Or.inr (Or.inr ⟨rfl, n2, n5⟩)
    · rw [le_branch_reject k H cmdbuf ocf rsplen t (Or.inr (Or.inr (Or.inr (Or.inr (Or.inr (Or.inr (Or.inr (Or.inr (Or.inr (Or.inl ⟨hc, hl⟩))))))))))]
      exact Or.inr (Or.inr ⟨rfl, n2, n5⟩)
  · rw [le_branch_reject k H cmdbuf ocf rsplen t (Or.inr (Or.inr (Or.inr (Or.inr (Or.inr (Or.inr (Or.inr (Or.inr (Or.inr (Or.inr (hc)))))))))))]
    exact Or.inr (Or.inr ⟨rfl, n2, n5⟩)

/-- The response length after the dispatch: 3 exactly for an LE read buffer
size command with no parameter, 1 exactly for an LE read advertising channel
TX power command with no parameter, 0 otherwise. -/
theorem dispatch_rsplen (k : HciConsts) (hk : k.WF) (H : Handlers σ) (cmdbuf : Nat)
    (s : LLState σ) :
    ((ll_hci_cmd_dispatch k H cmdbuf s).2.2.1 = 3 ∧
      BLE_HCI_OGF (le16toh cmdbuf 0 s).1 = k.BLE_HCI_OGF_LE ∧
      BLE_HCI_OCF (le16toh cmdbuf 0 s).1 = k.BLE_HCI_OCF_LE_RD_BUF_SIZE ∧
      (s.cmdmem cmdbuf 2).val = 0) ∨
    ((ll_hci_cmd_dispatch k H cmdbuf s).2.2.1 = 1 ∧
      BLE_HCI_OGF (le16toh cmdbuf 0 s).1 = k.BLE_HCI_OGF_LE ∧
      BLE_HCI_OCF (le16toh cmdbuf 0 s).1 = k.BLE_HCI_OCF_LE_RD_ADV_CHAN_TXPWR ∧
      (s.cmdmem cmdbuf 2).val = 0) ∨
    ((ll_hci_cmd_dispatch k H cmdbuf s).2.2.1 = 0 ∧
      ¬ (BLE_HCI_OGF (le16toh cmdbuf 0 s).1 = k.BLE_HCI_OGF_LE ∧
        BLE_HCI_OCF (le16toh cmdbuf 0 s).1 = k.BLE_HCI_OCF_LE_RD_BUF_SIZE ∧
        (s.cmdmem cmdbuf 2).val = 0) ∧
      ¬ (BLE_HCI_OGF (le16toh cmdbuf 0 s).1 = k.BLE_HCI_OGF_LE ∧
        BLE_HCI_OCF (le16toh cmdbuf 0 s).1 = k.BLE_HCI_OCF_LE_RD_ADV_CHAN_TXPWR ∧
        (s.cmdmem cmdbuf 2).val = 0)) := by
  by_cases hogf : BLE_HCI_OGF (le16toh cmdbuf 0 s).1 = k.BLE_HCI_OGF_LE
  · rw [dispatch_le k H cmdbuf s hogf]
    rcases le_cmd_proc_rsplen k hk H cmdbuf (BLE_HCI_OCF (le16toh cmdbuf 0 s).1) 0
      (s.note [Event.read 0, Event.read 1,
        Event.call Fn.ll_hci_le_cmd_proc 0 (some (BLE_HCI_OCF (le16toh cmdbuf 0 s).1))])
      with ⟨h, ho, hl⟩ | ⟨h, ho, hl⟩ | ⟨h, n2, n5⟩
    · exact Or.inl ⟨h, hogf, ho, hl⟩
    · exact Or.inr (Or.inl ⟨h, hogf, ho, hl⟩)
    · exact Or.inr (Or.inr ⟨h, fun a => n2 a.2, fun a => n5 a.2⟩)
  · rw [dispatch_not_le k H cmdbuf s hogf]
    exact Or.inr (Or.inr ⟨rfl, fun a => hogf a.1, fun a => hogf a.1⟩)

/-- The command with opcode bytes 0xFF, 0xFF on the concrete state is
completed. -/
theorem demo_unknown_group_completes :
    ∃ s', ll_hci_cmd_proc btConsts demoHandlers 20 (demoState [0xFF, 0xFF, 0]) = Except.ok s' := by
  have hd := dispatch_not_le btConsts demoHandlers 10 (demoState [0xFF, 0xFF, 0]) (by decide)
  obtain ⟨s', hs, _⟩ := cmd_proc_ok btConsts demoHandlers 20 10 (demoState [0xFF, 0xFF, 0])
    (by decide) (by rw [hd]; decide) (by rw [hd]; decide)
  exact ⟨s', hs⟩

/-- The log of one call of `ll_hci_le_cmd_proc`: the read of the length byte
and then nothing, or the bracket of one handler, which is: the set LE event
mask handler reading bytes 3..10; the read buffer size handler writing bytes
6..8 or the TX power handler writing byte 6, both only when the length byte
is 0; or a handler of the advertising or scanning subsystem called on the
parameters at offset 3. -/
theorem le_cmd_proc_log (k : HciConsts) (H : Handlers σ) (cmdbuf ocf : Nat)
    (rsplen : Byte) (t : LLState σ) :
    ∃ B, (ll_hci_le_cmd_proc k H cmdbuf ocf rsplen t).2.2.log
        = t.log ++ Event.read 2 :: B ∧
      (B = [] ∨
       B = [Event.call Fn.ll_hci_set_le_event_mask 3 none, Event.read 3, Event.read 4,
         Event.read 5, Event.read 6, Event.read 7, Event.read 8, Event.read 9,
         Event.read 10, Event.ret Fn.ll_hci_set_le_event_mask] ∨
       (B = [Event.call Fn.ll_hci_le_read_bufsize 6 none, Event.write 6, Event.write 7,
         Event.write 8, Event.ret Fn.ll_hci_le_read_bufsize] ∧
         (t.cmdmem cmdbuf 2).val = 0) ∨
       (B = [Event.call Fn.ll_adv_read_txpwr 6 none, Event.write 6,
         Event.ret Fn.ll_adv_read_txpwr] ∧ (t.cmdmem cmdbuf 2).val = 0) ∨
       (∃ f a, B = [Event.call f 3 a, Event.ret f] ∧
         f ∈ [Fn.ll_adv_set_rand_addr, Fn.ll_adv_set_adv_params, Fn.ll_adv_set_adv_data,
           Fn.ll_adv_set_scan_rsp_data, Fn.ll_adv_set_enable, Fn.ble_ll_scan_set_enable,
           Fn.ble_ll_scan_set_scan_params])) := by
  rcases switch_ocf_cases k ocf with ⟨ho, hc⟩ | ⟨ho, hc⟩ | ⟨ho, hc⟩ | ⟨ho, hc⟩ | ⟨ho, hc⟩ |
    ⟨ho, hc⟩ | ⟨ho, hc⟩ | ⟨ho, hc⟩ | ⟨ho, hc⟩ | ⟨ho, hc⟩ | ⟨ho, hc⟩
  · by_cases hl : (t.cmdmem cmdbuf 2).val = BLE_HCI_SET_LE_EVENT_MASK_LEN
    · rw [le_branch_set_event_mask k H cmdbuf ocf rsplen t hc hl]
      exact ⟨_, rfl, Or.inr (Or.inl rfl)⟩
    · rw [le_branch_reject k H cmdbuf ocf rsplen t (Or.inl ⟨hc, hl⟩)]
      exact ⟨[], rfl, Or.inl rfl⟩
  · by_cases hl : (t.cmdmem cmdbuf 2).val = BLE_HCI_RD_BUF_SIZE_LEN
    · rw [le_branch_rd_buf_size k H cmdbuf ocf rsplen t hc hl]
      exact ⟨_, rfl, Or.inr (Or.inr (Or.inl ⟨rfl, hl⟩))⟩
    · rw [le_branch_reject k H cmdbuf ocf rsplen t (Or.inr (Or.inl ⟨hc, hl⟩))]
      exact ⟨[], rfl, Or.inl rfl⟩
  · by_cases hl : (t.cmdmem cmdbuf 2).val = BLE_DEV_ADDR_LEN
    · rw [le_branch_set_rand_addr k H cmdbuf ocf rsplen t hc hl]
      exact ⟨_, rfl, Or.inr (Or.inr (Or.inr (Or.inr ⟨_, _, rfl, by decide⟩)))⟩
    · rw [le_branch_reject k H cmdbuf ocf rsplen t (Or.inr (Or.inr (Or.inl ⟨hc, hl⟩)))]
      exact ⟨[], rfl, Or.inl rfl⟩
  · by_cases hl : (t.cmdmem cmdbuf 2).val = k.BLE_HCI_SET_ADV_PARAM_LEN
    · rw [le_branch_set_adv_params k H cmdbuf ocf rsplen t hc hl]
      exact ⟨_, rfl, Or.inr (Or.inr (Or.inr (Or.inr ⟨_, _, rfl, by decide⟩)))⟩
    · rw [le_branch_reject k H cmdbuf ocf rsplen t (Or.inr (Or.inr (Or.inr (Or.inl ⟨hc, hl⟩))))]
      exact ⟨[], rfl, Or.inl rfl⟩
  · by_cases hl : (t.cmdmem cmdbuf 2).val = BLE_HCI_RD_BUF_SIZE_LEN
    · rw [le_branch_rd_adv_chan_txpwr k H cmdbuf ocf rsplen t hc hl]
      exact ⟨_, rfl, Or.inr (Or.inr (Or.inr (Or.inl ⟨rfl, hl⟩)))⟩
    · rw [le_branch_reject k H cmdbuf ocf rsplen t (Or.inr (Or.inr (Or.inr (Or.inr (Or.inl ⟨hc, hl⟩)))))]
      exact ⟨[], rfl, Or.inl rfl⟩
  · by_cases hl : (t.cmdmem cmdbuf 2).val > 0
    · rw [le_branch_set_adv_data k H cmdbuf ocf rsplen t hc hl]
      exact ⟨_, rfl, Or.inr (Or.inr (Or.inr (Or.inr ⟨_, _, rfl, by decide⟩)))⟩
    · rw [le_branch_reject k H cmdbuf ocf rsplen t (Or.inr (Or.inr (Or.inr (Or.inr (Or.inr (Or.inl ⟨hc, hl⟩))))))]
      exact ⟨[], rfl, Or.inl rfl⟩
  · by_cases hl : (t.cmdmem cmdbuf 2).val > 0
    · rw [le_branch_set_scan_rsp_data k H cmdbuf ocf rsplen t hc hl]
      exact ⟨_, rfl, Or.inr (Or.inr (Or.inr (Or.inr ⟨_, _, rfl, by decide⟩)))⟩
    · rw [le_branch_reject k H cmdbuf ocf rsplen t (Or.inr (Or.inr (Or.inr (Or.inr (Or.inr (Or.inr (Or.inl ⟨hc, hl⟩)))))))]
      exact ⟨[], rfl, Or.inl rfl⟩
  · by_cases hl : (t.cmdmem cmdbuf 2).val = BLE_HCI_SET_ADV_ENABLE_LEN
    · rw [le_branch_set_adv_enable k H cmdbuf ocf rsplen t hc hl]
      exact ⟨_, rfl, Or.inr (Or.inr (Or.inr (Or.inr ⟨_, _, rfl, by decide⟩)))⟩
    · rw [le_branch_reject k H cmdbuf ocf rsplen t (Or.inr (Or.inr (Or.inr (Or.inr (Or.inr (Or.inr (Or.inr (Or.inl ⟨hc, hl⟩))))))))]
      exact ⟨[], rfl, Or.inl rfl⟩
  · by_cases hl : (t.cmdmem cmdbuf 2).val = k.BLE_HCI_SET_SCAN_ENABLE_LEN
    · rw [le_branch_set_scan_enable k H cmdbuf ocf rsplen t hc hl]
      exact ⟨_, rfl, Or.inr (Or.inr (Or.inr (Or.inr ⟨_, _, rfl, by decide⟩)))⟩
    · rw [le_branch_reject k H cmdbuf ocf rsplen t (Or.inr (Or.inr (Or.inr (Or.inr (Or.inr (Or.inr (Or.inr (Or.inr (Or.inl ⟨hc, hl⟩)))))))))]
      exact ⟨[], rfl, Or.inl rfl⟩
  · by_cases hl : (t.cmdmem cmdbuf 2).val = k.BLE_HCI_SET_SCAN_PARAM_LEN
    · rw [le_branch_set_scan_params k H cmdbuf ocf rsplen t hc hl]
      exact ⟨_, rfl, Or.inr (Or.inr (Or.inr (Or.inr ⟨_, _, rfl, by decide⟩)))⟩
    · rw [le_branch_reject k H cmdbuf ocf rsplen t (Or.inr (Or.inr (Or.inr (Or.inr (Or.inr (Or.inr (Or.inr (Or.inr (Or.inr (Or.inl ⟨hc, hl⟩))))))))))]
      exact ⟨[], rfl, Or.inl rfl⟩
  · rw [le_branch_reject k H cmdbuf ocf rsplen t (Or.inr (Or.inr (Or.inr (Or.inr (Or.inr (Or.inr (Or.inr (Or.inr (Or.inr (Or.inr (hc)))))))))))]
    exact ⟨[], rfl, Or.inl rfl⟩

/-- The log of the dispatch: the two reads of the opcode and, for the LE
group, the bracket of `ll_hci_le_cmd_proc` around its own log. -/
theorem dispatch_log (k : HciConsts) (H : Handlers σ) (cmdbuf : Nat) (s : LLState σ) :
    (BLE_HCI_OGF (le16toh cmdbuf 0 s).1 ≠ k.BLE_HCI_OGF_LE ∧
      (ll_hci_cmd_dispatch k H cmdbuf s).2.2.2.log = s.log ++ [Event.read 0, Event.read 1]) ∨
    (BLE_HCI_OGF (le16toh cmdbuf 0 s).1 = k.BLE_HCI_OGF_LE ∧
      ∃ B, (ll_hci_cmd_dispatch k H cmdbuf s).2.2.2.log
          = s.log ++ (Event.read 0 :: Event.read 1 ::
            Event.call Fn.ll_hci_le_cmd_proc 0 (some (BLE_HCI_OCF (le16toh cmdbuf 0 s).1)) ::
            Event.read 2 :: (B ++ [Event.ret Fn.ll_hci_le_cmd_proc])) ∧
        (B = [] ∨
         B = [Event.call Fn.ll_hci_set_le_event_mask 3 none, Event.read 3, Event.read 4,
           Event.read 5, Event.read 6, Event.read 7, Event.read 8, Event.read 9,
           Event.read 10, Event.ret Fn.ll_hci_set_le_event_mask] ∨
         (B = [Event.call Fn.ll_hci_le_read_bufsize 6 none, Event.write 6, Event.write 7,
           Event.write 8, Event.ret Fn.ll_hci_le_read_bufsize] ∧
           (s.cmdmem cmdbuf 2).val = 0) ∨
         (B = [Event.call Fn.ll_adv_read_txpwr 6 none, Event.write 6,
           Event.ret Fn.ll_adv_read_txpwr] ∧ (s.cmdmem cmdbuf 2).val = 0) ∨
         (∃ f a, B = [Event.call f 3 a, Event.ret f] ∧
           f ∈ [Fn.ll_adv_set_rand_addr, Fn.ll_adv_set_adv_params, Fn.ll_adv_set_adv_data,
             Fn.ll_adv_set_scan_rsp_data, Fn.ll_adv_set_enable, Fn.ble_ll_scan_set_enable,
             Fn.ble_ll_scan_set_scan_params]))) := by
  by_cases hogf : BLE_HCI_OGF (le16toh cmdbuf 0 s).1 = k.BLE_HCI_OGF_LE
  · right
    refine ⟨hogf, ?_⟩
    rw [dispatch_le k H cmdbuf s hogf]
    obtain ⟨B, hB, hshape⟩ := le_cmd_proc_log k H cmdbuf (BLE_HCI_OCF (le16toh cmdbuf 0 s).1) 0
      (s.note [Event.read 0, Event.read 1,
        Event.call Fn.ll_hci_le_cmd_proc 0 (some (BLE_HCI_OCF (le16toh cmdbuf 0 s).1))])
    refine ⟨B, ?_, hshape⟩
    simp only [LLState.note] at hB ⊢
    rw [hB]
    simp only [List.append_assoc, List.cons_append, List.nil_append]
  · left
    refine ⟨hogf, ?_⟩
    rw [dispatch_not_le k H cmdbuf s hogf]
    rfl

/-- A command of another group than LE is completed, given validly acquired
blocks, and the run logs the two reads of the opcode and the six writes of
the header. -/
theorem cmd_proc_not_le_log (k : HciConsts) (H : Handlers σ) (ev cmdbuf : Nat)
    (s : LLState σ) (hv : ValidEv s ev cmdbuf)
    (hogf : BLE_HCI_OGF (le16toh cmdbuf 0 s).1 ≠ k.BLE_HCI_OGF_LE) :
    ∃ s', ll_hci_cmd_proc k H ev s = Except.ok s' ∧
      s'.log = s.log ++ [Event.read 0, Event.read 1, Event.write 0, Event.write 1,
        Event.write 2, Event.write 3, Event.write 4, Event.write 5] := by
  have hd := dispatch_not_le k H cmdbuf s hogf
  have h0 : 0 ≤ (ll_hci_cmd_dispatch k H cmdbuf s).2.1 := by
    rw [hd]; exact Int.ofNat_nonneg _
  have h1 : (ll_hci_cmd_dispatch k H cmdbuf s).2.1 ≤ BLE_ERR_MAX := by
    rw [hd]
    have := k.BLE_ERR_UNKNOWN_HCI_CMD.isLt
    unfold BLE_ERR_MAX
    simp only
    omega
  obtain ⟨s', hs, _, hlog, _⟩ := cmd_proc_ok k H ev cmdbuf s hv h0 h1
  rw [hd] at hlog
  refine ⟨s', hs, ?_⟩
  rw [hlog]
  simp only [LLState.note, List.append_assoc, List.cons_append, List.nil_append]

/-- The LE read buffer size command with no parameter on the concrete state
is completed. -/
theorem demo_rd_buf_size_completes :
    ∃ s', ll_hci_cmd_proc btConsts demoHandlers 20 (demoState [0x02, 0x20, 0]) = Except.ok s' := by
  obtain ⟨s', hs, _⟩ := cmd_proc_ok btConsts demoHandlers 20 10 (demoState [0x02, 0x20, 0])
    (by decide) (by decide) (by decide)
  exact ⟨s', hs⟩

/-- The command-complete event of a command of the LE group, in terms of what
`ll_hci_le_cmd_proc` gave: the status byte is the returned status and the
length byte is 4 plus the response length, neither reduced. -/
theorem status_byte_le (k : HciConsts) (H : Handlers σ) (ev cmdbuf : Nat) (s : LLState σ)
    (hv : ValidEv s ev cmdbuf)
    (hogf : BLE_HCI_OGF (le16toh cmdbuf 0 s).1 = k.BLE_HCI_OGF_LE)
    (rc : Int) (rl : Byte) (t : LLState σ)
    (hle : ll_hci_le_cmd_proc k H cmdbuf (BLE_HCI_OCF (le16toh cmdbuf 0 s).1) 0
      (s.note [Event.read 0, Event.read 1,
        Event.call Fn.ll_hci_le_cmd_proc 0 (some (BLE_HCI_OCF (le16toh cmdbuf 0 s).1))])
      = (rc, rl, t))
    (h0 : 0 ≤ rc) (h1 : rc ≤ BLE_ERR_MAX) (hrl : rl.val ≤ 3) :
    ∃ s', ll_hci_cmd_proc k H ev s = Except.ok s' ∧
      ((s'.cmdmem cmdbuf 5).val : Int) = rc ∧
      (s'.cmdmem cmdbuf 1).val = 4 + rl.val ∧
      (ll_hci_cmd_dispatch k H cmdbuf s).2.1 = rc ∧
      (ll_hci_cmd_dispatch k H cmdbuf s).2.2.1 = rl := by
  obtain ⟨hd, s', hs, hmem, _, _, _⟩ := cmd_proc_le k H ev cmdbuf s hv hogf rc rl t hle h0 h1
  obtain ⟨_, b1, _, _, _, b5, _⟩ := cmd_complete_bytes k cmdbuf (le16toh cmdbuf 0 s).1 rc rl t
  refine ⟨s', hs, ?_, ?_, by rw [hd], by rw [hd]⟩
  · rw [hmem, b5]; exact u8_of_int_val h0 h1
  · rw [hmem, b1]; exact u8_val_of_lt (by omega)

/-- With validly acquired blocks and a dispatch status that is a status
byte, `ll_hci_cmd_proc` returns: the command-complete event is emitted. -/
theorem cmd_proc_emits (k : HciConsts) (H : Handlers σ) (ev cmdbuf : Nat) (s : LLState σ)
    (hv : ValidEv s ev cmdbuf)
    (h0 : 0 ≤ (ll_hci_cmd_dispatch k H cmdbuf s).2.1)
    (h1 : (ll_hci_cmd_dispatch k H cmdbuf s).2.1 ≤ BLE_ERR_MAX) :
    ∃ s', ll_hci_cmd_proc k H ev s = Except.ok s' := by
  obtain ⟨s', hs, _⟩ := cmd_proc_ok k H ev cmdbuf s hv h0 h1
  exact ⟨s', hs⟩

/-! ## The claims -/

/-- C1: a command of one of the eight fixed-length LE opcodes whose `param_len`
(buffer byte 2) differs from the required length, or a set advertising data /
set scan response data command with `param_len = 0`, makes
`ll_hci_le_cmd_proc` return `BLE_ERR_INV_HCI_CMD_PARMS` with `*rsplen` as the
caller set it; the state is the one before the call but for the log, which
gained the read of byte 2 and nothing else: no handler is invoked, the LE
event mask and the collaborator state are unchanged. -/
theorem C1_param_len_mismatch (k : HciConsts) (hk : k.WF) (H : Handlers σ)
    (cmdbuf ocf : Nat) (rsplen : Byte) (s : LLState σ)
    (hmis :
      (ocf = k.BLE_HCI_OCF_LE_SET_EVENT_MASK ∧
        (s.cmdmem cmdbuf 2).val ≠ BLE_HCI_SET_LE_EVENT_MASK_LEN) ∨
      (ocf = k.BLE_HCI_OCF_LE_RD_BUF_SIZE ∧
        (s.cmdmem cmdbuf 2).val ≠ BLE_HCI_RD_BUF_SIZE_LEN) ∨
      (ocf = k.BLE_HCI_OCF_LE_SET_RAND_ADDR ∧ (s.cmdmem cmdbuf 2).val ≠ BLE_DEV_ADDR_LEN) ∨
      (ocf = k.BLE_HCI_OCF_LE_SET_ADV_PARAMS ∧
        (s.cmdmem cmdbuf 2).val ≠ k.BLE_HCI_SET_ADV_PARAM_LEN) ∨
      (ocf = k.BLE_HCI_OCF_LE_RD_ADV_CHAN_TXPWR ∧ (s.cmdmem cmdbuf 2).val ≠ 0) ∨
      (ocf = k.BLE_HCI_OCF_LE_SET_ADV_ENABLE ∧
        (s.cmdmem cmdbuf 2).val ≠ BLE_HCI_SET_ADV_ENABLE_LEN) ∨
      (ocf = k.BLE_HCI_OCF_LE_SET_SCAN_ENABLE ∧
        (s.cmdmem cmdbuf 2).val ≠ k.BLE_HCI_SET_SCAN_ENABLE_LEN) ∨
      (ocf = k.BLE_HCI_OCF_LE_SET_SCAN_PARAMS ∧
        (s.cmdmem cmdbuf 2).val ≠ k.BLE_HCI_SET_SCAN_PARAM_LEN) ∨
      (ocf = k.BLE_HCI_OCF_LE_SET_ADV_DATA ∧ (s.cmdmem cmdbuf 2).val = 0) ∨
      (ocf = k.BLE_HCI_OCF_LE_SET_SCAN_RSP_DATA ∧ (s.cmdmem cmdbuf 2).val = 0)) :
    ll_hci_le_cmd_proc k H cmdbuf ocf rsplen s =
      ((k.BLE_ERR_INV_HCI_CMD_PARMS.val : Int), rsplen, s.note [Event.read 2]) ∧
    (ll_hci_le_cmd_proc k H cmdbuf ocf rsplen s).2.2.g_ll_hci_le_event_mask
      = s.g_ll_hci_le_event_mask ∧
    (ll_hci_le_cmd_proc k H cmdbuf ocf rsplen s).2.2.collab = s.collab ∧
    (ll_hci_le_cmd_proc k H cmdbuf ocf rsplen s).2.2.cmdmem = s.cmdmem ∧
    (ll_hci_le_cmd_proc k H cmdbuf ocf rsplen s).2.2.log = s.log ++ [Event.read 2] := by
  obtain ⟨l1, l2, l3, l4, l5, l6, l7, l8, l9, l10⟩ := switch_ocf_label k hk
  have main : ll_hci_le_cmd_proc k H cmdbuf ocf rsplen s =
      ((k.BLE_ERR_INV_HCI_CMD_PARMS.val : Int), rsplen, s.note [Event.read 2]) := by
    unfold ll_hci_le_cmd_proc
    simp only [rd]
    rcases hmis with ⟨ho, hl⟩ | ⟨ho, hl⟩ | ⟨ho, hl⟩ | ⟨ho, hl⟩ | ⟨ho, hl⟩ | ⟨ho, hl⟩ |
      ⟨ho, hl⟩ | ⟨ho, hl⟩ | ⟨ho, hl⟩ | ⟨ho, hl⟩
    · rw [ho, l1]; simp only; rw [if_neg hl]
    · rw [ho, l2]; simp only; rw [if_neg hl]
    · rw [ho, l3]; simp only; rw [if_neg hl]
    · rw [ho, l4]; simp only; rw [if_neg hl]
    · rw [ho, l5]; simp only; exact if_neg hl
    · rw [ho, l8]; simp only; rw [if_neg hl]
    · rw [ho, l9]; simp only; rw [if_neg hl]
    · rw [ho, l10]; simp only; rw [if_neg hl]
    · rw [ho, l6]; simp only; rw [if_neg (by omega)]
    · rw [ho, l7]; simp only; rw [if_neg (by omega)]
  rw [main]
  exact ⟨rfl, rfl, rfl, rfl, rfl⟩

/-- Witness of C1, the scenario of the specification: set advertising enable
with `param_len = 2` instead of 1. -/
theorem C1_param_len_mismatch_witness :
    btConsts.WF ∧
    (demoState [0x0A, 0x20, 2, 1, 0]).cmdmem 10 2 = 2 ∧
    ll_hci_le_cmd_proc btConsts demoHandlers 10 0x0A 0 (demoState [0x0A, 0x20, 2, 1, 0]) =
      (0x12, 0, (demoState [0x0A, 0x20, 2, 1, 0]).note [Event.read 2]) ∧
    (ll_hci_le_cmd_proc btConsts demoHandlers 10 0x0A 0
      (demoState [0x0A, 0x20, 2, 1, 0])).2.2.collab = [] :=
  ⟨by decide, by decide,
    (C1_param_len_mismatch btConsts (by decide) demoHandlers 10 0x0A 0
      (demoState [0x0A, 0x20, 2, 1, 0])
      (Or.inr (Or.inr (Or.inr (Or.inr (Or.inr (Or.inl ⟨rfl, by decide⟩))))))).1,
    (C1_param_len_mismatch btConsts (by decide) demoHandlers 10 0x0A 0
      (demoState [0x0A, 0x20, 2, 1, 0])
      (Or.inr (Or.inr (Or.inr (Or.inr (Or.inr (Or.inl ⟨rfl, by decide⟩))))))).2.2.1⟩

/-- C2: for a command whose opcode has an OGF other than `BLE_HCI_OGF_LE`
(and validly acquired blocks), `ll_hci_cmd_proc` emits a command-complete
event whose status byte (byte 5) is `BLE_ERR_UNKNOWN_HCI_CMD` and whose
length byte (byte 1) is 4. The log gains the two reads of the opcode and the
six writes of the header, and no call: `ll_hci_le_cmd_proc` is not called and
no handler is invoked; the LE event mask and the collaborator state are
unchanged. -/
theorem C2_unknown_ogf (k : HciConsts) (H : Handlers σ) (ev cmdbuf : Nat) (s : LLState σ)
    (hv : ValidEv s ev cmdbuf)
    (hogf : BLE_HCI_OGF (le16toh cmdbuf 0 s).1 ≠ k.BLE_HCI_OGF_LE) :
    ∃ s', ll_hci_cmd_proc k H ev s = Except.ok s' ∧
      s'.cmdmem cmdbuf 0 = k.BLE_HCI_EVCODE_COMMAND_COMPLETE ∧
      (s'.cmdmem cmdbuf 1).val = 4 ∧
      s'.cmdmem cmdbuf 5 = k.BLE_ERR_UNKNOWN_HCI_CMD ∧
      s'.g_ll_hci_le_event_mask = s.g_ll_hci_le_event_mask ∧
      s'.collab = s.collab ∧
      s'.log = s.log ++ [Event.read 0, Event.read 1, Event.write 0, Event.write 1,
        Event.write 2, Event.write 3, Event.write 4, Event.write 5] ∧
      (∀ e ∈ s'.log, e ∉ s.log → e.isCall = false) := by
  have hd := dispatch_not_le k H cmdbuf s hogf
  have h0 : 0 ≤ (ll_hci_cmd_dispatch k H cmdbuf s).2.1 := by
    rw [hd]; exact Int.ofNat_nonneg _
  have h1 : (ll_hci_cmd_dispatch k H cmdbuf s).2.1 ≤ BLE_ERR_MAX := by
    rw [hd]
    have := k.BLE_ERR_UNKNOWN_HCI_CMD.isLt
    unfold BLE_ERR_MAX
    simp only
    omega
  obtain ⟨s', hs, hmem, hlog, hmask, hcol, _⟩ := cmd_proc_ok k H ev cmdbuf s hv h0 h1
  rw [hd] at hmem hlog hmask hcol
  rw [cmd_complete_eq] at hmem
  simp only at hmem hlog hmask hcol
  have hlog2 : s'.log = s.log ++ [Event.read 0, Event.read 1, Event.write 0, Event.write 1,
      Event.write 2, Event.write 3, Event.write 4, Event.write 5] := by
    rw [hlog]
    simp only [LLState.note, List.append_assoc, List.cons_append, List.nil_append]
  refine ⟨s', hs, ?_, ?_, ?_, hmask, hcol, hlog2, ?_⟩
  · rw [hmem]; simp
  · rw [hmem]; simp [u8]; rfl
  · rw [hmem]
    simp only [and_self, if_true, u8_of_int, u8]
    apply Fin.ext
    have := k.BLE_ERR_UNKNOWN_HCI_CMD.isLt
    simp only
    omega
  · intro e he hne
    rw [hlog2, List.mem_append] at he
    rcases he with he | he
    · exact absurd he hne
    · simp only [List.mem_cons, List.mem_singleton, List.not_mem_nil, or_false] at he
      rcases he with rfl | rfl | rfl | rfl | rfl | rfl | rfl | rfl <;> rfl

/-- Witness of C2: a command of OGF 0x3F (opcode bytes 0x01, 0xFC). -/
theorem C2_unknown_ogf_witness :
    ValidEv (demoState [0x01, 0xFC, 0]) 20 10 ∧
    BLE_HCI_OGF (le16toh 10 0 (demoState [0x01, 0xFC, 0])).1 ≠ btConsts.BLE_HCI_OGF_LE ∧
    ∃ s', ll_hci_cmd_proc btConsts demoHandlers 20 (demoState [0x01, 0xFC, 0]) = Except.ok s' ∧
      s'.cmdmem 10 0 = btConsts.BLE_HCI_EVCODE_COMMAND_COMPLETE ∧
      (s'.cmdmem 10 1).val = 4 ∧
      s'.cmdmem 10 5 = btConsts.BLE_ERR_UNKNOWN_HCI_CMD ∧
      s'.g_ll_hci_le_event_mask = (demoState [0x01, 0xFC, 0]).g_ll_hci_le_event_mask ∧
      s'.collab = (demoState [0x01, 0xFC, 0]).collab ∧
      s'.log = (demoState [0x01, 0xFC, 0]).log ++ [Event.read 0, Event.read 1,
        Event.write 0, Event.write 1, Event.write 2, Event.write 3, Event.write 4,
        Event.write 5] :=
  ⟨by decide, by decide,
    match C2_unknown_ogf btConsts demoHandlers 20 10 (demoState [0x01, 0xFC, 0])
      (by decide) (by decide) with
    | ⟨s', hs, h0, h1, h5, hm, hc, hl, _⟩ => ⟨s', hs, h0, h1, h5, hm, hc, hl⟩⟩

/-- C3 (what the code does): for a command of the LE group whose OCF is none
of the ten `case` labels, whatever its `param_len`, `ll_hci_cmd_proc` emits a
command-complete event whose status byte is `BLE_ERR_INV_HCI_CMD_PARMS`, the
value `rc` is initialised to, and not `BLE_ERR_UNKNOWN_HCI_CMD`; no handler
is invoked (the log gains the reads of the three header bytes, the call and
return of `ll_hci_le_cmd_proc` and the six header writes). -/
theorem C3_unsupported_ocf_status (k : HciConsts) (H : Handlers σ) (ev cmdbuf : Nat)
    (s : LLState σ) (hv : ValidEv s ev cmdbuf)
    (hogf : BLE_HCI_OGF (le16toh cmdbuf 0 s).1 = k.BLE_HCI_OGF_LE)
    (hocf : BLE_HCI_OCF (le16toh cmdbuf 0 s).1 ∉ k.ocfLabels) :
    ∃ s', ll_hci_cmd_proc k H ev s = Except.ok s' ∧
      s'.cmdmem cmdbuf 5 = k.BLE_ERR_INV_HCI_CMD_PARMS ∧
      s'.g_ll_hci_le_event_mask = s.g_ll_hci_le_event_mask ∧
      s'.collab = s.collab ∧
      s'.log = s.log ++ [Event.read 0, Event.read 1,
        Event.call Fn.ll_hci_le_cmd_proc 0 (some (BLE_HCI_OCF (le16toh cmdbuf 0 s).1)),
        Event.read 2, Event.ret Fn.ll_hci_le_cmd_proc,
        Event.write 0, Event.write 1, Event.write 2, Event.write 3, Event.write 4,
        Event.write 5] := by
  have hle : ∀ t : LLState σ, ll_hci_le_cmd_proc k H cmdbuf
      (BLE_HCI_OCF (le16toh cmdbuf 0 s).1) 0 t =
      ((k.BLE_ERR_INV_HCI_CMD_PARMS.val : Int), 0, t.note [Event.read 2]) := by
    intro t
    unfold ll_hci_le_cmd_proc
    simp only [rd]
    rw [switch_ocf_other k _ hocf]
  have hd := dispatch_le k H cmdbuf s hogf
  rw [hle] at hd
  have h0 : 0 ≤ (ll_hci_cmd_dispatch k H cmdbuf s).2.1 := by
    rw [hd]; exact Int.ofNat_nonneg _
  have h1 : (ll_hci_cmd_dispatch k H cmdbuf s).2.1 ≤ BLE_ERR_MAX := by
    rw [hd]
    have := k.BLE_ERR_INV_HCI_CMD_PARMS.isLt
    unfold BLE_ERR_MAX
    simp only
    omega
  obtain ⟨s', hs, hmem, hlog, hmask, hcol, _⟩ := cmd_proc_ok k H ev cmdbuf s hv h0 h1
  rw [hd] at hmem hlog hmask hcol
  rw [cmd_complete_eq] at hmem
  simp only at hmem hlog hmask hcol
  refine ⟨s', hs, ?_, hmask, hcol, ?_⟩
  · rw [hmem]
    simp only [and_self, if_true, u8_of_int, u8]
    apply Fin.ext
    have := k.BLE_ERR_INV_HCI_CMD_PARMS.isLt
    simp only
    omega
  · rw [hlog]
    simp only [LLState.note, List.append_assoc, List.cons_append, List.nil_append]

/-- Witness of C3, the failing input: LE read local supported features
(OGF 0x08, OCF 0x0003, opcode bytes 0x03, 0x20), which the `switch` has no
case for. The status byte is 0x12 (invalid parameters), not 0x01 (unknown
command). -/
theorem C3_unsupported_ocf_status_witness :
    ValidEv (demoState [0x03, 0x20, 0]) 20 10 ∧
    BLE_HCI_OGF (le16toh 10 0 (demoState [0x03, 0x20, 0])).1 = btConsts.BLE_HCI_OGF_LE ∧
    BLE_HCI_OCF (le16toh 10 0 (demoState [0x03, 0x20, 0])).1 ∉ btConsts.ocfLabels ∧
    ∃ s', ll_hci_cmd_proc btConsts demoHandlers 20 (demoState [0x03, 0x20, 0]) = Except.ok s' ∧
      s'.cmdmem 10 5 = 0x12 ∧ s'.cmdmem 10 5 ≠ btConsts.BLE_ERR_UNKNOWN_HCI_CMD :=
  ⟨by decide, by decide, by decide,
    match C3_unsupported_ocf_status btConsts demoHandlers 20 10 (demoState [0x03, 0x20, 0])
      (by decide) (by decide) (by decide) with
    | ⟨s', hs, h5, _⟩ => ⟨s', hs, h5, by rw [h5]; decide⟩⟩

/-- C4: round trip of set LE event mask. For a command of the LE group with
OCF `BLE_HCI_OCF_LE_SET_EVENT_MASK` and `param_len = 8` (and validly acquired
blocks), after `ll_hci_cmd_proc` the LE event mask is, byte for byte, buffer
bytes 3..10 of the command; the status is `BLE_ERR_SUCCESS` and the response
length is 0 (length byte 4). -/
theorem C4_set_event_mask_round_trip (k : HciConsts) (hk : k.WF) (H : Handlers σ)
    (ev cmdbuf : Nat) (s : LLState σ) (hv : ValidEv s ev cmdbuf)
    (hogf : BLE_HCI_OGF (le16toh cmdbuf 0 s).1 = k.BLE_HCI_OGF_LE)
    (hocf : BLE_HCI_OCF (le16toh cmdbuf 0 s).1 = k.BLE_HCI_OCF_LE_SET_EVENT_MASK)
    (hlen : (s.cmdmem cmdbuf 2).val = BLE_HCI_SET_LE_EVENT_MASK_LEN) :
    (ll_hci_cmd_dispatch k H cmdbuf s).2.1 = BLE_ERR_SUCCESS ∧
    (ll_hci_cmd_dispatch k H cmdbuf s).2.2.1 = 0 ∧
    ∃ s', ll_hci_cmd_proc k H ev s = Except.ok s' ∧
      s'.g_ll_hci_le_event_mask = [s.cmdmem cmdbuf 3, s.cmdmem cmdbuf 4, s.cmdmem cmdbuf 5,
        s.cmdmem cmdbuf 6, s.cmdmem cmdbuf 7, s.cmdmem cmdbuf 8, s.cmdmem cmdbuf 9,
        s.cmdmem cmdbuf 10] ∧
      s'.g_ll_hci_le_event_mask.length = BLE_HCI_SET_LE_EVENT_MASK_LEN ∧
      (s'.cmdmem cmdbuf 5).val = 0 ∧
      (s'.cmdmem cmdbuf 1).val = 4 := by
  have hc : switch_ocf k (BLE_HCI_OCF (le16toh cmdbuf 0 s).1) = LeCase.LE_SET_EVENT_MASK := by
    rw [hocf]; exact (switch_ocf_label k hk).1
  obtain ⟨hd, s', hs, hmem, _, hmask, _⟩ := cmd_proc_le k H ev cmdbuf s hv hogf _ _ _
    (le_branch_set_event_mask k H cmdbuf _ 0 _ hc hlen) (le_refl _) (by decide)
  refine ⟨by rw [hd], by rw [hd], s', hs, hmask, by rw [hmask]; rfl, ?_, ?_⟩
  · rw [hmem, (cmd_complete_bytes k cmdbuf _ _ _ _).2.2.2.2.2.1]; rfl
  · rw [hmem, (cmd_complete_bytes k cmdbuf _ _ _ _).2.1]; rfl

/-- Witness of C4, the scenario of the specification: an all-ones mask yields
an all-ones mask state, status success and response length 0. -/
theorem C4_set_event_mask_round_trip_witness :
    btConsts.WF ∧
    ValidEv (demoState [0x01, 0x20, 8, 255, 255, 255, 255, 255, 255, 255, 255]) 20 10 ∧
    ∃ s', ll_hci_cmd_proc btConsts demoHandlers 20
        (demoState [0x01, 0x20, 8, 255, 255, 255, 255, 255, 255, 255, 255]) = Except.ok s' ∧
      s'.g_ll_hci_le_event_mask = [255, 255, 255, 255, 255, 255, 255, 255] ∧
      (s'.cmdmem 10 5).val = 0 ∧ (s'.cmdmem 10 1).val = 4 :=
  ⟨by decide, by decide,
    match (C4_set_event_mask_round_trip btConsts (by decide) demoHandlers 20 10
      (demoState [0x01, 0x20, 8, 255, 255, 255, 255, 255, 255, 255, 255])
      (by decide) (by decide) (by decide) (by decide)).2.2 with
    | ⟨s', hs, hm, _, h5, h1⟩ => ⟨s', hs, by rw [hm]; decide, h5, h1⟩⟩

/-- C5: for every prior state and every buffer with `param_len = 0`,
`ll_hci_le_cmd_proc` on OCF `BLE_HCI_OCF_LE_RD_BUF_SIZE` returns
`BLE_ERR_SUCCESS`, sets the response length to 3 and writes at the response
offset 6 exactly the three bytes ACL length mod 256, ACL length div 256, ACL
packet count: every other byte of memory, the LE event mask and the
collaborator state are unchanged. Repeating the command on the resulting
state gives the same status, length and memory again. -/
theorem C5_read_bufsize (k : HciConsts) (hk : k.WF) (H : Handlers σ) (cmdbuf : Nat)
    (rsplen : Byte) (s : LLState σ)
    (hlen : (s.cmdmem cmdbuf 2).val = 0) :
    ∃ t, ll_hci_le_cmd_proc k H cmdbuf k.BLE_HCI_OCF_LE_RD_BUF_SIZE rsplen s
        = (BLE_ERR_SUCCESS, 3, t) ∧
      (t.cmdmem cmdbuf 6).val = k.BLE_LL_CFG_ACL_DATA_PKT_LEN.val % 256 ∧
      (t.cmdmem cmdbuf 7).val = k.BLE_LL_CFG_ACL_DATA_PKT_LEN.val / 256 ∧
      t.cmdmem cmdbuf 8 = k.BLE_LL_CFG_NUM_ACL_DATA_PKTS ∧
      (∀ a i, a ≠ cmdbuf ∨ i < 6 ∨ 9 ≤ i → t.cmdmem a i = s.cmdmem a i) ∧
      t.g_ll_hci_le_event_mask = s.g_ll_hci_le_event_mask ∧
      t.collab = s.collab ∧
      ∀ rsplen2 : Byte, ∃ t2,
        ll_hci_le_cmd_proc k H cmdbuf k.BLE_HCI_OCF_LE_RD_BUF_SIZE rsplen2 t
          = (BLE_ERR_SUCCESS, 3, t2) ∧
        t2.cmdmem = t.cmdmem ∧
        t2.g_ll_hci_le_event_mask = s.g_ll_hci_le_event_mask ∧
        t2.collab = s.collab := by
  have hc := (switch_ocf_label k hk).2.1
  have hL := k.BLE_LL_CFG_ACL_DATA_PKT_LEN.isLt
  refine ⟨_, le_branch_rd_buf_size k H cmdbuf _ rsplen s hc hlen, ?_, ?_, ?_, ?_, rfl, rfl, ?_⟩
  all_goals dsimp only
  · rw [mem_store_other _ _ _ _ _ _ (by omega), mem_store_other _ _ _ _ _ _ (by omega),
      mem_store_same]
    rfl
  · rw [mem_store_other _ _ _ _ _ _ (by omega), mem_store_same]
    unfold u8
    simp only
    omega
  · rw [mem_store_same]
  · intro a i h
    rw [mem_store_other _ _ _ _ _ _ (by omega), mem_store_other _ _ _ _ _ _ (by omega),
      mem_store_other _ _ _ _ _ _ (by omega)]
  · intro rsplen2
    have hlen2 : ((mem_store (mem_store (mem_store s.cmdmem cmdbuf 6
        (u8 k.BLE_LL_CFG_ACL_DATA_PKT_LEN.val)) cmdbuf 7
        (u8 (k.BLE_LL_CFG_ACL_DATA_PKT_LEN.val / 256))) cmdbuf 8
        k.BLE_LL_CFG_NUM_ACL_DATA_PKTS) cmdbuf 2).val = BLE_HCI_RD_BUF_SIZE_LEN := by
      rw [mem_store_other _ _ _ _ _ _ (by omega), mem_store_other _ _ _ _ _ _ (by omega),
        mem_store_other _ _ _ _ _ _ (by omega)]
      exact hlen
    refine ⟨_, le_branch_rd_buf_size k H cmdbuf _ rsplen2 _ hc hlen2, ?_, rfl, rfl⟩
    funext a i
    dsimp only
    by_cases h8 : a = cmdbuf ∧ i = 8
    · obtain ⟨rfl, rfl⟩ := h8
      rw [mem_store_same, mem_store_same]
    rw [mem_store_other _ _ 8 _ _ _ (by omega), mem_store_other _ _ 8 _ _ _ (by omega)]
    by_cases h7 : a = cmdbuf ∧ i = 7
    · obtain ⟨rfl, rfl⟩ := h7
      rw [mem_store_same, mem_store_same]
    rw [mem_store_other _ _ 7 _ _ _ (by omega), mem_store_other _ _ 7 _ _ _ (by omega)]
    by_cases h6 : a = cmdbuf ∧ i = 6
    · obtain ⟨rfl, rfl⟩ := h6
      rw [mem_store_same, mem_store_same]
    rw [mem_store_other _ _ 6 _ _ _ (by omega), mem_store_other _ _ 6 _ _ _ (by omega)]
    rw [mem_store_other _ _ _ _ _ _ (by omega), mem_store_other _ _ _ _ _ _ (by omega),
      mem_store_other _ _ _ _ _ _ (by omega)]

/-- Witness of C5, the scenario of the specification: with an ACL length of
260 and a count of 4 the response bytes are 4, 1, 4. -/
theorem C5_read_bufsize_witness :
    btConsts.WF ∧ ((demoState [0x02, 0x20, 0]).cmdmem 10 2).val = 0 ∧
    ∃ t, ll_hci_le_cmd_proc btConsts demoHandlers 10 0x0002 0 (demoState [0x02, 0x20, 0])
        = (0, 3, t) ∧
      (t.cmdmem 10 6).val = 4 ∧ (t.cmdmem 10 7).val = 1 ∧ t.cmdmem 10 8 = 4 :=
  ⟨by decide, by decide,
    match C5_read_bufsize btConsts (by decide) demoHandlers 10 0
      (demoState [0x02, 0x20, 0]) (by decide) with
    | ⟨t, ht, h6, h7, h8, _⟩ => ⟨t, ht, h6, h7, h8⟩⟩

/-- C6: status pass-through. For a command of the LE group with one of the
ten supported OCFs and a valid `param_len`, if the handler the command is
delegated to returns `r` with `0 <= r <= BLE_ERR_MAX`, then
`ll_hci_le_cmd_proc` returns exactly `r`, and `ll_hci_cmd_proc` completes
with status byte (buffer byte 5) exactly `r`. For every opcode other than
read LE buffer size and read advertising channel TX power the response
length is left as it was, 0 in `ll_hci_cmd_proc` (length byte 4). -/
theorem C6_status_pass_through (k : HciConsts) (hk : k.WF) (H : Handlers σ)
    (ev cmdbuf ocf : Nat) (rsplen : Byte) (s : LLState σ) (hv : ValidEv s ev cmdbuf)
    (hogf : BLE_HCI_OGF (le16toh cmdbuf 0 s).1 = k.BLE_HCI_OGF_LE)
    (hocf : BLE_HCI_OCF (le16toh cmdbuf 0 s).1 = ocf)
    (r : Int) (h0 : 0 ≤ r) (h1 : r ≤ BLE_ERR_MAX)
    (hcase :
      (ocf = k.BLE_HCI_OCF_LE_SET_EVENT_MASK ∧
        (s.cmdmem cmdbuf 2).val = BLE_HCI_SET_LE_EVENT_MASK_LEN ∧
        r = (ll_hci_set_le_event_mask cmdbuf BLE_HCI_CMD_HDR_LEN s).1) ∨
      (ocf = k.BLE_HCI_OCF_LE_RD_BUF_SIZE ∧
        (s.cmdmem cmdbuf 2).val = BLE_HCI_RD_BUF_SIZE_LEN ∧
        r = (ll_hci_le_read_bufsize k cmdbuf BLE_HCI_EVENT_CMD_COMPLETE_HDR_LEN s).1) ∨
      (ocf = k.BLE_HCI_OCF_LE_SET_RAND_ADDR ∧
        (s.cmdmem cmdbuf 2).val = BLE_DEV_ADDR_LEN ∧
        r = (H.ll_adv_set_rand_addr ((s.cmdmem cmdbuf).shift BLE_HCI_CMD_HDR_LEN) s.collab).1) ∨
      (ocf = k.BLE_HCI_OCF_LE_SET_ADV_PARAMS ∧
        (s.cmdmem cmdbuf 2).val = k.BLE_HCI_SET_ADV_PARAM_LEN ∧
        r = (H.ll_adv_set_adv_params ((s.cmdmem cmdbuf).shift BLE_HCI_CMD_HDR_LEN) s.collab).1) ∨
      (ocf = k.BLE_HCI_OCF_LE_RD_ADV_CHAN_TXPWR ∧
        (s.cmdmem cmdbuf 2).val = 0 ∧
        r = (H.ll_adv_read_txpwr s.collab).1) ∨
      (ocf = k.BLE_HCI_OCF_LE_SET_ADV_DATA ∧
        (s.cmdmem cmdbuf 2).val > 0 ∧
        r = (H.ll_adv_set_adv_data ((s.cmdmem cmdbuf).shift BLE_HCI_CMD_HDR_LEN)
          ((s.cmdmem cmdbuf 2).val - 1) s.collab).1) ∨
      (ocf = k.BLE_HCI_OCF_LE_SET_SCAN_RSP_DATA ∧
        (s.cmdmem cmdbuf 2).val > 0 ∧
        r = (H.ll_adv_set_scan_rsp_data ((s.cmdmem cmdbuf).shift BLE_HCI_CMD_HDR_LEN)
          ((s.cmdmem cmdbuf 2).val - 1) s.collab).1) ∨
      (ocf = k.BLE_HCI_OCF_LE_SET_ADV_ENABLE ∧
        (s.cmdmem cmdbuf 2).val = BLE_HCI_SET_ADV_ENABLE_LEN ∧
        r = (H.ll_adv_set_enable ((s.cmdmem cmdbuf).shift BLE_HCI_CMD_HDR_LEN) s.collab).1) ∨
      (ocf = k.BLE_HCI_OCF_LE_SET_SCAN_ENABLE ∧
        (s.cmdmem cmdbuf 2).val = k.BLE_HCI_SET_SCAN_ENABLE_LEN ∧
        r = (H.ble_ll_scan_set_enable ((s.cmdmem cmdbuf).shift BLE_HCI_CMD_HDR_LEN) s.collab).1) ∨
      (ocf = k.BLE_HCI_OCF_LE_SET_SCAN_PARAMS ∧
        (s.cmdmem cmdbuf 2).val = k.BLE_HCI_SET_SCAN_PARAM_LEN ∧
        r = (H.ble_ll_scan_set_scan_params ((s.cmdmem cmdbuf).shift BLE_HCI_CMD_HDR_LEN) s.collab).1)) :
    (ll_hci_le_cmd_proc k H cmdbuf ocf rsplen s).1 = r ∧
    ∃ s', ll_hci_cmd_proc k H ev s = Except.ok s' ∧
      ((s'.cmdmem cmdbuf 5).val : Int) = r ∧
      (ocf ≠ k.BLE_HCI_OCF_LE_RD_BUF_SIZE → ocf ≠ k.BLE_HCI_OCF_LE_RD_ADV_CHAN_TXPWR →
        (ll_hci_le_cmd_proc k H cmdbuf ocf rsplen s).2.1 = rsplen ∧
        (ll_hci_cmd_dispatch k H cmdbuf s).2.2.1 = 0 ∧
        (s'.cmdmem cmdbuf 1).val = 4) := by
  rcases hcase with ⟨ho, hl, hr⟩ | ⟨ho, hl, hr⟩ | ⟨ho, hl, hr⟩ | ⟨ho, hl, hr⟩ |
    ⟨ho, hl, hr⟩ | ⟨ho, hl, hr⟩ | ⟨ho, hl, hr⟩ | ⟨ho, hl, hr⟩ | ⟨ho, hl, hr⟩ | ⟨ho, hl, hr⟩
  · have hc : switch_ocf k ocf = LeCase.LE_SET_EVENT_MASK := by rw [ho]; exact (switch_ocf_label k hk).1
    have e1 := le_branch_set_event_mask k H cmdbuf ocf rsplen s hc hl
    have e2 := le_branch_set_event_mask k H cmdbuf ocf 0 (s.note [Event.read 0, Event.read 1,
      Event.call Fn.ll_hci_le_cmd_proc 0 (some ocf)]) hc hl
    rw [← hocf] at e2
    rw [hr] at h0 h1
    obtain ⟨s', hs, h5, h1b, hd1, hd2⟩ := status_byte_le k H ev cmdbuf s hv hogf _ _ _ e2
      h0 h1 (by decide)
    exact ⟨by rw [e1]; exact hr.symm, s', hs, by rw [h5]; exact hr.symm,
      fun _ _ => ⟨by rw [e1], hd2, h1b⟩⟩
  · have hc : switch_ocf k ocf = LeCase.LE_RD_BUF_SIZE := by rw [ho]; exact (switch_ocf_label k hk).2.1
    have e1 := le_branch_rd_buf_size k H cmdbuf ocf rsplen s hc hl
    have e2 := le_branch_rd_buf_size k H cmdbuf ocf 0 (s.note [Event.read 0, Event.read 1,
      Event.call Fn.ll_hci_le_cmd_proc 0 (some ocf)]) hc hl
    rw [← hocf] at e2
    rw [hr] at h0 h1
    obtain ⟨s', hs, h5, h1b, hd1, hd2⟩ := status_byte_le k H ev cmdbuf s hv hogf _ _ _ e2
      h0 h1 (by decide)
    refine ⟨by rw [e1]; exact hr.symm, s', hs, by rw [h5]; exact hr.symm, fun n1 n2 => ?_⟩
    exact absurd ho n1
  · have hc : switch_ocf k ocf = LeCase.LE_SET_RAND_ADDR := by rw [ho]; exact (switch_ocf_label k hk).2.2.1
    have e1 := le_branch_set_rand_addr k H cmdbuf ocf rsplen s hc hl
    have e2 := le_branch_set_rand_addr k H cmdbuf ocf 0 (s.note [Event.read 0, Event.read 1,
      Event.call Fn.ll_hci_le_cmd_proc 0 (some ocf)]) hc hl
    rw [← hocf] at e2
    rw [hr] at h0 h1
    obtain ⟨s', hs, h5, h1b, hd1, hd2⟩ := status_byte_le k H ev cmdbuf s hv hogf _ _ _ e2
      h0 h1 (by decide)
    exact ⟨by rw [e1]; exact hr.symm, s', hs, by rw [h5]; exact hr.symm,
      fun _ _ => ⟨by rw [e1], hd2, h1b⟩⟩
  · have hc : switch_ocf k ocf = LeCase.LE_SET_ADV_PARAMS := by rw [ho]; exact (switch_ocf_label k hk).2.2.2.1
    have e1 := le_branch_set_adv_params k H cmdbuf ocf rsplen s hc hl
    have e2 := le_branch_set_adv_params k H cmdbuf ocf 0 (s.note [Event.read 0, Event.read 1,
      Event.call Fn.ll_hci_le_cmd_proc 0 (some ocf)]) hc hl
    rw [← hocf] at e2
    rw [hr] at h0 h1
    obtain ⟨s', hs, h5, h1b, hd1, hd2⟩ := status_byte_le k H ev cmdbuf s hv hogf _ _ _ e2
      h0 h1 (by decide)
    exact ⟨by rw [e1]; exact hr.symm, s', hs, by rw [h5]; exact hr.symm,
      fun _ _ => ⟨by rw [e1], hd2, h1b⟩⟩
  · have hc : switch_ocf k ocf = LeCase.LE_RD_ADV_CHAN_TXPWR := by rw [ho]; exact (switch_ocf_label k hk).2.2.2.2.1
    have e1 := le_branch_rd_adv_chan_txpwr k H cmdbuf ocf rsplen s hc hl
    have e2 := le_branch_rd_adv_chan_txpwr k H cmdbuf ocf 0 (s.note [Event.read 0, Event.read 1,
      Event.call Fn.ll_hci_le_cmd_proc 0 (some ocf)]) hc hl
    rw [← hocf] at e2
    rw [hr] at h0 h1
    obtain ⟨s', hs, h5, h1b, hd1, hd2⟩ := status_byte_le k H ev cmdbuf s hv hogf _ _ _ e2
      h0 h1 (by decide)
    refine ⟨by rw [e1]; exact hr.symm, s', hs, by rw [h5]; exact hr.symm, fun n1 n2 => ?_⟩
    exact absurd ho n2
  · have hc : switch_ocf k ocf = LeCase.LE_SET_ADV_DATA := by rw [ho]; exact (switch_ocf_label k hk).2.2.2.2.2.1
    have e1 := le_branch_set_adv_data k H cmdbuf ocf rsplen s hc hl
    have e2 := le_branch_set_adv_data k H cmdbuf ocf 0 (s.note [Event.read 0, Event.read 1,
      Event.call Fn.ll_hci_le_cmd_proc 0 (some ocf)]) hc hl
    rw [← hocf] at e2
    rw [hr] at h0 h1
    obtain ⟨s', hs, h5, h1b, hd1, hd2⟩ := status_byte_le k H ev cmdbuf s hv hogf _ _ _ e2
      h0 h1 (by decide)
    exact ⟨by rw [e1]; exact hr.symm, s', hs, by rw [h5]; exact hr.symm,
      fun _ _ => ⟨by rw [e1], hd2, h1b⟩⟩
  · have hc : switch_ocf k ocf = LeCase.LE_SET_SCAN_RSP_DATA := by rw [ho]; exact (switch_ocf_label k hk).2.2.2.2.2.2.1
    have e1 := le_branch_set_scan_rsp_data k H cmdbuf ocf rsplen s hc hl
    have e2 := le_branch_set_scan_rsp_data k H cmdbuf ocf 0 (s.note [Event.read 0, Event.read 1,
      Event.call Fn.ll_hci_le_cmd_proc 0 (some ocf)]) hc hl
    rw [← hocf] at e2
    rw [hr] at h0 h1
    obtain ⟨s', hs, h5, h1b, hd1, hd2⟩ := status_byte_le k H ev cmdbuf s hv hogf _ _ _ e2
      h0 h1 (by decide)
    exact ⟨by rw [e1]; exact hr.symm, s', hs, by rw [h5]; exact hr.symm,
      fun _ _ => ⟨by rw [e1], hd2, h1b⟩⟩
  · have hc : switch_ocf k ocf = LeCase.LE_SET_ADV_ENABLE := by rw [ho]; exact (switch_ocf_label k hk).2.2.2.2.2.2.2.1
    have e1 := le_branch_set_adv_enable k H cmdbuf ocf rsplen s hc hl
    have e2 := le_branch_set_adv_enable k H cmdbuf ocf 0 (s.note [Event.read 0, Event.read 1,
      Event.call Fn.ll_hci_le_cmd_proc 0 (some ocf)]) hc hl
    rw [← hocf] at e2
    rw [hr] at h0 h1
    obtain ⟨s', hs, h5, h1b, hd1, hd2⟩ := status_byte_le k H ev cmdbuf s hv hogf _ _ _ e2
      h0 h1 (by decide)
    exact ⟨by rw [e1]; exact hr.symm, s', hs, by rw [h5]; exact hr.symm,
      fun _ _ => ⟨by rw [e1], hd2, h1b⟩⟩
  · have hc : switch_ocf k ocf = LeCase.LE_SET_SCAN_ENABLE := by rw [ho]; exact (switch_ocf_label k hk).2.2.2.2.2.2.2.2.1
    have e1 := le_branch_set_scan_enable k H cmdbuf ocf rsplen s hc hl
    have e2 := le_branch_set_scan_enable k H cmdbuf ocf 0 (s.note [Event.read 0, Event.read 1,
      Event.call Fn.ll_hci_le_cmd_proc 0 (some ocf)]) hc hl
    rw [← hocf] at e2
    rw [hr] at h0 h1
    obtain ⟨s', hs, h5, h1b, hd1, hd2⟩ := status_byte_le k H ev cmdbuf s hv hogf _ _ _ e2
      h0 h1 (by decide)
    exact ⟨by rw [e1]; exact hr.symm, s', hs, by rw [h5]; exact hr.symm,
      fun _ _ => ⟨by rw [e1], hd2, h1b⟩⟩
  · have hc : switch_ocf k ocf = LeCase.LE_SET_SCAN_PARAMS := by rw [ho]; exact (switch_ocf_label k hk).2.2.2.2.2.2.2.2.2
    have e1 := le_branch_set_scan_params k H cmdbuf ocf rsplen s hc hl
    have e2 := le_branch_set_scan_params k H cmdbuf ocf 0 (s.note [Event.read 0, Event.read 1,
      Event.call Fn.ll_hci_le_cmd_proc 0 (some ocf)]) hc hl
    rw [← hocf] at e2
    rw [hr] at h0 h1
    obtain ⟨s', hs, h5, h1b, hd1, hd2⟩ := status_byte_le k H ev cmdbuf s hv hogf _ _ _ e2
      h0 h1 (by decide)
    exact ⟨by rw [e1]; exact hr.symm, s', hs, by rw [h5]; exact hr.symm,
      fun _ _ => ⟨by rw [e1], hd2, h1b⟩⟩

/-- Witness of C6: set advertising enable with `param_len = 1`, delegated to
a handler that returns 0x0C; the status byte of the event is 0x0C and the
length byte is 4. -/
theorem C6_status_pass_through_witness :
    btConsts.WF ∧ ValidEv (demoState [0x0A, 0x20, 1, 0x0C]) 20 10 ∧
    (demoHandlers.ll_adv_set_enable
      (((demoState [0x0A, 0x20, 1, 0x0C]).cmdmem 10).shift BLE_HCI_CMD_HDR_LEN)
      (demoState [0x0A, 0x20, 1, 0x0C]).collab).1 = 0x0C ∧
    (ll_hci_le_cmd_proc btConsts demoHandlers 10 0x0A 0
      (demoState [0x0A, 0x20, 1, 0x0C])).1 = 0x0C ∧
    ∃ s', ll_hci_cmd_proc btConsts demoHandlers 20 (demoState [0x0A, 0x20, 1, 0x0C])
        = Except.ok s' ∧
      ((s'.cmdmem 10 5).val : Int) = 0x0C ∧ (s'.cmdmem 10 1).val = 4 :=
  ⟨by decide, by decide, by decide,
    (C6_status_pass_through btConsts (by decide) demoHandlers 20 10 0x0A 0
      (demoState [0x0A, 0x20, 1, 0x0C]) (by decide) (by decide) (by decide) 0x0C
      (by decide) (by decide)
      (Or.inr (Or.inr (Or.inr (Or.inr (Or.inr (Or.inr (Or.inr
        (Or.inl ⟨rfl, by decide, by decide⟩))))))))).1,
    match (C6_status_pass_through btConsts (by decide) demoHandlers 20 10 0x0A 0
      (demoState [0x0A, 0x20, 1, 0x0C]) (by decide) (by decide) (by decide) 0x0C
      (by decide) (by decide)
      (Or.inr (Or.inr (Or.inr (Or.inr (Or.inr (Or.inr (Or.inr
        (Or.inl ⟨rfl, by decide, by decide⟩))))))))).2 with
    | ⟨s', hs, h5, hr⟩ => ⟨s', hs, h5, (hr (by decide) (by decide)).2.2⟩⟩

/-- C7: command-complete layout. For a command whose dispatch status lies in
`0..BLE_ERR_MAX` (and validly acquired blocks), after `ll_hci_cmd_proc` byte
0 is `BLE_HCI_EVCODE_COMMAND_COMPLETE`, byte 1 is 4 plus the response length
as an integer (no 8-bit wraparound) and byte 5 is the status. Byte 1 is 7 for
an LE read buffer size command with no parameter, 5 for an LE read
advertising channel TX power command with no parameter, and 4 for every
other command. -/
theorem C7_command_complete_layout (k : HciConsts) (hk : k.WF) (H : Handlers σ)
    (ev cmdbuf : Nat) (s : LLState σ) (hv : ValidEv s ev cmdbuf)
    (h0 : 0 ≤ (ll_hci_cmd_dispatch k H cmdbuf s).2.1)
    (h1 : (ll_hci_cmd_dispatch k H cmdbuf s).2.1 ≤ BLE_ERR_MAX) :
    ∃ s', ll_hci_cmd_proc k H ev s = Except.ok s' ∧
      s'.cmdmem cmdbuf 0 = k.BLE_HCI_EVCODE_COMMAND_COMPLETE ∧
      (s'.cmdmem cmdbuf 1).val = 4 + (ll_hci_cmd_dispatch k H cmdbuf s).2.2.1.val ∧
      ((s'.cmdmem cmdbuf 5).val : Int) = (ll_hci_cmd_dispatch k H cmdbuf s).2.1 ∧
      ((BLE_HCI_OGF (le16toh cmdbuf 0 s).1 = k.BLE_HCI_OGF_LE ∧
        BLE_HCI_OCF (le16toh cmdbuf 0 s).1 = k.BLE_HCI_OCF_LE_RD_BUF_SIZE ∧
        (s.cmdmem cmdbuf 2).val = 0) → (s'.cmdmem cmdbuf 1).val = 7) ∧
      ((BLE_HCI_OGF (le16toh cmdbuf 0 s).1 = k.BLE_HCI_OGF_LE ∧
        BLE_HCI_OCF (le16toh cmdbuf 0 s).1 = k.BLE_HCI_OCF_LE_RD_ADV_CHAN_TXPWR ∧
        (s.cmdmem cmdbuf 2).val = 0) → (s'.cmdmem cmdbuf 1).val = 5) ∧
      (¬ (BLE_HCI_OGF (le16toh cmdbuf 0 s).1 = k.BLE_HCI_OGF_LE ∧
          BLE_HCI_OCF (le16toh cmdbuf 0 s).1 = k.BLE_HCI_OCF_LE_RD_BUF_SIZE ∧
          (s.cmdmem cmdbuf 2).val = 0) →
        ¬ (BLE_HCI_OGF (le16toh cmdbuf 0 s).1 = k.BLE_HCI_OGF_LE ∧
          BLE_HCI_OCF (le16toh cmdbuf 0 s).1 = k.BLE_HCI_OCF_LE_RD_ADV_CHAN_TXPWR ∧
          (s.cmdmem cmdbuf 2).val = 0) →
        (s'.cmdmem cmdbuf 1).val = 4) ∧
      ((s'.cmdmem cmdbuf 1).val = 4 ∨ (s'.cmdmem cmdbuf 1).val = 5 ∨
        (s'.cmdmem cmdbuf 1).val = 7) := by
  obtain ⟨s', hs, hmem, _⟩ := cmd_proc_ok k H ev cmdbuf s hv h0 h1
  obtain ⟨b0, b1, _, _, _, b5, _⟩ := cmd_complete_bytes k cmdbuf
    (ll_hci_cmd_dispatch k H cmdbuf s).1 (ll_hci_cmd_dispatch k H cmdbuf s).2.1
    (ll_hci_cmd_dispatch k H cmdbuf s).2.2.1 (ll_hci_cmd_dispatch k H cmdbuf s).2.2.2
  have hrl : (ll_hci_cmd_dispatch k H cmdbuf s).2.2.1.val ≤ 3 := by
    rcases dispatch_rsplen k hk H cmdbuf s with ⟨h, _⟩ | ⟨h, _⟩ | ⟨h, _⟩ <;> rw [h] <;> decide
  have hb1 : (s'.cmdmem cmdbuf 1).val = 4 + (ll_hci_cmd_dispatch k H cmdbuf s).2.2.1.val := by
    rw [hmem, b1]; exact u8_val_of_lt (by omega)
  refine ⟨s', hs, by rw [hmem, b0], hb1, by rw [hmem, b5]; exact u8_of_int_val h0 h1, ?_⟩
  rw [hb1]
  rcases dispatch_rsplen k hk H cmdbuf s with ⟨h, a2⟩ | ⟨h, a5⟩ | ⟨h, n2, n5⟩
  · rw [h]
    exact ⟨fun _ => rfl, fun a => absurd a.2.1 (by
      intro e
      have l2 := (switch_ocf_label k hk).2.1
      have l5 := (switch_ocf_label k hk).2.2.2.2.1
      rw [← a2.2.1, e, l5] at l2
      cases l2), fun n _ => absurd a2 n, Or.inr (Or.inr rfl)⟩
  · rw [h]
    exact ⟨fun a => absurd a.2.1 (by
      intro e
      have l2 := (switch_ocf_label k hk).2.1
      have l5 := (switch_ocf_label k hk).2.2.2.2.1
      rw [← a5.2.1, e, l2] at l5
      cases l5), fun _ => rfl, fun _ n => absurd a5 n, Or.inr (Or.inl rfl)⟩
  · rw [h]
    exact ⟨fun a => absurd a n2, fun a => absurd a n5, fun _ _ => rfl, Or.inl rfl⟩

/-- Witness of C7: LE read advertising channel TX power with no parameter;
the event code is 0x0E, the length byte is 5 and the status byte is 0. -/
theorem C7_command_complete_layout_witness :
    btConsts.WF ∧ ValidEv (demoState [0x07, 0x20, 0]) 20 10 ∧
    (ll_hci_cmd_dispatch btConsts demoHandlers 10 (demoState [0x07, 0x20, 0])).2.1 = 0 ∧
    ∃ s', ll_hci_cmd_proc btConsts demoHandlers 20 (demoState [0x07, 0x20, 0]) = Except.ok s' ∧
      s'.cmdmem 10 0 = 0x0E ∧ (s'.cmdmem 10 1).val = 5 ∧ ((s'.cmdmem 10 5).val : Int) = 0 :=
  ⟨by decide, by decide, by decide,
    match C7_command_complete_layout btConsts (by decide) demoHandlers 20 10
      (demoState [0x07, 0x20, 0]) (by decide) (by decide) (by decide) with
    | ⟨s', hs, hb0, _, hb5, _, h5, _⟩ =>
      ⟨s', hs, hb0, h5 (by decide), by rw [hb5]; decide⟩⟩

/-- C8: opcode echo. Whenever `ll_hci_cmd_proc` emits a command-complete
event (it returns), bytes 3 and 4 of the event are bytes 0 and 1 of the
original command, whatever the opcode: `htole16` after `le16toh` gives back
the two bytes in the same order. The event is emitted whenever the blocks
were validly acquired and the dispatch status lies in `0..BLE_ERR_MAX`. -/
theorem C8_opcode_echo (k : HciConsts) (H : Handlers σ) (ev cmdbuf : Nat)
    (s : LLState σ) (harg : (s.evmem ev).ev_arg = some cmdbuf) :
    (∀ s', ll_hci_cmd_proc k H ev s = Except.ok s' →
      s'.cmdmem cmdbuf 3 = s.cmdmem cmdbuf 0 ∧ s'.cmdmem cmdbuf 4 = s.cmdmem cmdbuf 1) ∧
    (∀ (t : LLState σ) (off : Nat),
      (htole16 cmdbuf off (le16toh cmdbuf 0 s).1 t).cmdmem cmdbuf off = s.cmdmem cmdbuf 0 ∧
      (htole16 cmdbuf off (le16toh cmdbuf 0 s).1 t).cmdmem cmdbuf (off + 1)
        = s.cmdmem cmdbuf 1) ∧
    (ValidEv s ev cmdbuf → 0 ≤ (ll_hci_cmd_dispatch k H cmdbuf s).2.1 →
      (ll_hci_cmd_dispatch k H cmdbuf s).2.1 ≤ BLE_ERR_MAX →
      ∃ s', ll_hci_cmd_proc k H ev s = Except.ok s') := by
  have e0 : u8 ((s.cmdmem cmdbuf 0).val + 256 * (s.cmdmem cmdbuf 1).val)
      = s.cmdmem cmdbuf 0 := by
    apply Fin.ext
    have := (s.cmdmem cmdbuf 0).isLt
    unfold u8
    simp only
    omega
  have e1 : u8 (((s.cmdmem cmdbuf 0).val + 256 * (s.cmdmem cmdbuf 1).val) / 256)
      = s.cmdmem cmdbuf 1 := by
    apply Fin.ext
    have := (s.cmdmem cmdbuf 0).isLt
    have := (s.cmdmem cmdbuf 1).isLt
    unfold u8
    simp only
    omega
  refine ⟨?_, ?_, cmd_proc_emits k H ev cmdbuf s⟩
  · intro s' h
    obtain ⟨_, _, hmem, _⟩ := cmd_proc_inv k H ev cmdbuf s s' harg h
    obtain ⟨hop, _⟩ := dispatch_frame k H cmdbuf s
    obtain ⟨_, _, _, b3, b4, _, _⟩ := cmd_complete_bytes k cmdbuf
      (ll_hci_cmd_dispatch k H cmdbuf s).1 (ll_hci_cmd_dispatch k H cmdbuf s).2.1
      (ll_hci_cmd_dispatch k H cmdbuf s).2.2.1 (ll_hci_cmd_dispatch k H cmdbuf s).2.2.2
    exact ⟨by rw [hmem, b3, hop, e0], by rw [hmem, b4, hop, e1]⟩
  · intro t off
    rw [le16toh_eq]
    unfold htole16 wr
    dsimp only
    rw [mem_store_other _ _ _ _ _ _ (by omega), mem_store_same, mem_store_same]
    exact ⟨e0, e1⟩

/-- Witness of C8: the command with opcode bytes 0xFF, 0xFF (OGF 0x3F, an
unsupported group) is answered with bytes 3 and 4 equal to 0xFF, 0xFF. -/
theorem C8_opcode_echo_witness :
    ((demoState [0xFF, 0xFF, 0]).evmem 20).ev_arg = some 10 ∧
    ∃ s', ll_hci_cmd_proc btConsts demoHandlers 20 (demoState [0xFF, 0xFF, 0]) = Except.ok s' ∧
      s'.cmdmem 10 3 = 0xFF ∧ s'.cmdmem 10 4 = 0xFF :=
  ⟨by decide,
    match demo_unknown_group_completes with
    | ⟨s', hs⟩ =>
      ⟨s', hs,
        (C8_opcode_echo btConsts demoHandlers 20 10 (demoState [0xFF, 0xFF, 0])
          (by decide)).1 s' hs⟩⟩

/-- C9: credit invariant. Every command-complete event `ll_hci_cmd_proc`
emits, whatever the command, the prior state and the status, has
`num_cmd_packets` (buffer byte 2) equal to 1. The event is emitted whenever
the blocks were validly acquired and the dispatch status lies in
`0..BLE_ERR_MAX`. -/
theorem C9_credit_invariant (k : HciConsts) (H : Handlers σ) (ev cmdbuf : Nat)
    (s : LLState σ) (harg : (s.evmem ev).ev_arg = some cmdbuf) :
    (∀ s', ll_hci_cmd_proc k H ev s = Except.ok s' →
      s'.cmdmem cmdbuf 2 = 1 ∧ s'.cmdmem cmdbuf 2 = ll_hci_get_num_cmd_pkts) ∧
    (ValidEv s ev cmdbuf → 0 ≤ (ll_hci_cmd_dispatch k H cmdbuf s).2.1 →
      (ll_hci_cmd_dispatch k H cmdbuf s).2.1 ≤ BLE_ERR_MAX →
      ∃ s', ll_hci_cmd_proc k H ev s = Except.ok s') := by
  refine ⟨?_, cmd_proc_emits k H ev cmdbuf s⟩
  intro s' h
  obtain ⟨_, _, hmem, _⟩ := cmd_proc_inv k H ev cmdbuf s s' harg h
  obtain ⟨_, _, b2, _⟩ := cmd_complete_bytes k cmdbuf
    (ll_hci_cmd_dispatch k H cmdbuf s).1 (ll_hci_cmd_dispatch k H cmdbuf s).2.1
    (ll_hci_cmd_dispatch k H cmdbuf s).2.2.1 (ll_hci_cmd_dispatch k H cmdbuf s).2.2.2
  rw [hmem, b2]
  exact ⟨rfl, rfl⟩

/-- Witness of C9: the event that answers the command with opcode bytes 0xFF,
0xFF (an unsupported group, status unknown command) has byte 2 equal to 1. -/
theorem C9_credit_invariant_witness :
    ((demoState [0xFF, 0xFF, 0]).evmem 20).ev_arg = some 10 ∧
    ∃ s', ll_hci_cmd_proc btConsts demoHandlers 20 (demoState [0xFF, 0xFF, 0]) = Except.ok s' ∧
      s'.cmdmem 10 2 = 1 :=
  ⟨by decide,
    match demo_unknown_group_completes with
    | ⟨s', hs⟩ =>
      ⟨s', hs,
        ((C9_credit_invariant btConsts demoHandlers 20 10 (demoState [0xFF, 0xFF, 0])
          (by decide)).1 s' hs).1⟩⟩

/-- C10, as stated, fails for a command of another group than LE: on the
command with opcode bytes 0x01, 0xFC (OGF 0x3F) the run reads bytes 0 and 1
only; the length byte 2 is never read, and is overwritten with the credit. -/
theorem C10_param_len_unread_counterexample :
    ∃ s', ll_hci_cmd_proc btConsts demoHandlers 20 (demoState [0x01, 0xFC, 0]) = Except.ok s' ∧
      s'.log = [Event.read 0, Event.read 1, Event.write 0, Event.write 1, Event.write 2,
        Event.write 3, Event.write 4, Event.write 5] ∧
      Event.read 2 ∉ s'.log ∧ Event.write 2 ∈ s'.log :=
  match cmd_proc_not_le_log btConsts demoHandlers 20 10 (demoState [0x01, 0xFC, 0])
    (by decide) (by decide) with
  | ⟨s', hs, hl⟩ => ⟨s', hs, hl, by rw [hl]; decide, by rw [hl]; decide⟩

/-- C10 (as amended): over one completed run of `ll_hci_cmd_proc`, with `L`
the entries the run appends to the log:
the opcode bytes 0 and 1 are read first, and for a command of the LE group
the length byte 2 is read next, before any write, while for a command of
another group the run is these two reads and the six header writes, the
length byte being never read; no byte is read and no
handler is called after a write; a handler that writes response bytes
(read LE buffer size, read advertising channel TX power) is called only when
`param_len = 0`; when any other handler is called, the only writes are those
of the six header bytes; and the six header writes are the last entries of
`L`, after every call and return, every earlier write being at offset 6 or
above. The run completes whenever the blocks were validly acquired and the
dispatch status lies in `0..BLE_ERR_MAX`. -/
theorem C10_reads_precede_writes (k : HciConsts) (H : Handlers σ) (ev cmdbuf : Nat)
    (s : LLState σ) (harg : (s.evmem ev).ev_arg = some cmdbuf) :
    (∀ s', ll_hci_cmd_proc k H ev s = Except.ok s' →
      ∃ L, s'.log = s.log ++ L ∧
        (∃ L1, L = Event.read 0 :: Event.read 1 :: L1) ∧
        (BLE_HCI_OGF (le16toh cmdbuf 0 s).1 = k.BLE_HCI_OGF_LE →
          ∃ L1, L = Event.read 0 :: Event.read 1 ::
            Event.call Fn.ll_hci_le_cmd_proc 0 (some (BLE_HCI_OCF (le16toh cmdbuf 0 s).1)) ::
            Event.read 2 :: L1) ∧
        (BLE_HCI_OGF (le16toh cmdbuf 0 s).1 ≠ k.BLE_HCI_OGF_LE →
          L = [Event.read 0, Event.read 1, Event.write 0, Event.write 1, Event.write 2,
            Event.write 3, Event.write 4, Event.write 5]) ∧
        L.Pairwise
          (fun e1 e2 => e1.isWrite = true → e2.isRead = false ∧ e2.isCall = false) ∧
        (∀ p a, Event.call Fn.ll_hci_le_read_bufsize p a ∈ L ∨
            Event.call Fn.ll_adv_read_txpwr p a ∈ L → (s.cmdmem cmdbuf 2).val = 0) ∧
        (∀ f p a, Event.call f p a ∈ L → f ≠ Fn.ll_hci_le_cmd_proc →
          f ≠ Fn.ll_hci_le_read_bufsize → f ≠ Fn.ll_adv_read_txpwr →
          ∀ i, Event.write i ∈ L → i < 6) ∧
        (∃ L0, L = L0 ++ [Event.write 0, Event.write 1, Event.write 2, Event.write 3,
            Event.write 4, Event.write 5] ∧
          ∀ i, Event.write i ∈ L0 → 6 ≤ i)) ∧
    (ValidEv s ev cmdbuf → 0 ≤ (ll_hci_cmd_dispatch k H cmdbuf s).2.1 →
      (ll_hci_cmd_dispatch k H cmdbuf s).2.1 ≤ BLE_ERR_MAX →
      ∃ s', ll_hci_cmd_proc k H ev s = Except.ok s') := by
  refine ⟨?_, cmd_proc_emits k H ev cmdbuf s⟩
  intro s' h
  obtain ⟨_, _, _, hlog, _⟩ := cmd_proc_inv k H ev cmdbuf s s' harg h
  rcases dispatch_log k H cmdbuf s with ⟨hogf, hd⟩ | ⟨hogf, B, hd, hB⟩
  · rw [hd, List.append_assoc] at hlog
    refine ⟨_, hlog, ⟨_, rfl⟩, fun e => absurd e hogf, fun _ => rfl, ?_, ?_, ?_,
      ⟨[Event.read 0, Event.read 1], rfl, ?_⟩⟩
    · simp [Event.isWrite, Event.isRead, Event.isCall]
    · simp
    · simp
    · simp
  · rw [hd, List.append_assoc] at hlog
    refine ⟨_, hlog, ⟨_, rfl⟩, fun _ => ⟨_, rfl⟩, fun e => absurd hogf e, ?_⟩
    rcases hB with rfl | rfl | ⟨rfl, hl⟩ | ⟨rfl, hl⟩ | ⟨f, a, rfl, hf⟩
    · refine ⟨?_, ?_, ?_, ⟨[Event.read 0, Event.read 1, Event.call Fn.ll_hci_le_cmd_proc 0
        (some (BLE_HCI_OCF (le16toh cmdbuf 0 s).1)), Event.read 2,
        Event.ret Fn.ll_hci_le_cmd_proc], rfl, ?_⟩⟩
      · simp [Event.isWrite, Event.isRead, Event.isCall]
      · simp
      · simp
      · simp
    · refine ⟨?_, ?_, ?_, ⟨[Event.read 0, Event.read 1, Event.call Fn.ll_hci_le_cmd_proc 0
        (some (BLE_HCI_OCF (le16toh cmdbuf 0 s).1)), Event.read 2,
        Event.call Fn.ll_hci_set_le_event_mask 3 none, Event.read 3, Event.read 4,
        Event.read 5, Event.read 6, Event.read 7, Event.read 8, Event.read 9,
        Event.read 10, Event.ret Fn.ll_hci_set_le_event_mask,
        Event.ret Fn.ll_hci_le_cmd_proc], rfl, ?_⟩⟩
      · simp [Event.isWrite, Event.isRead, Event.isCall]
      · simp
      · simp
      · simp
    · refine ⟨?_, ?_, ?_, ⟨[Event.read 0, Event.read 1, Event.call Fn.ll_hci_le_cmd_proc 0
        (some (BLE_HCI_OCF (le16toh cmdbuf 0 s).1)), Event.read 2,
        Event.call Fn.ll_hci_le_read_bufsize 6 none, Event.write 6, Event.write 7,
        Event.write 8, Event.ret Fn.ll_hci_le_read_bufsize,
        Event.ret Fn.ll_hci_le_cmd_proc], rfl, ?_⟩⟩
      · simp [Event.isWrite, Event.isRead, Event.isCall]
      · simp [hl]
      · intro f p a hm n1 n2 _
        simp only [List.cons_append, List.nil_append, List.mem_cons, Event.call.injEq,
          List.mem_singleton, List.not_mem_nil, or_false, reduceCtorEq, false_or] at hm
        rcases hm with ⟨rfl, _⟩ | ⟨rfl, _⟩
        · exact absurd rfl n1
        · exact absurd rfl n2
      · simp
    · refine ⟨?_, ?_, ?_, ⟨[Event.read 0, Event.read 1, Event.call Fn.ll_hci_le_cmd_proc 0
        (some (BLE_HCI_OCF (le16toh cmdbuf 0 s).1)), Event.read 2,
        Event.call Fn.ll_adv_read_txpwr 6 none, Event.write 6,
        Event.ret Fn.ll_adv_read_txpwr,
        Event.ret Fn.ll_hci_le_cmd_proc], rfl, ?_⟩⟩
      · simp [Event.isWrite, Event.isRead, Event.isCall]
      · simp [hl]
      · intro f p a hm n1 _ n3
        simp only [List.cons_append, List.nil_append, List.mem_cons, Event.call.injEq,
          List.mem_singleton, List.not_mem_nil, or_false, reduceCtorEq, false_or] at hm
        rcases hm with ⟨rfl, _⟩ | ⟨rfl, _⟩
        · exact absurd rfl n1
        · exact absurd rfl n3
      · simp
    · simp only [List.mem_cons, List.mem_singleton, List.not_mem_nil, or_false] at hf
      refine ⟨?_, ?_, ?_, ⟨[Event.read 0, Event.read 1, Event.call Fn.ll_hci_le_cmd_proc 0
        (some (BLE_HCI_OCF (le16toh cmdbuf 0 s).1)), Event.read 2,
        Event.call f 3 a, Event.ret f,
        Event.ret Fn.ll_hci_le_cmd_proc], rfl, ?_⟩⟩
      · simp [Event.isWrite, Event.isRead, Event.isCall]
      · rcases hf with rfl | rfl | rfl | rfl | rfl | rfl | rfl <;> simp
      · simp
      · simp

/-- Witness of C10: LE read buffer size with no parameter. The run starts
with the reads of bytes 0 and 1 and ends with the six header writes, every
earlier write being at offset 6 or above. -/
theorem C10_reads_precede_writes_witness :
    ((demoState [0x02, 0x20, 0]).evmem 20).ev_arg = some 10 ∧
    ∃ s', ll_hci_cmd_proc btConsts demoHandlers 20 (demoState [0x02, 0x20, 0]) = Except.ok s' ∧
      ∃ L, s'.log = (demoState [0x02, 0x20, 0]).log ++ L ∧
        (∃ L1, L = Event.read 0 :: Event.read 1 :: L1) ∧
        (∃ L0, L = L0 ++ [Event.write 0, Event.write 1, Event.write 2, Event.write 3,
            Event.write 4, Event.write 5] ∧
          ∀ i, Event.write i ∈ L0 → 6 ≤ i) :=
  ⟨by decide,
    match demo_rd_buf_size_completes with
    | ⟨s', hs⟩ =>
      match (C10_reads_precede_writes btConsts demoHandlers 20 10
        (demoState [0x02, 0x20, 0]) (by decide)).1 s' hs with
      | ⟨L, hL, h1, _, _, _, _, _, h6⟩ => ⟨s', hs, L, hL, h1, h6⟩⟩

/-! ## Completion and abort of `ll_hci_cmd_proc` -/

/-- Whenever the send path returns, both blocks were validly acquired. -/
theorem event_send_valid (ev : Nat) (t : LLState σ) (r : Int × LLState σ)
    (h : ll_hci_event_send ev t = Except.ok r) :
    ∃ c, ValidEv t ev c := by
  unfold ll_hci_event_send at h
  cases harg : (t.evmem ev).ev_arg with
  | none =>
    rw [harg] at h
    simp only [os_memblock_put, ne_eq, reduceCtorEq, not_false_eq_true, if_true] at h
  | some c =>
    rw [harg] at h
    refine ⟨c, harg, ?_⟩
    simp only [os_memblock_put] at h
    by_cases hc : c ∈ t.g_hci_cmd_pool.mp_blocks ∧ c ∉ t.g_hci_cmd_pool.mp_free
    · refine ⟨hc, ?_⟩
      by_cases he : ev ∈ t.g_hci_os_event_pool.mp_blocks ∧ ev ∉ t.g_hci_os_event_pool.mp_free
      · exact he
      · simp only [if_pos hc, if_neg he, ne_eq, not_true_eq_false, if_false, reduceCtorEq,
          not_false_eq_true, if_true] at h
    · simp only [if_neg hc, ne_eq, reduceCtorEq, not_false_eq_true, if_true] at h

/-- Whenever `ll_hci_cmd_proc` returns, the blocks were validly acquired and
the dispatch status was a status byte. -/
theorem cmd_proc_done (k : HciConsts) (H : Handlers σ) (ev cmdbuf : Nat) (s s' : LLState σ)
    (harg : (s.evmem ev).ev_arg = some cmdbuf)
    (h : ll_hci_cmd_proc k H ev s = Except.ok s') :
    ValidEv s ev cmdbuf ∧ 0 ≤ (ll_hci_cmd_dispatch k H cmdbuf s).2.1 ∧
    (ll_hci_cmd_dispatch k H cmdbuf s).2.1 ≤ BLE_ERR_MAX := by
  obtain ⟨h0, h1, _⟩ := cmd_proc_inv k H ev cmdbuf s s' harg h
  refine ⟨?_, h0, h1⟩
  obtain ⟨_, f1, f2, f3, _⟩ := dispatch_frame k H cmdbuf s
  rw [cmd_proc_unfold k H ev cmdbuf s harg, if_neg (not_lt.mpr h0), if_pos h1] at h
  obtain ⟨r, hr, _⟩ := except_map_ok h
  obtain ⟨c, hc⟩ := event_send_valid ev _ r hr
  rw [cmd_complete_eq] at hc
  unfold ValidEv at hc ⊢
  dsimp only at hc
  by_cases hz : (ll_hci_cmd_dispatch k H cmdbuf s).2.1 ≠ 0
  · rw [if_pos hz] at hc
    dsimp only at hc
    rw [f1, f2, f3] at hc
    rw [harg] at hc ⊢
    obtain ⟨e, hc2, he2⟩ := hc
    cases e
    exact ⟨rfl, hc2, he2⟩
  · rw [if_neg hz] at hc
    dsimp only at hc
    rw [f1, f2, f3] at hc
    rw [harg] at hc ⊢
    obtain ⟨e, hc2, he2⟩ := hc
    cases e
    exact ⟨rfl, hc2, he2⟩

/-- What `ll_hci_le_cmd_proc` changes: the event mask only in the branch of a
set LE event mask command of length 8, and of the memory only the response
bytes, the `*rsplen` bytes from offset 6 of the command block. -/
theorem le_cmd_proc_effect (k : HciConsts) (H : Handlers σ) (cmdbuf ocf : Nat)
    (rsplen : Byte) (t : LLState σ) :
    (¬ (ocf = k.BLE_HCI_OCF_LE_SET_EVENT_MASK ∧
        (t.cmdmem cmdbuf 2).val = BLE_HCI_SET_LE_EVENT_MASK_LEN) →
      (ll_hci_le_cmd_proc k H cmdbuf ocf rsplen t).2.2.g_ll_hci_le_event_mask
        = t.g_ll_hci_le_event_mask) ∧
    (∀ a i, a ≠ cmdbuf ∨ i < 6 ∨ 6 + (ll_hci_le_cmd_proc k H cmdbuf ocf rsplen t).2.1.val ≤ i →
      (ll_hci_le_cmd_proc k H cmdbuf ocf rsplen t).2.2.cmdmem a i = t.cmdmem a i) := by
  rcases switch_ocf_cases k ocf with ⟨ho, hc⟩ | ⟨ho, hc⟩ | ⟨ho, hc⟩ | ⟨ho, hc⟩ | ⟨ho, hc⟩ |
    ⟨ho, hc⟩ | ⟨ho, hc⟩ | ⟨ho, hc⟩ | ⟨ho, hc⟩ | ⟨ho, hc⟩ | ⟨ho, hc⟩
  · by_cases hl : (t.cmdmem cmdbuf 2).val = BLE_HCI_SET_LE_EVENT_MASK_LEN
    · rw [le_branch_set_event_mask k H cmdbuf ocf rsplen t hc hl]
      exact ⟨fun hn => absurd ⟨ho, hl⟩ hn, fun _ _ _ => rfl⟩
    · rw [le_branch_reject k H cmdbuf ocf rsplen t (Or.inl ⟨hc, hl⟩)]
      exact ⟨fun _ => rfl, fun _ _ _ => rfl⟩
  · by_cases hl : (t.cmdmem cmdbuf 2).val = BLE_HCI_RD_BUF_SIZE_LEN
    · rw [le_branch_rd_buf_size k H cmdbuf ocf rsplen t hc hl]
      refine ⟨fun _ => rfl, fun a i hai => ?_⟩
      have h3 : ((3 : Byte).val = 3) := rfl
      dsimp only at hai ⊢
      rw [h3] at hai
      rw [mem_store_other _ _ _ _ _ _ (by omega), mem_store_other _ _ _ _ _ _ (by omega),
        mem_store_other _ _ _ _ _ _ (by omega)]
    · rw [le_branch_reject k H cmdbuf ocf rsplen t (Or.inr (Or.inl ⟨hc, hl⟩))]
      exact ⟨fun _ => rfl, fun _ _ _ => rfl⟩
  · by_cases hl : (t.cmdmem cmdbuf 2).val = BLE_DEV_ADDR_LEN
    · rw [le_branch_set_rand_addr k H cmdbuf ocf rsplen t hc hl]
      exact ⟨fun _ => rfl, fun _ _ _ => rfl⟩
    · rw [le_branch_reject k H cmdbuf ocf rsplen t (Or.inr (Or.inr (Or.inl ⟨hc, hl⟩)))]
      exact ⟨fun _ => rfl, fun _ _ _ => rfl⟩
  · by_cases hl : (t.cmdmem cmdbuf 2).val = k.BLE_HCI_SET_ADV_PARAM_LEN
    · rw [le_branch_set_adv_params k H cmdbuf ocf rsplen t hc hl]
      exact ⟨fun _ => rfl, fun _ _ _ => rfl⟩
    · rw [le_branch_reject k H cmdbuf ocf rsplen t (Or.inr (Or.inr (Or.inr (Or.inl ⟨hc, hl⟩))))]
      exact ⟨fun _ => rfl, fun _ _ _ => rfl⟩
  · by_cases hl : (t.cmdmem cmdbuf 2).val = BLE_HCI_RD_BUF_SIZE_LEN
    · rw [le_branch_rd_adv_chan_txpwr k H cmdbuf ocf rsplen t hc hl]
      refine ⟨fun _ => rfl, fun a i hai => ?_⟩
      have h1 : ((1 : Byte).val = 1) := rfl
      dsimp only at hai ⊢
      rw [h1] at hai
      rw [mem_store_other _ _ _ _ _ _ (by omega)]
    · rw [le_branch_reject k H cmdbuf ocf rsplen t (Or.inr (Or.inr (Or.inr (Or.inr (Or.inl ⟨hc, hl⟩)))))]
      exact ⟨fun _ => rfl, fun _ _ _ => rfl⟩
  · by_cases hl : (t.cmdmem cmdbuf 2).val > 0
    · rw [le_branch_set_adv_data k H cmdbuf ocf rsplen t hc hl]
      exact ⟨fun _ => rfl, fun _ _ _ => rfl⟩
    · rw [le_branch_reject k H cmdbuf ocf rsplen t (Or.inr (Or.inr (Or.inr (Or.inr (Or.inr (Or.inl ⟨hc, hl⟩))))))]
      exact ⟨fun _ => rfl, fun _ _ _ => rfl⟩
  · by_cases hl : (t.cmdmem cmdbuf 2).val > 0
    · rw [le_branch_set_scan_rsp_data k H cmdbuf ocf rsplen t hc hl]
      exact ⟨fun _ => rfl, fun _ _ _ => rfl⟩
    · rw [le_branch_reject k H cmdbuf ocf rsplen t (Or.inr (Or.inr (Or.inr (Or.inr (Or.inr (Or.inr (Or.inl ⟨hc, hl⟩)))))))]
      exact ⟨fun _ => rfl, fun _ _ _ => rfl⟩
  · by_cases hl : (t.cmdmem cmdbuf 2).val = BLE_HCI_SET_ADV_ENABLE_LEN
    · rw [le_branch_set_adv_enable k H cmdbuf ocf rsplen t hc hl]
      exact ⟨fun _ => rfl, fun _ _ _ => rfl⟩
    · rw [le_branch_reject k H cmdbuf ocf rsplen t (Or.inr (Or.inr (Or.inr (Or.inr (Or.inr (Or.inr (Or.inr (Or.inl ⟨hc, hl⟩))))))))]
      exact ⟨fun _ => rfl, fun _ _ _ => rfl⟩
  · by_cases hl : (t.cmdmem cmdbuf 2).val = k.BLE_HCI_SET_SCAN_ENABLE_LEN
    · rw [le_branch_set_scan_enable k H cmdbuf ocf rsplen t hc hl]
      exact ⟨fun _ => rfl, fun _ _ _ => rfl⟩
    · rw [le_branch_reject k H cmdbuf ocf rsplen t (Or.inr (Or.inr (Or.inr (Or.inr (Or.inr (Or.inr (Or.inr (Or.inr (Or.inl ⟨hc, hl⟩)))))))))]
      exact ⟨fun _ => rfl, fun _ _ _ => rfl⟩
  · by_cases hl : (t.cmdmem cmdbuf 2).val = k.BLE_HCI_SET_SCAN_PARAM_LEN
    · rw [le_branch_set_scan_params k H cmdbuf ocf rsplen t hc hl]
      exact ⟨fun _ => rfl, fun _ _ _ => rfl⟩
    · rw [le_branch_reject k H cmdbuf ocf rsplen t (Or.inr (Or.inr (Or.inr (Or.inr (Or.inr (Or.inr (Or.inr (Or.inr (Or.inr (Or.inl ⟨hc, hl⟩))))))))))]
      exact ⟨fun _ => rfl, fun _ _ _ => rfl⟩
  · rw [le_branch_reject k H cmdbuf ocf rsplen t (Or.inr (Or.inr (Or.inr (Or.inr (Or.inr (Or.inr (Or.inr (Or.inr (Or.inr (Or.inr (hc)))))))))))]
    exact ⟨fun _ => rfl, fun _ _ _ => rfl⟩

/-- What the dispatch changes: the event mask only for a set LE event mask
command of the LE group with length 8, and of the memory only the response
bytes, the `rsplen` bytes from offset 6 of the command block. -/
theorem dispatch_effect (k : HciConsts) (H : Handlers σ) (cmdbuf : Nat) (s : LLState σ) :
    (¬ (BLE_HCI_OGF (le16toh cmdbuf 0 s).1 = k.BLE_HCI_OGF_LE ∧
        BLE_HCI_OCF (le16toh cmdbuf 0 s).1 = k.BLE_HCI_OCF_LE_SET_EVENT_MASK ∧
        (s.cmdmem cmdbuf 2).val = BLE_HCI_SET_LE_EVENT_MASK_LEN) →
      (ll_hci_cmd_dispatch k H cmdbuf s).2.2.2.g_ll_hci_le_event_mask
        = s.g_ll_hci_le_event_mask) ∧
    (∀ a i, a ≠ cmdbuf ∨ i < 6 ∨ 6 + (ll_hci_cmd_dispatch k H cmdbuf s).2.2.1.val ≤ i →
      (ll_hci_cmd_dispatch k H cmdbuf s).2.2.2.cmdmem a i = s.cmdmem a i) := by
  by_cases hogf : BLE_HCI_OGF (le16toh cmdbuf 0 s).1 = k.BLE_HCI_OGF_LE
  · rw [dispatch_le k H cmdbuf s hogf]
    obtain ⟨e1, e2⟩ := le_cmd_proc_effect k H cmdbuf (BLE_HCI_OCF (le16toh cmdbuf 0 s).1) 0
      (s.note [Event.read 0, Event.read 1,
        Event.call Fn.ll_hci_le_cmd_proc 0 (some (BLE_HCI_OCF (le16toh cmdbuf 0 s).1))])
    refine ⟨fun hn => ?_, fun a i hai => ?_⟩
    · exact e1 (fun h => hn ⟨hogf, h.1, h.2⟩)
    · exact e2 a i hai
  · rw [dispatch_not_le k H cmdbuf s hogf]
    exact ⟨fun _ => rfl, fun _ _ _ => rfl⟩

/-- Whenever the send path aborts, a block was not validly acquired, and the
state reached differs from the one it was called in at most in the command
pool. -/
theorem event_send_error (ev : Nat) (t r : LLState σ)
    (h : ll_hci_event_send ev t = Except.error r) :
    (¬ ∃ c, ValidEv t ev c) ∧
    r.cmdmem = t.cmdmem ∧ r.log = t.log ∧
    r.g_ll_hci_le_event_mask = t.g_ll_hci_le_event_mask ∧ r.collab = t.collab ∧
    r.evmem = t.evmem ∧ r.ll_evq = t.ll_evq ∧ r.g_ll_stats = t.g_ll_stats ∧
    r.g_hci_os_event_pool = t.g_hci_os_event_pool := by
  refine ⟨fun ⟨c, hv⟩ => ?_, ?_⟩
  · rw [event_send_ok ev c t hv] at h
    cases h
  · unfold ll_hci_event_send at h
    by_cases he : ev ∈ t.g_hci_os_event_pool.mp_blocks ∧ ev ∉ t.g_hci_os_event_pool.mp_free
    · cases harg : (t.evmem ev).ev_arg with
      | none =>
        rw [harg] at h
        simp only [os_memblock_put, ne_eq, reduceCtorEq, not_false_eq_true, if_true,
          Except.error.injEq] at h
        subst h
        exact ⟨rfl, rfl, rfl, rfl, rfl, rfl, rfl, rfl⟩
      | some c =>
        rw [harg] at h
        by_cases hc : c ∈ t.g_hci_cmd_pool.mp_blocks ∧ c ∉ t.g_hci_cmd_pool.mp_free
        · simp only [os_memblock_put, if_pos hc, if_pos he, ne_eq, not_true_eq_false,
            if_false, reduceCtorEq] at h
        · simp only [os_memblock_put, if_neg hc, ne_eq, reduceCtorEq, not_false_eq_true,
            if_true, Except.error.injEq] at h
          subst h
          exact ⟨rfl, rfl, rfl, rfl, rfl, rfl, rfl, rfl⟩
    · cases harg : (t.evmem ev).ev_arg with
      | none =>
        rw [harg] at h
        simp only [os_memblock_put, ne_eq, reduceCtorEq, not_false_eq_true, if_true,
          Except.error.injEq] at h
        subst h
        exact ⟨rfl, rfl, rfl, rfl, rfl, rfl, rfl, rfl⟩
      | some c =>
        rw [harg] at h
        by_cases hc : c ∈ t.g_hci_cmd_pool.mp_blocks ∧ c ∉ t.g_hci_cmd_pool.mp_free
        · simp only [os_memblock_put, if_pos hc, if_neg he, ne_eq, not_true_eq_false,
            if_false, reduceCtorEq, not_false_eq_true, if_true, Except.error.injEq] at h
          subst h
          exact ⟨rfl, rfl, rfl, rfl, rfl, rfl, rfl, rfl⟩
        · simp only [os_memblock_put, if_neg hc, ne_eq, reduceCtorEq, not_false_eq_true,
            if_true, Except.error.injEq] at h
          subst h
          exact ⟨rfl, rfl, rfl, rfl, rfl, rfl, rfl, rfl⟩

/-- A mapped outcome that is an abort comes from an abort. -/
theorem except_map_error {ε α β : Type} {f : α → β} {x : Except ε α} {e : ε}
    (h : x.map f = Except.error e) : x = Except.error e := by
  cases x with
  | error e2 =>
    simp only [Except.map, Except.error.injEq] at h
    rw [h]
  | ok a => cases h

/-- However `ll_hci_cmd_proc` ends, by a return or by a failed assertion, the
state it ends in has the event mask and the subsystem state of the state
after the dispatch, and the memory of that state but for the six header
bytes of the command block. -/
theorem cmd_proc_outcome (k : HciConsts) (H : Handlers σ) (ev cmdbuf : Nat)
    (s r : LLState σ) (harg : (s.evmem ev).ev_arg = some cmdbuf)
    (h : ll_hci_cmd_proc k H ev s = Except.ok r ∨ ll_hci_cmd_proc k H ev s = Except.error r) :
    r.g_ll_hci_le_event_mask = (ll_hci_cmd_dispatch k H cmdbuf s).2.2.2.g_ll_hci_le_event_mask ∧
    r.collab = (ll_hci_cmd_dispatch k H cmdbuf s).2.2.2.collab ∧
    (∀ a i, a ≠ cmdbuf ∨ 6 ≤ i →
      r.cmdmem a i = (ll_hci_cmd_dispatch k H cmdbuf s).2.2.2.cmdmem a i) := by
  rcases h with h | h
  · obtain ⟨_, _, hmem, _, hmask, hcol⟩ := cmd_proc_inv k H ev cmdbuf s r harg h
    refine ⟨hmask, hcol, fun a i hai => ?_⟩
    rw [hmem]
    exact (cmd_complete_bytes k cmdbuf _ _ _ _).2.2.2.2.2.2 a i hai
  · rw [cmd_proc_unfold k H ev cmdbuf s harg] at h
    generalize ll_hci_cmd_dispatch k H cmdbuf s = d at *
    obtain ⟨op, rc, rl, t⟩ := d
    simp only at h ⊢
    by_cases h0 : rc < 0
    · rw [if_pos h0] at h
      cases h
      exact ⟨rfl, rfl, fun _ _ _ => rfl⟩
    · rw [if_neg h0] at h
      by_cases h1 : rc ≤ BLE_ERR_MAX
      · rw [if_pos h1] at h
        obtain ⟨_, e1, _, e3, e4, _⟩ := event_send_error ev _ r (except_map_error h)
        rw [e1, e3, e4]
        by_cases hz : rc ≠ 0
        · rw [if_pos hz]
          refine ⟨by rw [cmd_complete_eq], by rw [cmd_complete_eq], fun a i hai => ?_⟩
          rw [(cmd_complete_bytes k cmdbuf _ _ _ _).2.2.2.2.2.2 a i hai]
        · rw [if_neg hz]
          refine ⟨by rw [cmd_complete_eq], by rw [cmd_complete_eq], fun a i hai => ?_⟩
          rw [(cmd_complete_bytes k cmdbuf _ _ _ _).2.2.2.2.2.2 a i hai]
      · rw [if_neg h1] at h
        cases h
        exact ⟨rfl, rfl, fun _ _ _ => rfl⟩

/-- A command whose dispatch status is a status byte ends in the call of the
send path, on the state after the dispatch with a command counter
incremented and the command-complete header written. -/
theorem cmd_proc_sends (k : HciConsts) (H : Handlers σ) (ev cmdbuf : Nat) (s : LLState σ)
    (harg : (s.evmem ev).ev_arg = some cmdbuf)
    (h0 : 0 ≤ (ll_hci_cmd_dispatch k H cmdbuf s).2.1)
    (h1 : (ll_hci_cmd_dispatch k H cmdbuf s).2.1 ≤ BLE_ERR_MAX) :
    ∃ t, ll_hci_cmd_proc k H ev s = (ll_hci_event_send ev t).map Prod.snd ∧
      t.cmdmem = (ll_hci_cmd_complete k cmdbuf (ll_hci_cmd_dispatch k H cmdbuf s).1
        (ll_hci_cmd_dispatch k H cmdbuf s).2.1 (ll_hci_cmd_dispatch k H cmdbuf s).2.2.1
        (ll_hci_cmd_dispatch k H cmdbuf s).2.2.2).cmdmem ∧
      t.log = (ll_hci_cmd_dispatch k H cmdbuf s).2.2.2.log ++
        [Event.write 0, Event.write 1, Event.write 2, Event.write 3, Event.write 4,
          Event.write 5] := by
  rw [cmd_proc_unfold k H ev cmdbuf s harg, if_neg (not_lt.mpr h0), if_pos h1]
  refine ⟨_, rfl, ?_, ?_⟩
  · by_cases hz : (ll_hci_cmd_dispatch k H cmdbuf s).2.1 ≠ 0
    · rw [if_pos hz, cmd_complete_eq, cmd_complete_eq]
    · rw [if_neg hz, cmd_complete_eq, cmd_complete_eq]
  · by_cases hz : (ll_hci_cmd_dispatch k H cmdbuf s).2.1 ≠ 0
    · rw [if_pos hz, cmd_complete_eq]
    · rw [if_neg hz, cmd_complete_eq]

/-! ## C11: response bytes and header -/

/-- C11: the response bytes directly follow the status byte and survive the
assembly of the header. The response offset
`BLE_HCI_EVENT_CMD_COMPLETE_HDR_LEN` is 6. For an LE read buffer size command
with parameter length 0, `ll_hci_cmd_proc` ends in the call of
`ll_hci_event_send` on a state `t` in which the command block begins with the
nine bytes event code, 7, 1, opcode low byte, opcode high byte, 0, ACL length
low byte, ACL length high byte, ACL packet count; the log of `t` shows the
three response bytes written at offsets 6, 7, 8 before the six header bytes;
with validly acquired blocks the call returns and the memory is that of `t`.
For every command, however `ll_hci_cmd_proc` ends, every byte of another
block and every byte of the command block from offset `6 + rsplen` on is
unchanged. -/
theorem C11_response_follows_header (k : HciConsts) (hk : k.WF) (H : Handlers σ)
    (ev cmdbuf : Nat) (s : LLState σ) (harg : (s.evmem ev).ev_arg = some cmdbuf) :
    BLE_HCI_EVENT_CMD_COMPLETE_HDR_LEN = 6 ∧
    ((BLE_HCI_OGF (le16toh cmdbuf 0 s).1 = k.BLE_HCI_OGF_LE ∧
      BLE_HCI_OCF (le16toh cmdbuf 0 s).1 = k.BLE_HCI_OCF_LE_RD_BUF_SIZE ∧
      (s.cmdmem cmdbuf 2).val = 0) →
      ∃ t, ll_hci_cmd_proc k H ev s = (ll_hci_event_send ev t).map Prod.snd ∧
        (List.range 9).map (fun i => (t.cmdmem cmdbuf i).val) =
          [k.BLE_HCI_EVCODE_COMMAND_COMPLETE.val, 7, 1,
           (s.cmdmem cmdbuf 0).val, (s.cmdmem cmdbuf 1).val, 0,
           k.BLE_LL_CFG_ACL_DATA_PKT_LEN.val % 256, k.BLE_LL_CFG_ACL_DATA_PKT_LEN.val / 256,
           k.BLE_LL_CFG_NUM_ACL_DATA_PKTS.val] ∧
        t.log = s.log ++ [Event.read 0, Event.read 1,
          Event.call Fn.ll_hci_le_cmd_proc 0 (some k.BLE_HCI_OCF_LE_RD_BUF_SIZE),
          Event.read 2, Event.call Fn.ll_hci_le_read_bufsize 6 none,
          Event.write 6, Event.write 7, Event.write 8,
          Event.ret Fn.ll_hci_le_read_bufsize, Event.ret Fn.ll_hci_le_cmd_proc,
          Event.write 0, Event.write 1, Event.write 2, Event.write 3, Event.write 4,
          Event.write 5] ∧
        (ValidEv s ev cmdbuf →
          ∃ s', ll_hci_cmd_proc k H ev s = Except.ok s' ∧ s'.cmdmem = t.cmdmem)) ∧
    (∀ r, ll_hci_cmd_proc k H ev s = Except.ok r ∨ ll_hci_cmd_proc k H ev s = Except.error r →
      ∀ a i, a ≠ cmdbuf ∨ 6 + (ll_hci_cmd_dispatch k H cmdbuf s).2.2.1.val ≤ i →
        r.cmdmem a i = s.cmdmem a i) := by
  refine ⟨rfl, fun ⟨hogf, hocf, hlen⟩ => ?_, fun r hr a i hai => ?_⟩
  · have hsw : switch_ocf k (BLE_HCI_OCF (le16toh cmdbuf 0 s).1) = LeCase.LE_RD_BUF_SIZE := by
      rw [hocf]; exact (switch_ocf_label k hk).2.1
    have hd := dispatch_le k H cmdbuf s hogf
    rw [le_branch_rd_buf_size k H cmdbuf _ 0 (s.note [Event.read 0, Event.read 1,
      Event.call Fn.ll_hci_le_cmd_proc 0 (some (BLE_HCI_OCF (le16toh cmdbuf 0 s).1))])
      hsw hlen] at hd
    dsimp only at hd
    have hrc : (ll_hci_cmd_dispatch k H cmdbuf s).2.1 = 0 := by rw [hd]; rfl
    have h0 : 0 ≤ (ll_hci_cmd_dispatch k H cmdbuf s).2.1 := by rw [hrc]
    have h1 : (ll_hci_cmd_dispatch k H cmdbuf s).2.1 ≤ BLE_ERR_MAX := by rw [hrc]; decide
    obtain ⟨t, ht, hmem, hlog⟩ := cmd_proc_sends k H ev cmdbuf s harg h0 h1
    obtain ⟨c0, c1, c2, c3, c4, c5, c6⟩ := cmd_complete_bytes k cmdbuf
      (ll_hci_cmd_dispatch k H cmdbuf s).1 (ll_hci_cmd_dispatch k H cmdbuf s).2.1
      (ll_hci_cmd_dispatch k H cmdbuf s).2.2.1 (ll_hci_cmd_dispatch k H cmdbuf s).2.2.2
    have c6a := c6 cmdbuf 6 (Or.inr (by omega))
    have c7 := c6 cmdbuf 7 (Or.inr (by omega))
    have c8 := c6 cmdbuf 8 (Or.inr (by omega))
    rw [← hmem] at c0 c1 c2 c3 c4 c5 c6a c7 c8
    rw [hd] at c1 c3 c4 c5 c6a c7 c8 hlog
    dsimp only [LLState.note] at c1 c3 c4 c5 c6a c7 c8 hlog
    rw [le16toh_eq] at c3 c4
    dsimp only at c3 c4
    rw [mem_store_other _ _ _ _ _ _ (by omega), mem_store_other _ _ _ _ _ _ (by omega),
      mem_store_same] at c6a
    rw [mem_store_other _ _ _ _ _ _ (by omega), mem_store_same] at c7
    rw [mem_store_same] at c8
    have hb0 := (s.cmdmem cmdbuf 0).isLt
    have hb1 := (s.cmdmem cmdbuf 1).isLt
    have hacl := k.BLE_LL_CFG_ACL_DATA_PKT_LEN.isLt
    refine ⟨t, ht, ?_, ?_, fun hv => ?_⟩
    · show [(t.cmdmem cmdbuf 0).val, (t.cmdmem cmdbuf 1).val, (t.cmdmem cmdbuf 2).val,
        (t.cmdmem cmdbuf 3).val, (t.cmdmem cmdbuf 4).val, (t.cmdmem cmdbuf 5).val,
        (t.cmdmem cmdbuf 6).val, (t.cmdmem cmdbuf 7).val, (t.cmdmem cmdbuf 8).val] = _
      rw [c0, c1, c2, c3, c4, c5, c6a, c7, c8]
      have e3 : (u8 ((s.cmdmem cmdbuf 0).val + 256 * (s.cmdmem cmdbuf 1).val)).val
          = (s.cmdmem cmdbuf 0).val := by
        unfold u8; simp only; omega
      have e4 : (u8 (((s.cmdmem cmdbuf 0).val + 256 * (s.cmdmem cmdbuf 1).val) / 256)).val
          = (s.cmdmem cmdbuf 1).val := by
        unfold u8; simp only; omega
      have e6 : (u8 k.BLE_LL_CFG_ACL_DATA_PKT_LEN.val).val
          = k.BLE_LL_CFG_ACL_DATA_PKT_LEN.val % 256 := rfl
      have e7 : (u8 (k.BLE_LL_CFG_ACL_DATA_PKT_LEN.val / 256)).val
          = k.BLE_LL_CFG_ACL_DATA_PKT_LEN.val / 256 := by
        unfold u8; simp only; omega
      rw [e3, e4, e6, e7]
      rfl
    · rw [hlog, hocf]
      simp only [List.append_assoc, List.cons_append, List.nil_append]
    · obtain ⟨s', hs, hm, _⟩ := cmd_proc_ok k H ev cmdbuf s hv h0 h1
      exact ⟨s', hs, by rw [hm, hmem]⟩
  · obtain ⟨_, _, e1⟩ := cmd_proc_outcome k H ev cmdbuf s r harg hr
    rw [e1 a i (by omega)]
    exact (dispatch_effect k H cmdbuf s).2 a i (by omega)

/-- Witness of C11: LE read buffer size with no parameter, opcode bytes 0x02,
0x20; the buffer handed to the send path begins with 0x0E, 7, 1, 0x02, 0x20,
0, 4, 1, 4 (ACL data-packet length 260, count 4). -/
theorem C11_response_follows_header_witness :
    btConsts.WF ∧ ((demoState [0x02, 0x20, 0]).evmem 20).ev_arg = some 10 ∧
    ∃ t, ll_hci_cmd_proc btConsts demoHandlers 20 (demoState [0x02, 0x20, 0])
        = (ll_hci_event_send 20 t).map Prod.snd ∧
      (List.range 9).map (fun i => (t.cmdmem 10 i).val) = [0x0E, 7, 1, 0x02, 0x20, 0, 4, 1, 4] :=
  ⟨by decide, by decide,
    match (C11_response_follows_header btConsts (by decide) demoHandlers 20 10
      (demoState [0x02, 0x20, 0]) (by decide)).2.1 ⟨by decide, by decide, by decide⟩ with
    | ⟨t, ht, hb, _⟩ => ⟨t, ht, hb⟩⟩

/-! ## C12: the two variable-length opcodes -/

/-- C12: length-prefix unwrap. For a set advertising data and for a set scan
response data command with parameter length `n ≥ 1`, `ll_hci_le_cmd_proc`
calls the handler of the opcode once (the log gains the read of the length
byte, one call and its return, and the subsystem state is the one the handler
gives), on the pointer `cmdbuf + BLE_HCI_CMD_HDR_LEN` (3 bytes in) and with
the length `n - 1`, which does not underflow, and returns the status of the
handler with `*rsplen` as passed. For `n = 0` the status is
`BLE_ERR_INV_HCI_CMD_PARMS` and the state gains only the read of the length
byte: no handler is called. -/
theorem C12_length_prefix_unwrap (k : HciConsts) (hk : k.WF) (H : Handlers σ)
    (cmdbuf n : Nat) (rsplen : Byte) (s : LLState σ) (hn : (s.cmdmem cmdbuf 2).val = n) :
    BLE_HCI_CMD_HDR_LEN = 3 ∧
    (1 ≤ n →
      (n - 1) + 1 = n ∧
      ll_hci_le_cmd_proc k H cmdbuf k.BLE_HCI_OCF_LE_SET_ADV_DATA rsplen s =
        ((H.ll_adv_set_adv_data ((s.cmdmem cmdbuf).shift BLE_HCI_CMD_HDR_LEN) (n - 1)
            s.collab).1, rsplen,
         { s with
           collab := (H.ll_adv_set_adv_data ((s.cmdmem cmdbuf).shift BLE_HCI_CMD_HDR_LEN)
             (n - 1) s.collab).2
           log := s.log ++ [Event.read 2,
             Event.call Fn.ll_adv_set_adv_data BLE_HCI_CMD_HDR_LEN (some (n - 1)),
             Event.ret Fn.ll_adv_set_adv_data] }) ∧
      ll_hci_le_cmd_proc k H cmdbuf k.BLE_HCI_OCF_LE_SET_SCAN_RSP_DATA rsplen s =
        ((H.ll_adv_set_scan_rsp_data ((s.cmdmem cmdbuf).shift BLE_HCI_CMD_HDR_LEN) (n - 1)
            s.collab).1, rsplen,
         { s with
           collab := (H.ll_adv_set_scan_rsp_data ((s.cmdmem cmdbuf).shift BLE_HCI_CMD_HDR_LEN)
             (n - 1) s.collab).2
           log := s.log ++ [Event.read 2,
             Event.call Fn.ll_adv_set_scan_rsp_data BLE_HCI_CMD_HDR_LEN (some (n - 1)),
             Event.ret Fn.ll_adv_set_scan_rsp_data] })) ∧
    (n = 0 →
      ll_hci_le_cmd_proc k H cmdbuf k.BLE_HCI_OCF_LE_SET_ADV_DATA rsplen s =
        ((k.BLE_ERR_INV_HCI_CMD_PARMS.val : Int), rsplen, s.note [Event.read 2]) ∧
      ll_hci_le_cmd_proc k H cmdbuf k.BLE_HCI_OCF_LE_SET_SCAN_RSP_DATA rsplen s =
        ((k.BLE_ERR_INV_HCI_CMD_PARMS.val : Int), rsplen, s.note [Event.read 2]) ∧
      ∀ e ∈ (s.note [Event.read 2]).log, e ∉ s.log → e.isCall = false) := by
  have l6 := (switch_ocf_label k hk).2.2.2.2.2.1
  have l7 := (switch_ocf_label k hk).2.2.2.2.2.2.1
  refine ⟨rfl, fun h1 => ⟨by omega, ?_, ?_⟩, fun h0 => ⟨?_, ?_, ?_⟩⟩
  · rw [le_branch_set_adv_data k H cmdbuf _ rsplen s l6 (by omega), hn]
    rfl
  · rw [le_branch_set_scan_rsp_data k H cmdbuf _ rsplen s l7 (by omega), hn]
    rfl
  · exact le_branch_reject k H cmdbuf _ rsplen s
      (Or.inr (Or.inr (Or.inr (Or.inr (Or.inr (Or.inl ⟨l6, by omega⟩))))))
  · exact le_branch_reject k H cmdbuf _ rsplen s
      (Or.inr (Or.inr (Or.inr (Or.inr (Or.inr (Or.inr (Or.inl ⟨l7, by omega⟩)))))))
  · intro e he hne
    simp only [LLState.note, List.mem_append, List.mem_singleton] at he
    rcases he with he | he
    · exact absurd he hne
    · rw [he]; rfl

/-- Witness of C12: set advertising data with parameter length 3; the handler
is called once, with the length 2, and its status (the first parameter byte,
5) is returned. -/
theorem C12_length_prefix_unwrap_witness :
    btConsts.WF ∧ ((demoState [0x08, 0x20, 3, 5, 1, 2]).cmdmem 10 2).val = 3 ∧
    ll_hci_le_cmd_proc btConsts demoHandlers 10 0x08 0 (demoState [0x08, 0x20, 3, 5, 1, 2]) =
      (5, 0, { demoState [0x08, 0x20, 3, 5, 1, 2] with
        collab := [(Fn.ll_adv_set_adv_data, 2)]
        log := [Event.read 2, Event.call Fn.ll_adv_set_adv_data 3 (some 2),
          Event.ret Fn.ll_adv_set_adv_data] }) :=
  ⟨by decide, by decide,
    ((C12_length_prefix_unwrap btConsts (by decide) demoHandlers 10 3 0
      (demoState [0x08, 0x20, 3, 5, 1, 2]) (by decide)).2.1 (by decide)).2.1⟩

/-! ## C13: read advertising channel TX power -/

/-- C13: for a read advertising channel TX power command with parameter
length 0, `ll_hci_le_cmd_proc` calls `ll_adv_read_txpwr` once, on the response
pointer `cmdbuf + BLE_HCI_EVENT_CMD_COMPLETE_HDR_LEN`, returns the status of
the handler and sets `*rsplen` to 1, whatever that status is; the byte the
handler gives is stored at offset 6. For any other parameter length the
status is `BLE_ERR_INV_HCI_CMD_PARMS`, `*rsplen` is as passed and no handler
is called. In `ll_hci_cmd_proc`, where `rsplen` starts at 0: with length 0
the response length is 1 and, for a handler status in `0..BLE_ERR_MAX` and
validly acquired blocks, the command-complete event has length byte 5, the
status of the handler as status byte and the power level as byte 6; with any
other length the response length stays 0 and the status is
`BLE_ERR_INV_HCI_CMD_PARMS`. -/
theorem C13_read_adv_chan_txpwr (k : HciConsts) (hk : k.WF) (H : Handlers σ)
    (ev cmdbuf : Nat) (rsplen : Byte) (s : LLState σ) :
    ((s.cmdmem cmdbuf 2).val = 0 →
      ll_hci_le_cmd_proc k H cmdbuf k.BLE_HCI_OCF_LE_RD_ADV_CHAN_TXPWR rsplen s =
        ((H.ll_adv_read_txpwr s.collab).1, 1,
         { s with
           collab := (H.ll_adv_read_txpwr s.collab).2.2
           cmdmem := mem_store s.cmdmem cmdbuf BLE_HCI_EVENT_CMD_COMPLETE_HDR_LEN
             (H.ll_adv_read_txpwr s.collab).2.1
           log := s.log ++ [Event.read 2,
             Event.call Fn.ll_adv_read_txpwr BLE_HCI_EVENT_CMD_COMPLETE_HDR_LEN none,
             Event.write BLE_HCI_EVENT_CMD_COMPLETE_HDR_LEN,
             Event.ret Fn.ll_adv_read_txpwr] })) ∧
    ((s.cmdmem cmdbuf 2).val ≠ 0 →
      ll_hci_le_cmd_proc k H cmdbuf k.BLE_HCI_OCF_LE_RD_ADV_CHAN_TXPWR rsplen s =
        ((k.BLE_ERR_INV_HCI_CMD_PARMS.val : Int), rsplen, s.note [Event.read 2])) ∧
    (BLE_HCI_OGF (le16toh cmdbuf 0 s).1 = k.BLE_HCI_OGF_LE →
      BLE_HCI_OCF (le16toh cmdbuf 0 s).1 = k.BLE_HCI_OCF_LE_RD_ADV_CHAN_TXPWR →
      ((s.cmdmem cmdbuf 2).val = 0 →
        (ll_hci_cmd_dispatch k H cmdbuf s).2.1 = (H.ll_adv_read_txpwr s.collab).1 ∧
        (ll_hci_cmd_dispatch k H cmdbuf s).2.2.1 = 1 ∧
        (ValidEv s ev cmdbuf → 0 ≤ (H.ll_adv_read_txpwr s.collab).1 →
          (H.ll_adv_read_txpwr s.collab).1 ≤ BLE_ERR_MAX →
          ∃ s', ll_hci_cmd_proc k H ev s = Except.ok s' ∧
            (s'.cmdmem cmdbuf 1).val = 5 ∧
            ((s'.cmdmem cmdbuf 5).val : Int) = (H.ll_adv_read_txpwr s.collab).1 ∧
            s'.cmdmem cmdbuf 6 = (H.ll_adv_read_txpwr s.collab).2.1)) ∧
      ((s.cmdmem cmdbuf 2).val ≠ 0 →
        (ll_hci_cmd_dispatch k H cmdbuf s).2.1 = (k.BLE_ERR_INV_HCI_CMD_PARMS.val : Int) ∧
        (ll_hci_cmd_dispatch k H cmdbuf s).2.2.1 = 0 ∧
        (ll_hci_cmd_dispatch k H cmdbuf s).2.2.2.collab = s.collab)) := by
  have l5 := (switch_ocf_label k hk).2.2.2.2.1
  refine ⟨fun h0 => ?_, fun hne => ?_, fun hogf hocf => ⟨fun h0 => ?_, fun hne => ?_⟩⟩
  · exact le_branch_rd_adv_chan_txpwr k H cmdbuf _ rsplen s l5 h0
  · exact le_branch_reject k H cmdbuf _ rsplen s
      (Or.inr (Or.inr (Or.inr (Or.inr (Or.inl ⟨l5, hne⟩)))))
  · have hsw : switch_ocf k (BLE_HCI_OCF (le16toh cmdbuf 0 s).1)
        = LeCase.LE_RD_ADV_CHAN_TXPWR := by rw [hocf]; exact l5
    have hle := le_branch_rd_adv_chan_txpwr k H cmdbuf (BLE_HCI_OCF (le16toh cmdbuf 0 s).1) 0
      (s.note [Event.read 0, Event.read 1,
        Event.call Fn.ll_hci_le_cmd_proc 0 (some (BLE_HCI_OCF (le16toh cmdbuf 0 s).1))])
      hsw h0
    have hd := dispatch_le k H cmdbuf s hogf
    rw [hle] at hd
    dsimp only at hd
    refine ⟨by rw [hd]; rfl, by rw [hd], fun hv c0 c1 => ?_⟩
    obtain ⟨_, s', hs, hmem, _⟩ := cmd_proc_le k H ev cmdbuf s hv hogf _ _ _ hle c0 c1
    obtain ⟨_, b1, _, _, _, b5, b6⟩ := cmd_complete_bytes k cmdbuf (le16toh cmdbuf 0 s).1
      (H.ll_adv_read_txpwr s.collab).1 1
      { (s.note [Event.read 0, Event.read 1,
          Event.call Fn.ll_hci_le_cmd_proc 0 (some (BLE_HCI_OCF (le16toh cmdbuf 0 s).1))]) with
        collab := (H.ll_adv_read_txpwr s.collab).2.2
        cmdmem := mem_store s.cmdmem cmdbuf 6 (H.ll_adv_read_txpwr s.collab).2.1
        log := (s.note [Event.read 0, Event.read 1,
          Event.call Fn.ll_hci_le_cmd_proc 0 (some (BLE_HCI_OCF (le16toh cmdbuf 0 s).1))]).log ++
          [Event.read 2, Event.call Fn.ll_adv_read_txpwr 6 none,
           Event.write 6, Event.ret Fn.ll_adv_read_txpwr] }
    refine ⟨s', hs, ?_, ?_, ?_⟩
    · rw [hmem]
      exact (congrArg Fin.val b1).trans rfl
    · rw [hmem]
      exact (congrArg (fun x : Byte => (x.val : Int)) b5).trans (u8_of_int_val c0 c1)
    · rw [hmem]
      exact (b6 cmdbuf 6 (Or.inr (by omega))).trans (mem_store_same _ _ _ _)
  · have hsw : switch_ocf k (BLE_HCI_OCF (le16toh cmdbuf 0 s).1)
        = LeCase.LE_RD_ADV_CHAN_TXPWR := by rw [hocf]; exact l5
    have hd := dispatch_le k H cmdbuf s hogf
    rw [le_branch_reject k H cmdbuf (BLE_HCI_OCF (le16toh cmdbuf 0 s).1) 0
      (s.note [Event.read 0, Event.read 1,
        Event.call Fn.ll_hci_le_cmd_proc 0 (some (BLE_HCI_OCF (le16toh cmdbuf 0 s).1))])
      (Or.inr (Or.inr (Or.inr (Or.inr (Or.inl ⟨hsw, hne⟩)))))] at hd
    dsimp only at hd
    refine ⟨by rw [hd], by rw [hd], by rw [hd]; rfl⟩

/-- Witness of C13: read advertising channel TX power with no parameter; the
handler gives status 0 and the level 0xF6, the event has length byte 5,
status byte 0 and the level as byte 6; with parameter length 1 the handler is
not called and the status is 0x12. -/
theorem C13_read_adv_chan_txpwr_witness :
    btConsts.WF ∧ ValidEv (demoState [0x07, 0x20, 0]) 20 10 ∧
    (∃ s', ll_hci_cmd_proc btConsts demoHandlers 20 (demoState [0x07, 0x20, 0]) = Except.ok s' ∧
      (s'.cmdmem 10 1).val = 5 ∧ ((s'.cmdmem 10 5).val : Int) = 0 ∧ s'.cmdmem 10 6 = 0xF6) ∧
    ll_hci_le_cmd_proc btConsts demoHandlers 10 0x07 0 (demoState [0x07, 0x20, 1, 9]) =
      (0x12, 0, (demoState [0x07, 0x20, 1, 9]).note [Event.read 2]) :=
  ⟨by decide, by decide,
    (((C13_read_adv_chan_txpwr btConsts (by decide) demoHandlers 20 10 0
      (demoState [0x07, 0x20, 0])).2.2 (by decide) (by decide)).1 (by decide)).2.2
      (by decide) (by decide) (by decide),
    (C13_read_adv_chan_txpwr btConsts (by decide) demoHandlers 20 10 0
      (demoState [0x07, 0x20, 1, 9])).2.1 (by decide)⟩

/-! ## C14: the LE event mask -/

/-- C14: the LE event mask is written only by a well-formed set LE event mask
command. When the command buffer is not one with OGF = LE,
OCF = `BLE_HCI_OCF_LE_SET_EVENT_MASK` and parameter length 8, then however
`ll_hci_cmd_proc` ends (it returns, or an assertion fails), the value of
`g_ll_hci_le_event_mask` in the state it ends in is its value before the
call, whatever the status of the command; with a null payload the call ends
at once, in the state it began in. With validly acquired blocks and a
dispatch status in `0..BLE_ERR_MAX` the call returns. -/
theorem C14_event_mask_frame (k : HciConsts) (H : Handlers σ) (ev : Nat) (s : LLState σ) :
    ((s.evmem ev).ev_arg = none → ll_hci_cmd_proc k H ev s = Except.error s) ∧
    (∀ cmdbuf, (s.evmem ev).ev_arg = some cmdbuf →
      ¬ (BLE_HCI_OGF (le16toh cmdbuf 0 s).1 = k.BLE_HCI_OGF_LE ∧
         BLE_HCI_OCF (le16toh cmdbuf 0 s).1 = k.BLE_HCI_OCF_LE_SET_EVENT_MASK ∧
         (s.cmdmem cmdbuf 2).val = BLE_HCI_SET_LE_EVENT_MASK_LEN) →
      (∀ r, ll_hci_cmd_proc k H ev s = Except.ok r ∨ ll_hci_cmd_proc k H ev s = Except.error r →
        r.g_ll_hci_le_event_mask = s.g_ll_hci_le_event_mask) ∧
      (ValidEv s ev cmdbuf → 0 ≤ (ll_hci_cmd_dispatch k H cmdbuf s).2.1 →
        (ll_hci_cmd_dispatch k H cmdbuf s).2.1 ≤ BLE_ERR_MAX →
        ∃ s', ll_hci_cmd_proc k H ev s = Except.ok s' ∧
          s'.g_ll_hci_le_event_mask = s.g_ll_hci_le_event_mask)) := by
  refine ⟨fun hnone => ?_, fun cmdbuf harg hnot => ?_⟩
  · unfold ll_hci_cmd_proc
    rw [hnone]
  · have key : ∀ r, ll_hci_cmd_proc k H ev s = Except.ok r ∨
        ll_hci_cmd_proc k H ev s = Except.error r →
        r.g_ll_hci_le_event_mask = s.g_ll_hci_le_event_mask := by
      intro r hr
      rw [(cmd_proc_outcome k H ev cmdbuf s r harg hr).1]
      exact (dispatch_effect k H cmdbuf s).1 hnot
    refine ⟨key, fun hv h0 h1 => ?_⟩
    obtain ⟨s', hs⟩ := cmd_proc_emits k H ev cmdbuf s hv h0 h1
    exact ⟨s', hs, key s' (Or.inl hs)⟩

/-- Witness of C14: a set LE event mask command with parameter length 7 and
seven bytes 0xFF; the command completes and the mask is still all zero. -/
theorem C14_event_mask_frame_witness :
    ((demoState [0x01, 0x20, 7, 255, 255, 255, 255, 255, 255, 255]).evmem 20).ev_arg = some 10 ∧
    ¬ (BLE_HCI_OGF (le16toh 10 0
          (demoState [0x01, 0x20, 7, 255, 255, 255, 255, 255, 255, 255])).1
        = btConsts.BLE_HCI_OGF_LE ∧
       BLE_HCI_OCF (le16toh 10 0
          (demoState [0x01, 0x20, 7, 255, 255, 255, 255, 255, 255, 255])).1
        = btConsts.BLE_HCI_OCF_LE_SET_EVENT_MASK ∧
       ((demoState [0x01, 0x20, 7, 255, 255, 255, 255, 255, 255, 255]).cmdmem 10 2).val
        = BLE_HCI_SET_LE_EVENT_MASK_LEN) ∧
    ∃ s', ll_hci_cmd_proc btConsts demoHandlers 20
        (demoState [0x01, 0x20, 7, 255, 255, 255, 255, 255, 255, 255]) = Except.ok s' ∧
      s'.g_ll_hci_le_event_mask = [0, 0, 0, 0, 0, 0, 0, 0] :=
  ⟨by decide, by decide,
    ((C14_event_mask_frame btConsts demoHandlers 20
      (demoState [0x01, 0x20, 7, 255, 255, 255, 255, 255, 255, 255])).2 10 (by decide)
      (by decide)).2 (by decide) (by decide) (by decide)⟩

/-! ## C15: status outside the representable range -/

/-- The log of the dispatch holds no write of a header byte: every write is
at offset 6 or above. -/
theorem dispatch_writes (k : HciConsts) (H : Handlers σ) (cmdbuf : Nat) (s : LLState σ) :
    ∃ L, (ll_hci_cmd_dispatch k H cmdbuf s).2.2.2.log = s.log ++ L ∧
      ∀ i, Event.write i ∈ L → 6 ≤ i := by
  rcases dispatch_log k H cmdbuf s with ⟨_, hd⟩ | ⟨_, B, hd, hB⟩
  · exact ⟨_, hd, by simp⟩
  · refine ⟨_, hd, ?_⟩
    rcases hB with rfl | rfl | ⟨rfl, _⟩ | ⟨rfl, _⟩ | ⟨f, a, rfl, _⟩ <;> simp

/-- C15: a status outside the representable range is fatal, and only then.
With a non-null payload and validly acquired blocks, `ll_hci_cmd_proc` ends
in a failed assertion if and only if the dispatch status is negative or
greater than `BLE_ERR_MAX`. In the state reached at the failed assertion the
memory and the log are those after the dispatch: the six header bytes of the
command block are as before the call and no header byte was written; both
pools, the event queue, the envelopes and the counter of events sent are as
before the call, so no event was sent and neither block was released. For
every status in `0..BLE_ERR_MAX` the call returns. -/
theorem C15_abort_iff_out_of_range (k : HciConsts) (H : Handlers σ) (ev cmdbuf : Nat)
    (s : LLState σ) (hv : ValidEv s ev cmdbuf) :
    ((∃ t, ll_hci_cmd_proc k H ev s = Except.error t) ↔
      ((ll_hci_cmd_dispatch k H cmdbuf s).2.1 < 0 ∨
        BLE_ERR_MAX < (ll_hci_cmd_dispatch k H cmdbuf s).2.1)) ∧
    (∀ t, ll_hci_cmd_proc k H ev s = Except.error t →
      t.cmdmem = (ll_hci_cmd_dispatch k H cmdbuf s).2.2.2.cmdmem ∧
      (∀ i, i < 6 → t.cmdmem cmdbuf i = s.cmdmem cmdbuf i) ∧
      t.log = (ll_hci_cmd_dispatch k H cmdbuf s).2.2.2.log ∧
      (∃ L, t.log = s.log ++ L ∧ ∀ i, Event.write i ∈ L → 6 ≤ i) ∧
      t.g_hci_cmd_pool = s.g_hci_cmd_pool ∧
      t.g_hci_os_event_pool = s.g_hci_os_event_pool ∧
      t.ll_evq = s.ll_evq ∧ t.evmem = s.evmem ∧
      t.g_ll_stats.hci_events_sent = s.g_ll_stats.hci_events_sent) ∧
    (0 ≤ (ll_hci_cmd_dispatch k H cmdbuf s).2.1 →
      (ll_hci_cmd_dispatch k H cmdbuf s).2.1 ≤ BLE_ERR_MAX →
      ∃ s', ll_hci_cmd_proc k H ev s = Except.ok s') := by
  obtain ⟨_, f1, f2, f3, f4, f5, f6⟩ := dispatch_frame k H cmdbuf s
  have habort : ∀ t, ll_hci_cmd_proc k H ev s = Except.error t →
      ((ll_hci_cmd_dispatch k H cmdbuf s).2.1 < 0 ∨
        BLE_ERR_MAX < (ll_hci_cmd_dispatch k H cmdbuf s).2.1) ∧
      (t = (ll_hci_cmd_dispatch k H cmdbuf s).2.2.2 ∨
       t = { (ll_hci_cmd_dispatch k H cmdbuf s).2.2.2 with g_ll_stats :=
            { (ll_hci_cmd_dispatch k H cmdbuf s).2.2.2.g_ll_stats with hci_cmd_errs :=
              (ll_hci_cmd_dispatch k H cmdbuf s).2.2.2.g_ll_stats.hci_cmd_errs + 1 } }) := by
    intro t ht
    by_cases h0 : (ll_hci_cmd_dispatch k H cmdbuf s).2.1 < 0
    · rw [cmd_proc_unfold k H ev cmdbuf s hv.1, if_pos h0] at ht
      cases ht
      exact ⟨Or.inl h0, Or.inl rfl⟩
    · by_cases h1 : (ll_hci_cmd_dispatch k H cmdbuf s).2.1 ≤ BLE_ERR_MAX
      · obtain ⟨s', hs⟩ := cmd_proc_emits k H ev cmdbuf s hv (not_lt.mp h0) h1
        rw [hs] at ht
        cases ht
      · rw [cmd_proc_unfold k H ev cmdbuf s hv.1, if_neg h0, if_neg h1] at ht
        cases ht
        exact ⟨Or.inr (not_le.mp h1), Or.inr rfl⟩
  refine ⟨⟨fun ⟨t, ht⟩ => (habort t ht).1, fun hr => ?_⟩, fun t ht => ?_,
    cmd_proc_emits k H ev cmdbuf s hv⟩
  · rcases hr with h0 | h1
    · exact ⟨_, by rw [cmd_proc_unfold k H ev cmdbuf s hv.1, if_pos h0]⟩
    · have h0 : ¬ (ll_hci_cmd_dispatch k H cmdbuf s).2.1 < 0 := by
        unfold BLE_ERR_MAX at h1
        omega
      exact ⟨_, by rw [cmd_proc_unfold k H ev cmdbuf s hv.1, if_neg h0, if_neg (not_le.mpr h1)]⟩
  · obtain ⟨L, hL, hw⟩ := dispatch_writes k H cmdbuf s
    rcases (habort t ht).2 with rfl | rfl
    · exact ⟨rfl, fun i hi => f6 cmdbuf i (Or.inr hi), rfl, ⟨L, hL, hw⟩, f2, f3, f5, f1,
        by rw [f4]⟩
    · exact ⟨rfl, fun i hi => f6 cmdbuf i (Or.inr hi), rfl, ⟨L, hL, hw⟩, f2, f3, f5, f1,
        by dsimp only; rw [f4]⟩

/-- Witness of C15: a set advertising enable command whose handler returns
the status 256. `ll_hci_cmd_proc` ends in a failed assertion; both pools are
as before the call and bytes 0 to 5 of the command block are untouched. -/
theorem C15_abort_iff_out_of_range_witness :
    ValidEv (demoState [0x0A, 0x20, 1, 1]) 20 10 ∧
    (ll_hci_cmd_dispatch btConsts outOfRangeHandlers 10 (demoState [0x0A, 0x20, 1, 1])).2.1
      = 256 ∧
    ∃ t, ll_hci_cmd_proc btConsts outOfRangeHandlers 20 (demoState [0x0A, 0x20, 1, 1])
        = Except.error t ∧
      t.g_hci_cmd_pool = (demoState [0x0A, 0x20, 1, 1]).g_hci_cmd_pool ∧
      t.g_hci_os_event_pool = (demoState [0x0A, 0x20, 1, 1]).g_hci_os_event_pool ∧
      ∀ i, i < 6 → t.cmdmem 10 i = (demoState [0x0A, 0x20, 1, 1]).cmdmem 10 i :=
  ⟨by decide, by decide,
    match (C15_abort_iff_out_of_range btConsts outOfRangeHandlers 20 10
      (demoState [0x0A, 0x20, 1, 1]) (by decide)).1.mpr (Or.inr (by decide)) with
    | ⟨t, ht⟩ =>
      match (C15_abort_iff_out_of_range btConsts outOfRangeHandlers 20 10
        (demoState [0x0A, 0x20, 1, 1]) (by decide)).2.1 t ht with
      | ⟨_, hb, _, _, hp, he, _⟩ => ⟨t, ht, hp, he, hb⟩⟩

/-! ## C16: the counters -/

/-- C16: for every command that `ll_hci_cmd_proc` completes (it returns),
exactly one of the two command counters goes up, by exactly 1:
`g_ll_stats.hci_cmds` if and only if the dispatch status is 0,
`g_ll_stats.hci_cmd_errs` if and only if it is not 0; the other one is
unchanged, and `g_ll_stats.hci_events_sent` goes up by exactly 1. The status
is the one in the status byte of the event. A command is completed whenever
the blocks were validly acquired and the status lies in `0..BLE_ERR_MAX`. -/
theorem C16_counters (k : HciConsts) (H : Handlers σ) (ev cmdbuf : Nat) (s : LLState σ)
    (harg : (s.evmem ev).ev_arg = some cmdbuf) :
    (∀ s', ll_hci_cmd_proc k H ev s = Except.ok s' →
      ((s'.cmdmem cmdbuf 5).val : Int) = (ll_hci_cmd_dispatch k H cmdbuf s).2.1 ∧
      ((ll_hci_cmd_dispatch k H cmdbuf s).2.1 = 0 →
        s'.g_ll_stats.hci_cmds = s.g_ll_stats.hci_cmds + 1 ∧
        s'.g_ll_stats.hci_cmd_errs = s.g_ll_stats.hci_cmd_errs) ∧
      ((ll_hci_cmd_dispatch k H cmdbuf s).2.1 ≠ 0 →
        s'.g_ll_stats.hci_cmd_errs = s.g_ll_stats.hci_cmd_errs + 1 ∧
        s'.g_ll_stats.hci_cmds = s.g_ll_stats.hci_cmds) ∧
      (s'.g_ll_stats.hci_cmds = s.g_ll_stats.hci_cmds + 1 ↔
        (ll_hci_cmd_dispatch k H cmdbuf s).2.1 = 0) ∧
      (s'.g_ll_stats.hci_cmd_errs = s.g_ll_stats.hci_cmd_errs + 1 ↔
        (ll_hci_cmd_dispatch k H cmdbuf s).2.1 ≠ 0) ∧
      s'.g_ll_stats.hci_events_sent = s.g_ll_stats.hci_events_sent + 1) ∧
    (ValidEv s ev cmdbuf → 0 ≤ (ll_hci_cmd_dispatch k H cmdbuf s).2.1 →
      (ll_hci_cmd_dispatch k H cmdbuf s).2.1 ≤ BLE_ERR_MAX →
      ∃ s', ll_hci_cmd_proc k H ev s = Except.ok s') := by
  refine ⟨fun s' h => ?_, cmd_proc_emits k H ev cmdbuf s⟩
  obtain ⟨hv, h0, h1⟩ := cmd_proc_done k H ev cmdbuf s s' harg h
  obtain ⟨s2, hs2, hmem, _, _, _, _, _, _, _, hst⟩ := cmd_proc_ok k H ev cmdbuf s hv h0 h1
  rw [h] at hs2
  cases hs2
  have hb5 : ((s'.cmdmem cmdbuf 5).val : Int) = (ll_hci_cmd_dispatch k H cmdbuf s).2.1 := by
    rw [hmem, (cmd_complete_bytes k cmdbuf _ _ _ _).2.2.2.2.2.1]
    exact u8_of_int_val h0 h1
  rw [hst]
  dsimp only
  by_cases hz : (ll_hci_cmd_dispatch k H cmdbuf s).2.1 = 0
  · rw [if_pos hz, if_pos hz]
    exact ⟨hb5, fun _ => ⟨rfl, rfl⟩, fun n => absurd hz n, ⟨fun _ => hz, fun _ => rfl⟩,
      ⟨fun e => by omega, fun n => absurd hz n⟩, rfl⟩
  · rw [if_neg hz, if_neg hz]
    exact ⟨hb5, fun e => absurd e hz, fun _ => ⟨rfl, rfl⟩, ⟨fun e => by omega, fun e => absurd e hz⟩,
      ⟨fun _ => hz, fun _ => rfl⟩, rfl⟩

/-- Witness of C16: LE read buffer size with no parameter, status 0; after
the call the counters are 1 command, 0 errors, 1 event sent. -/
theorem C16_counters_witness :
    ((demoState [0x02, 0x20, 0]).evmem 20).ev_arg = some 10 ∧
    (ll_hci_cmd_dispatch btConsts demoHandlers 10 (demoState [0x02, 0x20, 0])).2.1 = 0 ∧
    ∃ s', ll_hci_cmd_proc btConsts demoHandlers 20 (demoState [0x02, 0x20, 0]) = Except.ok s' ∧
      s'.g_ll_stats.hci_cmds = 1 ∧ s'.g_ll_stats.hci_cmd_errs = 0 ∧
      s'.g_ll_stats.hci_events_sent = 1 :=
  ⟨by decide, by decide,
    match demo_rd_buf_size_completes with
    | ⟨s', hs⟩ =>
      match (C16_counters btConsts demoHandlers 20 10 (demoState [0x02, 0x20, 0])
        (by decide)).1 s' hs with
      | ⟨_, hz, _, _, _, hsent⟩ => ⟨s', hs, (hz (by decide)).1, (hz (by decide)).2, hsent⟩⟩

/-! ## Submission: `hci_transport_host_cmd_send` -/

/-- Submission with no free envelope and a validly acquired command block:
the block is put back and -1 is returned. -/
theorem host_cmd_send_exhausted (k : HciConsts) (cmd : Nat) (s : LLState σ)
    (hfull : s.g_hci_os_event_pool.mp_free = [])
    (hcmd : cmd ∈ s.g_hci_cmd_pool.mp_blocks ∧ cmd ∉ s.g_hci_cmd_pool.mp_free) :
    hci_transport_host_cmd_send k (some cmd) s = Except.ok (-1,
      { s with g_hci_cmd_pool :=
        { s.g_hci_cmd_pool with mp_free := cmd :: s.g_hci_cmd_pool.mp_free } }) := by
  unfold hci_transport_host_cmd_send
  simp only [os_memblock_get, hfull, os_memblock_put, if_pos hcmd, ne_eq, not_true_eq_false,
    if_false]

/-- Submission with a free envelope: the first free envelope is taken, filled
in and appended to the queue, and 0 is returned. -/
theorem host_cmd_send_ok (k : HciConsts) (cmd : Option Nat) (s : LLState σ)
    (ev : Nat) (rest : List Nat) (hfree : s.g_hci_os_event_pool.mp_free = ev :: rest) :
    hci_transport_host_cmd_send k cmd s = Except.ok (0,
      os_eventq_put ev
        { s with
          g_hci_os_event_pool := { s.g_hci_os_event_pool with mp_free := rest }
          evmem := fun a =>
            if a = ev then
              { ev_queued := 0, ev_type := k.BLE_LL_EVENT_HCI_CMD, ev_arg := cmd }
            else s.evmem a }) := by
  unfold hci_transport_host_cmd_send
  simp only [os_memblock_get, hfree]
  congr 4
  funext a
  by_cases ha : a = ev
  · simp only [if_pos ha]
  · simp only [if_neg ha]

/-! ## C17: pool exhaustion on submission -/

/-- C17: pool exhaustion on submission. When the envelope pool has no free
block, `hci_transport_host_cmd_send(cmd)` with a validly acquired command
block returns -1; the block is put back, so the free count of the command
pool is one higher than before the call; the envelope pool, the event queue
and everything else are unchanged. Whenever the call returns at all, for any
`cmd`, it returns -1 with the free count of the command pool one higher and
envelope pool and queue unchanged; with a `cmd` that was not validly acquired
the assertion on the put fails and nothing is appended to the queue. -/
theorem C17_pool_exhaustion (k : HciConsts) (s : LLState σ)
    (hfull : s.g_hci_os_event_pool.mp_num_free = 0) :
    (∀ cmd, cmd ∈ s.g_hci_cmd_pool.mp_blocks ∧ cmd ∉ s.g_hci_cmd_pool.mp_free →
      hci_transport_host_cmd_send k (some cmd) s = Except.ok (-1,
        { s with g_hci_cmd_pool :=
          { s.g_hci_cmd_pool with mp_free := cmd :: s.g_hci_cmd_pool.mp_free } })) ∧
    (∀ cmd r, hci_transport_host_cmd_send k cmd s = Except.ok r →
      r.1 = -1 ∧
      r.2.g_hci_cmd_pool.mp_num_free = s.g_hci_cmd_pool.mp_num_free + 1 ∧
      r.2.g_hci_cmd_pool.mp_blocks = s.g_hci_cmd_pool.mp_blocks ∧
      r.2.g_hci_os_event_pool = s.g_hci_os_event_pool ∧
      r.2.ll_evq = s.ll_evq ∧ r.2.evmem = s.evmem ∧ r.2.cmdmem = s.cmdmem) ∧
    (∀ cmd, (∀ c, cmd = some c →
        ¬ (c ∈ s.g_hci_cmd_pool.mp_blocks ∧ c ∉ s.g_hci_cmd_pool.mp_free)) →
      hci_transport_host_cmd_send k cmd s = Except.error s) := by
  have hnil : s.g_hci_os_event_pool.mp_free = [] := List.eq_nil_of_length_eq_zero hfull
  refine ⟨fun cmd hcmd => host_cmd_send_exhausted k cmd s hnil hcmd, fun cmd r hr => ?_,
    fun cmd hbad => ?_⟩
  · cases cmd with
    | none =>
      unfold hci_transport_host_cmd_send at hr
      simp only [os_memblock_get, hnil, os_memblock_put, ne_eq, reduceCtorEq,
        not_false_eq_true, if_true] at hr
    | some c =>
      by_cases hc : c ∈ s.g_hci_cmd_pool.mp_blocks ∧ c ∉ s.g_hci_cmd_pool.mp_free
      · rw [host_cmd_send_exhausted k c s hnil hc] at hr
        cases hr
        exact ⟨rfl, rfl, rfl, rfl, rfl, rfl, rfl⟩
      · unfold hci_transport_host_cmd_send at hr
        simp only [os_memblock_get, hnil, os_memblock_put, if_neg hc, ne_eq, reduceCtorEq,
          not_false_eq_true, if_true] at hr
  · cases cmd with
    | none =>
      unfold hci_transport_host_cmd_send
      simp only [os_memblock_get, hnil, os_memblock_put, ne_eq, reduceCtorEq,
        not_false_eq_true, if_true]
    | some c =>
      unfold hci_transport_host_cmd_send
      simp only [os_memblock_get, hnil, os_memblock_put, if_neg (hbad c rfl), ne_eq,
        reduceCtorEq, not_false_eq_true, if_true]

/-- Witness of C17: the envelope pool of the state has no free block and the
command block 10 was acquired; the submission returns -1, the command pool
has the two free blocks 10 and 11 afterwards, and the queue is still empty. -/
theorem C17_pool_exhaustion_witness :
    ({ demoState [0x02, 0x20, 0] with
        g_hci_os_event_pool := { mp_blocks := [20, 21], mp_free := [] } }
      : LLState (List (Fn × Nat))).g_hci_os_event_pool.mp_num_free = 0 ∧
    ∃ s1, hci_transport_host_cmd_send btConsts (some 10)
        { demoState [0x02, 0x20, 0] with
          g_hci_os_event_pool := { mp_blocks := [20, 21], mp_free := [] } }
        = Except.ok (-1, s1) ∧
      s1.g_hci_cmd_pool.mp_free = [10, 11] ∧ s1.g_hci_os_event_pool.mp_free = [] ∧
      s1.ll_evq = [] :=
  ⟨by decide, _,
    (C17_pool_exhaustion btConsts
      { demoState [0x02, 0x20, 0] with
        g_hci_os_event_pool := { mp_blocks := [20, 21], mp_free := [] } }
      (by decide)).1 10 (by decide), rfl, rfl, rfl⟩

/-! ## C18: release after processing -/

/-- C18: release after processing, also on error. For every command that
`ll_hci_cmd_proc` completes (it returns; the status then lies in
`0..BLE_ERR_MAX`, be it 0 or an error status), the command block and the
envelope, neither of them free before the call, are each put at the head of
the free list of their pool: each is free exactly once afterwards, and the
free count of each pool is one higher than before. After a successful
`hci_transport_host_cmd_send`, `ll_hci_cmd_proc` on the envelope that was
enqueued leaves the free count of the envelope pool where it was before the
submission; it does complete when the envelope pool was consistent, the
command block validly acquired and the status in `0..BLE_ERR_MAX`. -/
theorem C18_release_after_processing (k : HciConsts) (H : Handlers σ) (s : LLState σ) :
    (∀ ev cmdbuf s', (s.evmem ev).ev_arg = some cmdbuf →
      ll_hci_cmd_proc k H ev s = Except.ok s' →
      (0 ≤ (ll_hci_cmd_dispatch k H cmdbuf s).2.1 ∧
        (ll_hci_cmd_dispatch k H cmdbuf s).2.1 ≤ BLE_ERR_MAX) ∧
      (cmdbuf ∉ s.g_hci_cmd_pool.mp_free ∧ ev ∉ s.g_hci_os_event_pool.mp_free) ∧
      s'.g_hci_cmd_pool.mp_free = cmdbuf :: s.g_hci_cmd_pool.mp_free ∧
      s'.g_hci_os_event_pool.mp_free = ev :: s.g_hci_os_event_pool.mp_free ∧
      s'.g_hci_cmd_pool.mp_free.count cmdbuf = 1 ∧
      s'.g_hci_os_event_pool.mp_free.count ev = 1 ∧
      s'.g_hci_cmd_pool.mp_num_free = s.g_hci_cmd_pool.mp_num_free + 1 ∧
      s'.g_hci_os_event_pool.mp_num_free = s.g_hci_os_event_pool.mp_num_free + 1 ∧
      s'.g_hci_cmd_pool.mp_blocks = s.g_hci_cmd_pool.mp_blocks ∧
      s'.g_hci_os_event_pool.mp_blocks = s.g_hci_os_event_pool.mp_blocks) ∧
    (∀ cmd s1, hci_transport_host_cmd_send k (some cmd) s = Except.ok (0, s1) →
      ∃ ev, s1.ll_evq = s.ll_evq ++ [ev] ∧ (s1.evmem ev).ev_arg = some cmd ∧
        s1.g_hci_os_event_pool.mp_num_free + 1 = s.g_hci_os_event_pool.mp_num_free ∧
        (∀ s2, ll_hci_cmd_proc k H ev s1 = Except.ok s2 →
          s2.g_hci_os_event_pool.mp_num_free = s.g_hci_os_event_pool.mp_num_free ∧
          s2.g_hci_cmd_pool.mp_num_free = s.g_hci_cmd_pool.mp_num_free + 1) ∧
        (s.g_hci_os_event_pool.Consistent →
          cmd ∈ s.g_hci_cmd_pool.mp_blocks ∧ cmd ∉ s.g_hci_cmd_pool.mp_free →
          0 ≤ (ll_hci_cmd_dispatch k H cmd s1).2.1 →
          (ll_hci_cmd_dispatch k H cmd s1).2.1 ≤ BLE_ERR_MAX →
          ∃ s2, ll_hci_cmd_proc k H ev s1 = Except.ok s2)) := by
  have part1 : ∀ (w : LLState σ) ev cmdbuf s', (w.evmem ev).ev_arg = some cmdbuf →
      ll_hci_cmd_proc k H ev w = Except.ok s' →
      ValidEv w ev cmdbuf ∧
      (0 ≤ (ll_hci_cmd_dispatch k H cmdbuf w).2.1 ∧
        (ll_hci_cmd_dispatch k H cmdbuf w).2.1 ≤ BLE_ERR_MAX) ∧
      s'.g_hci_cmd_pool =
        { w.g_hci_cmd_pool with mp_free := cmdbuf :: w.g_hci_cmd_pool.mp_free } ∧
      s'.g_hci_os_event_pool =
        { w.g_hci_os_event_pool with mp_free := ev :: w.g_hci_os_event_pool.mp_free } := by
    intro w ev cmdbuf s' harg h
    obtain ⟨hv, h0, h1⟩ := cmd_proc_done k H ev cmdbuf w s' harg h
    obtain ⟨s2, hs2, _, _, _, _, _, _, hc, he, _⟩ := cmd_proc_ok k H ev cmdbuf w hv h0 h1
    rw [h] at hs2
    cases hs2
    exact ⟨hv, ⟨h0, h1⟩, hc, he⟩
  refine ⟨fun ev cmdbuf s' harg h => ?_, fun cmd s1 hsend => ?_⟩
  · obtain ⟨hv, hr, hc, he⟩ := part1 s ev cmdbuf s' harg h
    rw [hc, he]
    refine ⟨hr, ⟨hv.2.1.2, hv.2.2.2⟩, rfl, rfl, ?_, ?_, rfl, rfl, rfl, rfl⟩
    · dsimp only
      rw [List.count_cons_self, List.count_eq_zero_of_not_mem hv.2.1.2]
    · dsimp only
      rw [List.count_cons_self, List.count_eq_zero_of_not_mem hv.2.2.2]
  · cases hfree : s.g_hci_os_event_pool.mp_free with
    | nil =>
      have h0 : s.g_hci_os_event_pool.mp_num_free = 0 := by
        unfold os_mempool.mp_num_free
        rw [hfree]
        rfl
      unfold hci_transport_host_cmd_send at hsend
      by_cases hc : cmd ∈ s.g_hci_cmd_pool.mp_blocks ∧ cmd ∉ s.g_hci_cmd_pool.mp_free
      · simp only [os_memblock_get, hfree, os_memblock_put, if_pos hc, ne_eq,
          not_true_eq_false, if_false, Except.ok.injEq, Prod.mk.injEq] at hsend
        exact absurd hsend.1 (by decide)
      · simp only [os_memblock_get, hfree, os_memblock_put, if_neg hc, ne_eq, reduceCtorEq,
          not_false_eq_true, if_true] at hsend
    | cons ev rest =>
      rw [host_cmd_send_ok k (some cmd) s ev rest hfree] at hsend
      simp only [Except.ok.injEq, Prod.mk.injEq, true_and] at hsend
      subst hsend
      have harg : ((os_eventq_put ev
          { s with
            g_hci_os_event_pool := { s.g_hci_os_event_pool with mp_free := rest }
            evmem := fun a =>
              if a = ev then
                { ev_queued := 0, ev_type := k.BLE_LL_EVENT_HCI_CMD, ev_arg := some cmd }
              else s.evmem a }).evmem ev).ev_arg = some cmd := by
        simp only [os_eventq_put, if_true]
      refine ⟨ev, rfl, harg, ?_, fun s2 h2 => ?_, fun hcons hcmd h0 h1 => ?_⟩
      · simp only [os_eventq_put, os_mempool.mp_num_free, hfree, List.length_cons]
      · obtain ⟨_, _, hc, he⟩ := part1 _ ev cmd s2 harg h2
        rw [hc, he]
        simp only [os_eventq_put, os_mempool.mp_num_free, hfree, List.length_cons, and_self]
      · refine cmd_proc_emits k H ev cmd _ ⟨harg, hcmd, ?_⟩ h0 h1
        obtain ⟨hnd, hsub⟩ := hcons
        rw [hfree] at hnd hsub
        exact ⟨hsub ev (List.mem_cons_self _ _), (List.nodup_cons.mp hnd).1⟩

/-- Witness of C18: an LE read buffer size command is submitted with the
command block 10; the envelope 21 is taken and enqueued, and after
`ll_hci_cmd_proc` on it the envelope pool has one free block, as before the
submission, and the command pool two. -/
theorem C18_release_after_processing_witness :
    ∃ s1, hci_transport_host_cmd_send btConsts (some 10) (demoState [0x02, 0x20, 0])
        = Except.ok (0, s1) ∧
      s1.ll_evq = [21] ∧
      ∃ s2, ll_hci_cmd_proc btConsts demoHandlers 21 s1 = Except.ok s2 ∧
        s2.g_hci_os_event_pool.mp_num_free = 1 ∧ s2.g_hci_cmd_pool.mp_num_free = 2 :=
  ⟨_, host_cmd_send_ok btConsts (some 10) (demoState [0x02, 0x20, 0]) 21 [] rfl, rfl,
    match (C18_release_after_processing btConsts demoHandlers (demoState [0x02, 0x20, 0])).2
      10 _ (host_cmd_send_ok btConsts (some 10) (demoState [0x02, 0x20, 0]) 21 [] rfl) with
    | ⟨ev, hq, _, _, hcount, hdone⟩ =>
      have hev : ev = 21 := by
        simp only [os_eventq_put, demoState, List.nil_append, List.cons.injEq, and_true] at hq
        exact hq.symm
      match hdone (by decide) (by decide) (by decide) (by decide) with
      | ⟨s2, h2⟩ => ⟨s2, hev ▸ h2, (hcount s2 h2).1, (hcount s2 h2).2⟩⟩

/-! ## C19: successful submission -/

/-- C19: successful submission. When the envelope pool has a free block,
`hci_transport_host_cmd_send(cmd)` returns 0: it takes the first free
envelope `ev` out of the envelope pool (one free block less, the other free
blocks as they were), leaves the command pool alone, and appends `ev` at the
tail of the event queue, the earlier entries keeping their places. At the
call of `os_eventq_put` the envelope has the queued flag 0, the type
`BLE_LL_EVENT_HCI_CMD` and the argument `cmd`; no other envelope is touched.
A second submission, taking another envelope, puts it behind the first, and
the two envelopes carry the two commands in the order of submission. -/
theorem C19_successful_submission (k : HciConsts) (cmd : Option Nat) (s : LLState σ)
    (hfree : 1 ≤ s.g_hci_os_event_pool.mp_num_free) :
    ∃ ev s1, s.g_hci_os_event_pool.mp_free.head? = some ev ∧
      hci_transport_host_cmd_send k cmd s = Except.ok (0, s1) ∧
      s1.g_hci_os_event_pool.mp_free = s.g_hci_os_event_pool.mp_free.tail ∧
      s1.g_hci_os_event_pool.mp_num_free + 1 = s.g_hci_os_event_pool.mp_num_free ∧
      s1.g_hci_os_event_pool.mp_blocks = s.g_hci_os_event_pool.mp_blocks ∧
      s1.g_hci_cmd_pool = s.g_hci_cmd_pool ∧
      s1.ll_evq = s.ll_evq ++ [ev] ∧
      (∃ t, s1 = os_eventq_put ev t ∧ t.ll_evq = s.ll_evq ∧
        t.evmem ev =
          { ev_queued := 0, ev_type := k.BLE_LL_EVENT_HCI_CMD, ev_arg := cmd }) ∧
      s1.evmem ev = { ev_queued := 0, ev_type := k.BLE_LL_EVENT_HCI_CMD, ev_arg := cmd } ∧
      (∀ a, a ≠ ev → s1.evmem a = s.evmem a) ∧
      s1.cmdmem = s.cmdmem ∧ s1.g_ll_stats = s.g_ll_stats ∧
      (∀ cmd2 ev2, s1.g_hci_os_event_pool.mp_free.head? = some ev2 → ev2 ≠ ev →
        ∃ s2, hci_transport_host_cmd_send k cmd2 s1 = Except.ok (0, s2) ∧
          s2.ll_evq = s.ll_evq ++ [ev, ev2] ∧
          (s2.evmem ev).ev_arg = cmd ∧ (s2.evmem ev2).ev_arg = cmd2) := by
  cases hf : s.g_hci_os_event_pool.mp_free with
  | nil =>
    unfold os_mempool.mp_num_free at hfree
    rw [hf] at hfree
    exact absurd hfree (by decide)
  | cons ev rest =>
    refine ⟨ev, _, rfl, host_cmd_send_ok k cmd s ev rest hf, rfl, ?_, rfl, rfl, rfl,
      ⟨_, rfl, rfl, ?_⟩, ?_, fun a ha => ?_, rfl, rfl, fun cmd2 ev2 h2 hne => ?_⟩
    · simp only [os_eventq_put, os_mempool.mp_num_free, hf, List.length_cons]
    · simp only [if_true]
    · simp only [os_eventq_put, if_true]
    · simp only [os_eventq_put, if_neg ha]
    · cases hr : rest with
      | nil =>
        rw [hr] at h2
        simp only [os_eventq_put, List.head?_nil, reduceCtorEq] at h2
      | cons e2 rest2 =>
        rw [hr] at h2
        simp only [os_eventq_put, List.head?_cons, Option.some.injEq] at h2
        subst h2
        refine ⟨_, host_cmd_send_ok k cmd2 _ e2 rest2 (by simp only [os_eventq_put, hr]),
          ?_, ?_, ?_⟩
        · simp only [os_eventq_put, List.append_assoc, List.singleton_append]
        · simp only [os_eventq_put, if_neg (Ne.symm hne), if_true]
        · simp only [os_eventq_put, if_true]

/-- Witness of C19: two submissions, of the command blocks 10 and 11, in a
state with the two free envelopes 20 and 21. Both return 0; the queue holds
20 then 21, and the two envelopes carry 10 and 11. -/
theorem C19_successful_submission_witness :
    1 ≤ ({ demoState [0x02, 0x20, 0] with
        g_hci_os_event_pool := { mp_blocks := [20, 21], mp_free := [20, 21] } }
      : LLState (List (Fn × Nat))).g_hci_os_event_pool.mp_num_free ∧
    ∃ s1, hci_transport_host_cmd_send btConsts (some 10)
        { demoState [0x02, 0x20, 0] with
          g_hci_os_event_pool := { mp_blocks := [20, 21], mp_free := [20, 21] } }
        = Except.ok (0, s1) ∧
      s1.ll_evq = [20] ∧
      ∃ s2, hci_transport_host_cmd_send btConsts (some 11) s1 = Except.ok (0, s2) ∧
        s2.ll_evq = [20, 21] ∧
        (s2.evmem 20).ev_arg = some 10 ∧ (s2.evmem 21).ev_arg = some 11 :=
  ⟨by decide,
    match C19_successful_submission btConsts (some 10)
      { demoState [0x02, 0x20, 0] with
        g_hci_os_event_pool := { mp_blocks := [20, 21], mp_free := [20, 21] } }
      (by decide) with
    | ⟨ev, s1, hhead, hsend, htail, _, _, _, hq, _, _, _, _, _, h2⟩ =>
      have hev : 20 = ev := Option.some.inj hhead
      match h2 (some 11) 21 (by rw [htail]; rfl) (by rw [← hev]; decide) with
      | ⟨s2, hs2, hq2, ha, hb⟩ =>
        ⟨s1, hsend, by rw [hq, ← hev]; rfl, s2, hs2, by rw [hq2, ← hev]; rfl,
          by rw [hev]; exact ha, hb⟩⟩

/-! ## C20: opcode decoding -/

/-- C20: opcode decoding. With `b0`, `b1` the first two bytes of the command
block, `ll_hci_cmd_proc` decodes the opcode `b0 + 256 * b1`; its OGF is
`b1 / 4`, the upper 6 bits, and its OCF is `(b1 % 4) * 256 + b0`, the lower 10
bits; `OGF * 1024 + OCF` is the opcode, `OGF < 64` (so the `uint8_t` that
holds it loses nothing) and `OCF < 1024`. The dispatch is a function of that
pair: when `b1 / 4 = BLE_HCI_OGF_LE` the result is that of
`ll_hci_le_cmd_proc` called with the OCF, otherwise it is
`BLE_ERR_UNKNOWN_HCI_CMD` with only the two opcode bytes read; and the part
of the log that the dispatch adds holds a call of `ll_hci_le_cmd_proc` if and
only if `b1 / 4 = BLE_HCI_OGF_LE`. -/
theorem C20_opcode_decoding (k : HciConsts) (H : Handlers σ) (cmdbuf : Nat) (s : LLState σ) :
    (ll_hci_cmd_dispatch k H cmdbuf s).1
      = (s.cmdmem cmdbuf 0).val + 256 * (s.cmdmem cmdbuf 1).val ∧
    BLE_HCI_OGF (ll_hci_cmd_dispatch k H cmdbuf s).1 = (s.cmdmem cmdbuf 1).val / 4 ∧
    BLE_HCI_OCF (ll_hci_cmd_dispatch k H cmdbuf s).1
      = ((s.cmdmem cmdbuf 1).val % 4) * 256 + (s.cmdmem cmdbuf 0).val ∧
    BLE_HCI_OGF (ll_hci_cmd_dispatch k H cmdbuf s).1 * 1024 +
      BLE_HCI_OCF (ll_hci_cmd_dispatch k H cmdbuf s).1 = (ll_hci_cmd_dispatch k H cmdbuf s).1 ∧
    BLE_HCI_OGF (ll_hci_cmd_dispatch k H cmdbuf s).1 < 64 ∧
    BLE_HCI_OCF (ll_hci_cmd_dispatch k H cmdbuf s).1 < 1024 ∧
    BLE_HCI_OGF (ll_hci_cmd_dispatch k H cmdbuf s).1 % 256
      = BLE_HCI_OGF (ll_hci_cmd_dispatch k H cmdbuf s).1 ∧
    ((s.cmdmem cmdbuf 1).val / 4 = k.BLE_HCI_OGF_LE →
      (ll_hci_cmd_dispatch k H cmdbuf s).2 =
        ((ll_hci_le_cmd_proc k H cmdbuf
            (((s.cmdmem cmdbuf 1).val % 4) * 256 + (s.cmdmem cmdbuf 0).val) 0
            (s.note [Event.read 0, Event.read 1, Event.call Fn.ll_hci_le_cmd_proc 0
              (some (((s.cmdmem cmdbuf 1).val % 4) * 256 + (s.cmdmem cmdbuf 0).val))])).1,
         (ll_hci_le_cmd_proc k H cmdbuf
            (((s.cmdmem cmdbuf 1).val % 4) * 256 + (s.cmdmem cmdbuf 0).val) 0
            (s.note [Event.read 0, Event.read 1, Event.call Fn.ll_hci_le_cmd_proc 0
              (some (((s.cmdmem cmdbuf 1).val % 4) * 256 + (s.cmdmem cmdbuf 0).val))])).2.1,
         (ll_hci_le_cmd_proc k H cmdbuf
            (((s.cmdmem cmdbuf 1).val % 4) * 256 + (s.cmdmem cmdbuf 0).val) 0
            (s.note [Event.read 0, Event.read 1, Event.call Fn.ll_hci_le_cmd_proc 0
              (some (((s.cmdmem cmdbuf 1).val % 4) * 256
                + (s.cmdmem cmdbuf 0).val))])).2.2.note
            [Event.ret Fn.ll_hci_le_cmd_proc])) ∧
    ((s.cmdmem cmdbuf 1).val / 4 ≠ k.BLE_HCI_OGF_LE →
      (ll_hci_cmd_dispatch k H cmdbuf s).2 =
        ((k.BLE_ERR_UNKNOWN_HCI_CMD.val : Int), 0, s.note [Event.read 0, Event.read 1])) ∧
    (∃ L, (ll_hci_cmd_dispatch k H cmdbuf s).2.2.2.log = s.log ++ L ∧
      ((∃ p a, Event.call Fn.ll_hci_le_cmd_proc p a ∈ L) ↔
        (s.cmdmem cmdbuf 1).val / 4 = k.BLE_HCI_OGF_LE)) := by
  have hb0 := (s.cmdmem cmdbuf 0).isLt
  have hb1 := (s.cmdmem cmdbuf 1).isLt
  have hop := (dispatch_frame k H cmdbuf s).1
  have hle : (le16toh cmdbuf 0 s).1
      = (s.cmdmem cmdbuf 0).val + 256 * (s.cmdmem cmdbuf 1).val := by
    rw [le16toh_eq]
  have hogf : BLE_HCI_OGF ((s.cmdmem cmdbuf 0).val + 256 * (s.cmdmem cmdbuf 1).val)
      = (s.cmdmem cmdbuf 1).val / 4 := by
    unfold BLE_HCI_OGF; omega
  have hocf : BLE_HCI_OCF ((s.cmdmem cmdbuf 0).val + 256 * (s.cmdmem cmdbuf 1).val)
      = ((s.cmdmem cmdbuf 1).val % 4) * 256 + (s.cmdmem cmdbuf 0).val := by
    unfold BLE_HCI_OCF; omega
  rw [hop, hogf, hocf]
  refine ⟨rfl, rfl, rfl, by omega, by omega, by omega, by omega, fun h => ?_, fun h => ?_, ?_⟩
  · have hd := dispatch_le k H cmdbuf s (by rw [hle, hogf]; exact h)
    rw [hle, hocf] at hd
    rw [hd]
  · have hd := dispatch_not_le k H cmdbuf s (by rw [hle, hogf]; exact h)
    rw [hd]
  · rcases dispatch_log k H cmdbuf s with ⟨hn, hd⟩ | ⟨hy, B, hd, _⟩
    · rw [hle, hogf] at hn
      refine ⟨_, hd, ⟨fun ⟨p, a, hm⟩ => ?_, fun e => absurd e hn⟩⟩
      simp only [List.mem_cons, reduceCtorEq, List.mem_singleton, List.not_mem_nil,
        or_self] at hm
    · rw [hle, hogf] at hy
      exact ⟨_, hd, ⟨fun _ => hy, fun _ => ⟨0, _, List.mem_cons_of_mem _
        (List.mem_cons_of_mem _ (List.mem_cons_self _ _))⟩⟩⟩

/-- Witness of C20: the opcode bytes 0x02, 0x20 decode to the opcode 0x2002,
OGF 8 (the LE group) and OCF 2, and the command reaches
`ll_hci_le_cmd_proc`. -/
theorem C20_opcode_decoding_witness :
    (ll_hci_cmd_dispatch btConsts demoHandlers 10 (demoState [0x02, 0x20, 0])).1 = 0x2002 ∧
    BLE_HCI_OGF (ll_hci_cmd_dispatch btConsts demoHandlers 10 (demoState [0x02, 0x20, 0])).1
      = 8 ∧
    BLE_HCI_OCF (ll_hci_cmd_dispatch btConsts demoHandlers 10 (demoState [0x02, 0x20, 0])).1
      = 2 ∧
    ∃ L, (ll_hci_cmd_dispatch btConsts demoHandlers 10 (demoState [0x02, 0x20, 0])).2.2.2.log
        = (demoState [0x02, 0x20, 0]).log ++ L ∧
      ∃ p a, Event.call Fn.ll_hci_le_cmd_proc p a ∈ L :=
  match C20_opcode_decoding btConsts demoHandlers 10 (demoState [0x02, 0x20, 0]) with
  | ⟨h1, h2, h3, _, _, _, _, _, _, L, hL, hiff⟩ =>
    ⟨h1, h2, h3, L, hL, hiff.mpr (by decide)⟩

end LlHci
